import Mathlib

/-!
# RaylibPong: gameplay screen (`src/game/src/screen_gameplay.c`)

A shallow embedding of the gameplay screen of the Pong game and the
properties of its ball state machine, collision handling and scoring.

## Number model

* `float` values are elements of an arbitrary linearly ordered field `F`.
  All definitions are polymorphic in `F`, so they can be run on `ℚ` and
  reasoned about on `ℝ`.  Comparisons, sums and differences of positions are
  exact.  The rounding of a result to `float` is explicit where a property
  depends on it: in `SetBallVelocity`, through `Libm.toFloat`, and in
  `GetDeflectionAngleRounded`.
* `int` values are elements of `Int`.  The only `int` that is ever modified
  is a paddle's `score`, by `++`: `incrInt32` adds one modulo `2 ^ 32` in the
  range of a 32-bit `int` (signed overflow is undefined in C; the compiled
  code wraps from `2147483647` to `-2147483648`).
* The C math library (`cos`, `sin`), raylib's `PI` and the rounding to
  `float` are not part of the repository.  They are a parameter `Libm F` of
  every function that reaches `SetBallVelocity`.  `realMath` is exact
  arithmetic on `ℝ`, `floatMath` is IEEE binary32 arithmetic on `ℚ`, and
  `Libm.Within δ` holds of every library on `ℝ` that is within `δ` of exact
  arithmetic.
* raylib's queries (`GetScreenWidth`, `GetScreenHeight`, `IsCursorOnScreen`,
  `GetMouseY`, `IsKeyDown`, `GetFrameTime`, `GetRandomValue`) are read from a
  `Frame` record holding the values returned during one frame.

* Drawing to the screen is not part of the state.  `sprintf` into the
  3-byte `scoreStr` is the one write of the drawing functions; a write past
  the buffer is undefined behaviour in C, and `DrawPaddleAndScore` and
  `DrawGameplayScreen` return `none` for it.

The C globals (`framesCounter`, `finishScreen`, `ballState`, `player1`,
`player2`, `ball`) are the fields of the record `Game`, passed explicitly.
-/

namespace Pong

/-! ## Constants (lines 33-39) -/

/-- Source: `const int paddleWidth = 16;` -/
def paddleWidth : Int := 16

/-- Source: `const int paddleHeight = 64;` -/
def paddleHeight : Int := 64

/-- Source: `const int ballSize = 16;` -/
def ballSize : Int := 16

/-- Source: `const float ballSpeed = 4.0f;` -/
def ballSpeed (F : Type) [LinearOrderedField F] : F := 4

/-- Source: `const float ballServeDuration = 2.0f;` -/
def ballServeDuration (F : Type) [LinearOrderedField F] : F := 2

/-- Source: `const float ballScoreDuration = 2.0f;` -/
def ballScoreDuration (F : Type) [LinearOrderedField F] : F := 2

/-- Source: `const float maxDeflectAngle = 70.0f;` -/
def maxDeflectAngle (F : Type) [LinearOrderedField F] : F := 70

/-! ## Data model (lines 41-54) -/

/-- Source: `enum BallState { SERVING, MOVING, SCORED }`. -/
inductive BallState where
  | SERVING
  | MOVING
  | SCORED
  deriving DecidableEq, Repr

/-- Source: `struct Paddle`; `scoreStr` holds the text last written by
`DrawPaddleAndScore`. -/
structure Paddle (F : Type) where
  x : F
  y : F
  moveSpeed : F
  score : Int
  scoreStr : String

/-- Source: `struct Ball`. -/
structure Ball (F : Type) where
  x : F
  y : F
  velX : F
  velY : F
  servingTime : F

/-- The global variables of the gameplay screen. -/
structure Game (F : Type) where
  framesCounter : Int
  finishScreen : Int
  ballState : BallState
  player1 : Paddle F
  player2 : Paddle F
  ball : Ball F

/-- The values the raylib queries return during one frame. -/
structure Frame (F : Type) where
  /-- Result of `GetScreenWidth()`. -/
  screenWidth : Int
  /-- Result of `GetScreenHeight()`. -/
  screenHeight : Int
  /-- Result of `IsCursorOnScreen()`. -/
  cursorOnScreen : Bool
  /-- Result of `GetMouseY()`. -/
  mouseY : Int
  /-- Result of `IsKeyDown(KEY_UP)`. -/
  keyUp : Bool
  /-- Result of `IsKeyDown(KEY_DOWN)`. -/
  keyDown : Bool
  /-- Result of `GetFrameTime()`. -/
  frameTime : F
  /-- Result of `GetRandomValue(-45, 45)`. -/
  randAngle : Int
  /-- Result of `GetRandomValue(0, 99)`. -/
  randSide : Int

/-- The arithmetic used by `SetBallVelocity` that is not in the repository:
`cos` and `sin` of the C library, raylib's constant `PI`, and the rounding of
a result to the `float` it is stored in. -/
structure Libm (F : Type) where
  cos : F → F
  sin : F → F
  pi : F
  toFloat : F → F

/-- Exact arithmetic on the real numbers: exact `cos`, `sin` and `pi`, and no
rounding. -/
noncomputable def realMath : Libm ℝ where
  cos := Real.cos
  sin := Real.sin
  pi := Real.pi
  toFloat := fun x => x

/-! ## raymath helpers -/

/-- Modelled from the spec: raymath's `Lerp` is not in `src/`; linear
interpolation `start + amount * (end - start)`. -/
def Lerp {F : Type} [LinearOrderedField F] (start stop amount : F) : F :=
  start + amount * (stop - start)

/-- Modelled from the spec: raymath's `Clamp` is not in `src/`; the value
limited to the range `[lo, hi]`, the lower bound tested first. -/
def Clamp {F : Type} [LinearOrderedField F] (value lo hi : F) : F :=
  let result := if value < lo then lo else value
  if result > hi then hi else result

/-! ## Gameplay functions (lines 59-134) -/

/-- Source: `GetDeflectionAngle` (lines 59-70). -/
def GetDeflectionAngle {F : Type} [LinearOrderedField F] (s : Game F) (paddle : Paddle F) : F :=
  let ballY := s.ball.y - paddle.y
  let angle := Lerp (-(maxDeflectAngle F)) (maxDeflectAngle F) (ballY / (paddleHeight : F))
  if s.ball.x < paddle.x then 180 - angle else angle

/-- Source: `GetDeflectionAngle` (lines 59-70) with the rounding of every
`float` result made explicit: `fl` rounds a number to the `float` that holds
it.  The difference `ball.y - paddle->y`, the quotient by `paddleHeight`, the
three operations of raymath's `Lerp` (`start + amount * (end - start)`) and
the mirroring `180.0f - angle` are one `float` operation each.  With `fl` the
identity this is `GetDeflectionAngle`. -/
def GetDeflectionAngleRounded {F : Type} [LinearOrderedField F] (fl : F → F) (s : Game F)
    (paddle : Paddle F) : F :=
  let ballY := fl (s.ball.y - paddle.y)
  let amount := fl (ballY / (paddleHeight : F))
  let angle := fl (-(maxDeflectAngle F)
    + fl (amount * fl (maxDeflectAngle F - -(maxDeflectAngle F))))
  if s.ball.x < paddle.x then fl (180 - angle) else angle

/-- Source: `SetBallVelocity` (lines 73-78).  `rad` is a `float`: the product
`angle * PI` and the quotient by `180.0f` are each rounded.  `cos` and `sin`
return a `double`, the product with `ballSpeed` is a `double`, and the store
into `velX` or `velY` rounds it to `float`. -/
def SetBallVelocity {F : Type} [LinearOrderedField F] (m : Libm F) (angle : F) (s : Game F) : Game F :=
  let rad := m.toFloat (m.toFloat (angle * m.pi) / 180)
  { s with ball := { s.ball with
      velX := m.toFloat (m.cos rad * ballSpeed F)
      velY := m.toFloat (m.sin rad * ballSpeed F) } }

/-- Lines 84-85 of `UpdateBallMovement`: move the ball. -/
def moveBall {F : Type} [LinearOrderedField F] (s : Game F) : Game F :=
  { s with ball := { s.ball with x := s.ball.x + s.ball.velX, y := s.ball.y + s.ball.velY } }

/-- Lines 88-96 of `UpdateBallMovement`: bounce off the top/bottom of the
screen. -/
def bounceWalls {F : Type} [LinearOrderedField F] (h : Int) (s : Game F) : Game F :=
  if s.ball.y ≤ 0 then
    { s with ball := { s.ball with velY := -s.ball.velY, y := 1 } }
  else if s.ball.y ≥ ((h - ballSize : Int) : F) then
    { s with ball := { s.ball with velY := -s.ball.velY, y := (h : F) - (ballSize : F) - 1 } }
  else s

/-- Source: `++` on a 32-bit `int` (lines 100 and 108): one more, reduced
modulo `2 ^ 32` into `[-2 ^ 31, 2 ^ 31)`. -/
def incrInt32 (n : Int) : Int := (n + 1 + 2147483648) % 4294967296 - 2147483648

/-- Lines 99-113 of `UpdateBallMovement`: a ball off the side scores a point
for the other player. -/
def checkScore {F : Type} [LinearOrderedField F] (w h : Int) (s : Game F) : Game F :=
  if s.ball.x < (ballSize : F) - 20 then
    { s with
      player2 := { s.player2 with score := incrInt32 s.player2.score }
      ball := { s.ball with servingTime := 0, x := (w : F) * 0.5, y := (h : F) * 0.5 }
      ballState := BallState.SCORED }
  else if s.ball.x > ((w : Int) : F) + 20 then
    { s with
      player1 := { s.player1 with score := incrInt32 s.player1.score }
      ball := { s.ball with servingTime := 0, x := (w : F) * 0.5, y := (h : F) * 0.5 }
      ballState := BallState.SCORED }
  else s

/-- The ball's box (`ballSize` x `ballSize`) overlaps the paddle's box
(`paddleWidth` x `paddleHeight`): the test of lines 116-118 and 126-128. -/
def Overlaps {F : Type} [LinearOrderedField F] (b : Ball F) (p : Paddle F) : Prop :=
  (b.x + (ballSize : F) > p.x ∧ b.x < p.x + (paddleWidth : F))
    ∧ (b.y + (ballSize : F) > p.y ∧ b.y < p.y + (paddleHeight : F))

/-- Lines 116-123 of `UpdateBallMovement`: collision with Player 1. -/
def collidePlayer1 {F : Type} [LinearOrderedField F] (m : Libm F) (s : Game F) : Game F :=
  if s.ball.x + (ballSize : F) > s.player1.x ∧ s.ball.x < s.player1.x + (paddleWidth : F) then
    if s.ball.y + (ballSize : F) > s.player1.y ∧ s.ball.y < s.player1.y + (paddleHeight : F) then
      let s1 := SetBallVelocity m (GetDeflectionAngle s s.player1) s
      { s1 with ball := { s1.ball with x := s1.player1.x + (paddleWidth : F) + 1 } }
    else s
  else s

/-- Lines 126-133 of `UpdateBallMovement`: collision with Player 2. -/
def collidePlayer2 {F : Type} [LinearOrderedField F] (m : Libm F) (s : Game F) : Game F :=
  if s.ball.x + (ballSize : F) > s.player2.x ∧ s.ball.x < s.player2.x + (paddleWidth : F) then
    if s.ball.y + (ballSize : F) > s.player2.y ∧ s.ball.y < s.player2.y + (paddleHeight : F) then
      let s1 := SetBallVelocity m (GetDeflectionAngle s s.player2) s
      { s1 with ball := { s1.ball with x := s1.player2.x - (ballSize : F) - 1 } }
    else s
  else s

/-- Source: `UpdateBallMovement` (lines 81-134), `w` and `h` the screen
size. -/
def UpdateBallMovement {F : Type} [LinearOrderedField F] (m : Libm F) (w h : Int) (s : Game F) : Game F :=
  collidePlayer2 m (collidePlayer1 m (checkScore w h (bounceWalls h (moveBall s))))

/-! ## Screen functions (lines 161-245) -/

/-- Source: `InitGameplayScreen` (lines 161-180), run on the globals `s` with
screen size `w` x `h`. -/
def InitGameplayScreen {F : Type} [LinearOrderedField F] (w h : Int) (s : Game F) : Game F :=
  let halfScreenHeight : F := (h : F) / 2 - (paddleHeight : F) / 2
  { s with
    player1 := { s.player1 with x := 20, y := halfScreenHeight }
    player2 := { s.player2 with
      x := (w : F) - (paddleWidth : F) - 20, y := halfScreenHeight, moveSpeed := 250 }
    ball := { s.ball with x := (w : F) / 2, y := (h : F) / 2 }
    ballState := BallState.SERVING
    framesCounter := 0
    finishScreen := 0 }

/-- Lines 186-189 of `UpdateGameplayScreen`: Player 1 follows the mouse. -/
def updatePlayer1 {F : Type} [LinearOrderedField F] (f : Frame F) (s : Game F) : Game F :=
  if f.cursorOnScreen then
    { s with player1 := { s.player1 with
        y := Clamp ((f.mouseY : F) - ((paddleHeight / 2 : Int) : F)) 0
              ((f.screenHeight : F) - (paddleHeight : F)) } }
  else s

/-- Lines 192-201 of `UpdateGameplayScreen`: Player 2 follows the keys. -/
def updatePlayer2 {F : Type} [LinearOrderedField F] (f : Frame F) (s : Game F) : Game F :=
  if f.keyUp then
    let y := s.player2.y - s.player2.moveSpeed * f.frameTime
    { s with player2 := { s.player2 with y := if y < 0 then 0 else y } }
  else if f.keyDown then
    let y := s.player2.y + s.player2.moveSpeed * f.frameTime
    { s with player2 := { s.player2 with
        y := if y > (f.screenHeight : F) - (paddleHeight : F)
             then (f.screenHeight : F) - (paddleHeight : F) else y } }
  else s

/-- Lines 204-235 of `UpdateGameplayScreen`: the ball state machine. -/
def updateBall {F : Type} [LinearOrderedField F] (m : Libm F) (f : Frame F) (s : Game F) : Game F :=
  match s.ballState with
  | BallState.SERVING =>
    let s1 := { s with ball := { s.ball with servingTime := s.ball.servingTime + f.frameTime } }
    if s1.ball.servingTime ≥ ballServeDuration F then
      let angle : F := (f.randAngle : F)
      let angle := if f.randSide ≥ 50 then angle + 180 else angle
      { SetBallVelocity m angle s1 with ballState := BallState.MOVING }
    else s1
  | BallState.MOVING => UpdateBallMovement m f.screenWidth f.screenHeight s
  | BallState.SCORED =>
    let s1 := { s with ball := { s.ball with servingTime := s.ball.servingTime + f.frameTime } }
    if s1.ball.servingTime ≥ ballScoreDuration F then
      { s1 with ballState := BallState.SERVING, ball := { s1.ball with servingTime := 0 } }
    else s1

/-- Source: `UpdateGameplayScreen` (lines 183-245). -/
def UpdateGameplayScreen {F : Type} [LinearOrderedField F] (m : Libm F) (f : Frame F) (s : Game F) : Game F :=
  updateBall m f (updatePlayer2 f (updatePlayer1 f s))

/-! ## Reachable states -/

/-- A frame with a non-negative frame time and random draws in the requested
ranges. -/
def Frame.Valid {F : Type} [LinearOrderedField F] (f : Frame F) : Prop :=
  0 ≤ f.frameTime ∧ (-45 ≤ f.randAngle ∧ f.randAngle ≤ 45) ∧ (0 ≤ f.randSide ∧ f.randSide ≤ 99)

/-- States obtained from `s0` by `UpdateGameplayScreen` calls whose frames
satisfy `ok`. -/
inductive ReachableFrom {F : Type} [LinearOrderedField F] (m : Libm F) (ok : Frame F → Prop)
    (s0 : Game F) : Game F → Prop where
  | start : ReachableFrom m ok s0 s0
  | step (f : Frame F) (s : Game F) : ReachableFrom m ok s0 s → ok f →
      ReachableFrom m ok s0 (UpdateGameplayScreen m f s)

/-- States reachable from `InitGameplayScreen` (run on any globals, with any
screen size) by updates with valid frames. -/
def Reachable {F : Type} [LinearOrderedField F] (m : Libm F) (s : Game F) : Prop :=
  ∃ (w h : Int) (prior : Game F), ReachableFrom m Frame.Valid (InitGameplayScreen w h prior) s

/-! ## Drawing functions (lines 139-156, 248-258) -/

/-- The text `sprintf` produces for the format `"%d"`. -/
def scoreText (n : Int) : String := toString n

/-- Source: `char scoreStr[3];` in `struct Paddle`. -/
def scoreStrSize : Nat := 3

/-- Source: `DrawPaddleAndScore` (lines 145-150).  The rectangle and the text
go to the screen; `sprintf` writes the score's text and its terminating NUL
into `scoreStr`.  Writing past the `scoreStrSize` bytes of the buffer is
undefined behaviour in C: the result is then `none`. -/
def DrawPaddleAndScore {F : Type} (paddle : Paddle F) : Option (Paddle F) :=
  if (scoreText paddle.score).length + 1 ≤ scoreStrSize then
    some { paddle with scoreStr := scoreText paddle.score }
  else none

/-- Source: `DrawGameplayScreen` (lines 248-258): `DrawBackground` and
`DrawBall` only read the state; the two `DrawPaddleAndScore` calls run in
order on `player1` and `player2`. -/
def DrawGameplayScreen {F : Type} (s : Game F) : Option (Game F) :=
  match DrawPaddleAndScore s.player1 with
  | none => none
  | some p1 =>
    match DrawPaddleAndScore s.player2 with
    | none => none
    | some p2 => some { s with player1 := p1, player2 := p2 }

/-! ## The arithmetic of the platform

`Libm.Within` states how far a library may be from exact arithmetic;
`floatMath` is IEEE binary32 arithmetic on the rational numbers. -/

/-- The library `m` is within `δ` of exact arithmetic: `PI`, `cos` and `sin`
are within `δ` of `π`, the cosine and the sine, and rounding a number of
magnitude at most `2 ^ 127` to `float` changes it by at most `δ` times the
larger of 1 and its magnitude.  IEEE binary32 rounding (relative error at most
`2 ^ (-24)`), raylib's `PI` (the `float` nearest to `π`, off by less than
`2 ^ (-23)`) and a C library accurate to `double` precision are within
`δ = 2 ^ (-23)`. -/
def Libm.Within (m : Libm ℝ) (δ : ℝ) : Prop :=
  |m.pi - Real.pi| ≤ δ
    ∧ (∀ x, |m.cos x - Real.cos x| ≤ δ)
    ∧ (∀ x, |m.sin x - Real.sin x| ≤ δ)
    ∧ (∀ x, |x| ≤ 2 ^ 127 → |m.toFloat x - x| ≤ δ * max 1 |x|)

/-- The integer part of the binary logarithm of `x > 0`, searched for in at
most the given number of halvings or doublings. -/
def log2Floor : Nat → ℚ → Int
  | 0, _ => 0
  | n + 1, x =>
    if 2 ≤ x then log2Floor n (x / 2) + 1
    else if x < 1 then log2Floor n (x * 2) - 1
    else 0

/-- The exponent of the unit in the last place of the binary32 numbers around
`x`: 24 significant bits, smallest normal exponent -126. -/
def ulpExp32 (x : ℚ) : Int :=
  max (log2Floor 300 |x|) (-126) - 23

/-- The integer nearest to `q`, the even one of two that are equally near. -/
def roundHalfEven (q : ℚ) : Int :=
  let n : Int := q.num / q.den
  let r : ℚ := q - n
  if r < 1 / 2 then n else if 1 / 2 < r then n + 1 else if n % 2 = 0 then n else n + 1

/-- IEEE 754 binary32 rounding to nearest, ties to even, of a rational number
below the overflow threshold: the conversion of a result to `float`. -/
def round32 (x : ℚ) : ℚ :=
  (roundHalfEven (x / (2 : ℚ) ^ ulpExp32 x) : ℚ) * (2 : ℚ) ^ ulpExp32 x

/-- Horner form of the cosine series in `y = x ^ 2`: the terms from index `k`
on, `n` of them, divided by the term of index `k`. -/
def cosHorner : Nat → Nat → ℚ → ℚ
  | 0, _, _ => 1
  | n + 1, k, y => 1 - y / ((2 * k + 1) * (2 * k + 2) : Nat) * cosHorner n (k + 1) y

/-- Horner form of the sine series in `y = x ^ 2`: the terms from index `k`
on, `n` of them, divided by the term of index `k`. -/
def sinHorner : Nat → Nat → ℚ → ℚ
  | 0, _, _ => 1
  | n + 1, k, y => 1 - y / ((2 * k + 2) * (2 * k + 3) : Nat) * sinHorner n (k + 1) y

/-- The Taylor polynomial of degree 38 of the cosine,
`1 - x ^ 2 / 2! + x ^ 4 / 4! - ... - x ^ 38 / 38!`.  For `|x| <= 5` it is
within `10 ^ (-20)` of the cosine, closer than a `double`. -/
def cosTaylor (x : ℚ) : ℚ := cosHorner 19 0 (x * x)

/-- The Taylor polynomial of degree 39 of the sine,
`x - x ^ 3 / 3! + x ^ 5 / 5! - ... - x ^ 39 / 39!`.  For `|x| <= 5` it is
within `10 ^ (-20)` of the sine, closer than a `double`. -/
def sinTaylor (x : ℚ) : ℚ := x * sinHorner 19 0 (x * x)

/-- The arithmetic of the compiled game, on the rational numbers: `cos` and
`sin` to more than `double` precision, raylib's `PI` (the `float`
`3.14159274101257324`, which is `13176795 / 2 ^ 22`), and binary32 rounding of
every stored `float`. -/
def floatMath : Libm ℚ where
  cos := cosTaylor
  sin := sinTaylor
  pi := 13176795 / 4194304
  toFloat := round32

/-! ## Derived notions used by the properties -/

/-- The value of `rad` in `SetBallVelocity` (line 75). -/
def radians {F : Type} [LinearOrderedField F] (m : Libm F) (angle : F) : F :=
  m.toFloat (m.toFloat (angle * m.pi) / 180)

/-- The squared speed of the ball. -/
def speedSq {F : Type} [LinearOrderedField F] (s : Game F) : F :=
  s.ball.velX ^ 2 + s.ball.velY ^ 2

/-- The state in which the Player 1 check of `UpdateBallMovement` runs during
`UpdateGameplayScreen`: after the paddle input, the position step, the wall
bounce and the scoring step. -/
def atPlayer1Check {F : Type} [LinearOrderedField F] (f : Frame F) (s : Game F) : Game F :=
  checkScore f.screenWidth f.screenHeight
    (bounceWalls f.screenHeight (moveBall (updatePlayer2 f (updatePlayer1 f s))))

/-- The state in which the Player 2 check runs: after the Player 1 check. -/
def atPlayer2Check {F : Type} [LinearOrderedField F] (m : Libm F) (f : Frame F) (s : Game F) : Game F :=
  collidePlayer1 m (atPlayer1Check f s)

/-- The update of a moving ball takes the top-wall branch (line 88): after
the paddle input and the position step, `ball.y <= 0`. -/
def topBounceTaken {F : Type} [LinearOrderedField F] (f : Frame F) (s : Game F) : Prop :=
  (moveBall (updatePlayer2 f (updatePlayer1 f s))).ball.y ≤ 0

/-- The update of a moving ball takes the bottom-wall branch (line 92): the
top-wall test fails and `ball.y >= GetScreenHeight() - ballSize`. -/
def bottomBounceTaken {F : Type} [LinearOrderedField F] (f : Frame F) (s : Game F) : Prop :=
  ¬ (moveBall (updatePlayer2 f (updatePlayer1 f s))).ball.y ≤ 0
    ∧ (moveBall (updatePlayer2 f (updatePlayer1 f s))).ball.y
        ≥ ((f.screenHeight - ballSize : Int) : F)

/-! ## Example states -/

/-- The globals as C initialises them at program start: every number zero,
`ballState` the first enumerator, the score text empty. -/
def startGame (F : Type) [LinearOrderedField F] : Game F where
  framesCounter := 0
  finishScreen := 0
  ballState := BallState.SERVING
  player1 := { x := 0, y := 0, moveSpeed := 0, score := 0, scoreStr := "" }
  player2 := { x := 0, y := 0, moveSpeed := 0, score := 0, scoreStr := "" }
  ball := { x := 0, y := 0, velX := 0, velY := 0, servingTime := 0 }

/-- A frame on a `w` x `h` screen with no input, frame time `dt` and both
random draws zero. -/
def idleFrame {F : Type} [LinearOrderedField F] (w h : Int) (dt : F) : Frame F where
  screenWidth := w
  screenHeight := h
  cursorOnScreen := false
  mouseY := 0
  keyUp := false
  keyDown := false
  frameTime := dt
  randAngle := 0
  randSide := 0

/-- A frame on a `w` x `h` screen with the cursor on screen at height
`mouseY`, no key down, frame time `dt` and both random draws zero. -/
def cursorFrame {F : Type} [LinearOrderedField F] (w h mouseY : Int) (dt : F) : Frame F where
  screenWidth := w
  screenHeight := h
  cursorOnScreen := true
  mouseY := mouseY
  keyUp := false
  keyDown := false
  frameTime := dt
  randAngle := 0
  randSide := 0

/-- The start-up globals with a paddle (`player1`) at `(px, py)` and the ball
at `(bx, bally)`. -/
def placed {F : Type} [LinearOrderedField F] (px py bx bally : F) : Game F :=
  { startGame F with
    player1 := { (startGame F).player1 with x := px, y := py }
    ball := { (startGame F).ball with x := bx, y := bally } }

/-- A game initialised on a `w` x `h` screen from the start-up globals, with
the ball moving: position `(x, y)`, velocity `(vx, vy)`, timer at 2. -/
def courtGame {F : Type} [LinearOrderedField F] (w h : Int) (x y vx vy : F) : Game F :=
  { InitGameplayScreen w h (startGame F) with
    ballState := BallState.MOVING
    ball := { x := x, y := y, velX := vx, velY := vy, servingTime := 2 } }

/-- The serving frame of the rally: 2 seconds, DOWN held, both draws zero. -/
def rallyServeFrame {F : Type} [LinearOrderedField F] : Frame F :=
  { idleFrame 800 450 2 with keyDown := true }

/-- The rally between points: ball at the centre, being served, Player 1 with
`k` points. -/
def rallyServing {F : Type} [LinearOrderedField F] (k : Int) (p2y vx vy : F) : Game F where
  framesCounter := 0
  finishScreen := 0
  ballState := BallState.SERVING
  player1 := { x := 20, y := 193, moveSpeed := 0, score := k, scoreStr := "" }
  player2 := { x := 764, y := p2y, moveSpeed := 250, score := 0, scoreStr := "" }
  ball := { x := 400, y := 225, velX := vx, velY := vy, servingTime := 0 }

/-- The rally in flight: ball at `(x, 225)` moving right, Player 2 at the
bottom. -/
def rallyMoving {F : Type} [LinearOrderedField F] (k : Int) (x : F) : Game F where
  framesCounter := 0
  finishScreen := 0
  ballState := BallState.MOVING
  player1 := { x := 20, y := 193, moveSpeed := 0, score := k, scoreStr := "" }
  player2 := { x := 764, y := 386, moveSpeed := 250, score := 0, scoreStr := "" }
  ball := { x := x, y := 225, velX := 4, velY := 0, servingTime := 2 }

/-- The rally after a point: ball back at the centre, Player 1 with `k`
points. -/
def rallyScored {F : Type} [LinearOrderedField F] (k : Int) : Game F where
  framesCounter := 0
  finishScreen := 0
  ballState := BallState.SCORED
  player1 := { x := 20, y := 193, moveSpeed := 0, score := k, scoreStr := "" }
  player2 := { x := 764, y := 386, moveSpeed := 250, score := 0, scoreStr := "" }
  ball := { x := 400, y := 225, velX := 4, velY := 0, servingTime := 0 }

/-- One point of the rally: the serving frame, 106 frames of flight and the
2-second pause after the score. -/
def playPoint {F : Type} [LinearOrderedField F] (m : Libm F) (s : Game F) : Game F :=
  UpdateGameplayScreen m (idleFrame 800 450 2)
    ((UpdateGameplayScreen m (idleFrame 800 450 0))^[106]
      (UpdateGameplayScreen m rallyServeFrame s))

/-- A frame of a game played on the 800 x 450 screen. -/
def Frame.OnCourt {F : Type} [LinearOrderedField F] (f : Frame F) : Prop :=
  f.Valid ∧ f.screenWidth = 800 ∧ f.screenHeight = 450

/-! # Properties -/

/-! ## Deflection angle and velocity -/

section Generic

variable {F : Type} [LinearOrderedField F]

/-- The interpolated angle is `-70 + 140 * t`. -/
theorem lerp_deflect (t : F) :
    Lerp (-(maxDeflectAngle F)) (maxDeflectAngle F) t = -70 + 140 * t := by
  unfold Lerp maxDeflectAngle
  ring

/-- `GetDeflectionAngle` in closed form. -/
theorem getDeflectionAngle_eq (s : Game F) (p : Paddle F) :
    GetDeflectionAngle s p =
      if s.ball.x < p.x then 180 - (-70 + 140 * ((s.ball.y - p.y) / 64))
      else -70 + 140 * ((s.ball.y - p.y) / 64) := by
  simp [GetDeflectionAngle, lerp_deflect, paddleHeight]

end Generic

/-- A library within `δ` of exact arithmetic has `δ >= 0`. -/
theorem within_nonneg {m : Libm ℝ} {δ : ℝ} (h : m.Within δ) : 0 ≤ δ :=
  le_trans (abs_nonneg _) h.1

/-- Rounding a number of magnitude at most `B` changes it by at most `δ B`. -/
theorem toFloat_near {m : Libm ℝ} {δ : ℝ} (h : m.Within δ) (x B : ℝ) (hx : |x| ≤ B)
    (h1 : 1 ≤ B) (hB : B ≤ 2 ^ 127) : |m.toFloat x - x| ≤ δ * B :=
  (h.2.2.2 x (hx.trans hB)).trans
    (mul_le_mul_of_nonneg_left (max_le h1 hx) (within_nonneg h))

/-- The radian argument computed for an angle of at most 450 degrees is within
`25 δ` of `angle * π / 180`. -/
theorem radians_near {m : Libm ℝ} {δ : ℝ} (h : m.Within δ) (hδ : δ ≤ 1 / 100000) (A : ℝ)
    (hA : |A| ≤ 450) : |radians m A - A * Real.pi / 180| ≤ 25 * δ := by
  have h0 := within_nonneg h
  have hpi3 := Real.pi_gt_three
  have hpi4 := Real.pi_le_four
  obtain ⟨hp1, hp2⟩ := abs_le.mp h.1
  obtain ⟨hA1, hA2⟩ := abs_le.mp hA
  have hpiabs : |m.pi| ≤ 41 / 10 := abs_le.mpr ⟨by linarith, by linarith⟩
  have hx1 : |A * m.pi| ≤ 1845 := by
    rw [abs_mul]
    calc |A| * |m.pi| ≤ 450 * (41 / 10) := mul_le_mul hA hpiabs (abs_nonneg _) (by norm_num)
      _ = 1845 := by norm_num
  have e1 := toFloat_near h (A * m.pi) 1845 hx1 (by norm_num) (by norm_num)
  have e2 : |A * m.pi - A * Real.pi| ≤ 450 * δ := by
    rw [← mul_sub, abs_mul]
    exact mul_le_mul hA h.1 (abs_nonneg _) (by norm_num)
  have e3 : |m.toFloat (A * m.pi) - A * Real.pi| ≤ 2295 * δ := by
    have := abs_add (m.toFloat (A * m.pi) - A * m.pi) (A * m.pi - A * Real.pi)
    rw [sub_add_sub_cancel] at this
    linarith
  have e4 : |m.toFloat (A * m.pi) / 180 - A * Real.pi / 180| ≤ 13 * δ := by
    rw [← sub_div, abs_div, abs_of_pos (by norm_num : (0 : ℝ) < 180), div_le_iff₀ (by norm_num)]
    linarith
  have hAp : |A * Real.pi / 180| ≤ 10 := by
    rw [abs_div, abs_of_pos (by norm_num : (0 : ℝ) < 180), div_le_iff₀ (by norm_num), abs_mul,
      abs_of_pos Real.pi_pos]
    calc |A| * Real.pi ≤ 450 * 4 := mul_le_mul hA hpi4 Real.pi_pos.le (by norm_num)
      _ = 10 * 180 := by norm_num
  have hx2 : |m.toFloat (A * m.pi) / 180| ≤ 11 := by
    have := abs_add (m.toFloat (A * m.pi) / 180 - A * Real.pi / 180) (A * Real.pi / 180)
    rw [sub_add_cancel] at this
    linarith
  have e5 := toFloat_near h (m.toFloat (A * m.pi) / 180) 11 hx2 (by norm_num) (by norm_num)
  unfold radians
  have := abs_add (m.toFloat (m.toFloat (A * m.pi) / 180) - m.toFloat (A * m.pi) / 180)
    (m.toFloat (A * m.pi) / 180 - A * Real.pi / 180)
  rw [sub_add_sub_cancel] at this
  linarith

/-- A stored velocity component is within `9 δ` of four times the exact
cosine or sine of the radian argument. -/
theorem stored_near {m : Libm ℝ} {δ : ℝ} (h : m.Within δ) (hδ : δ ≤ 1 / 100000) (r : ℝ) :
    |m.toFloat (m.cos r * 4) - 4 * Real.cos r| ≤ 9 * δ
      ∧ |m.toFloat (m.sin r * 4) - 4 * Real.sin r| ≤ 9 * δ := by
  have h0 := within_nonneg h
  have key : ∀ a b : ℝ, |a - b| ≤ δ → |b| ≤ 1 → |m.toFloat (a * 4) - 4 * b| ≤ 9 * δ := by
    intro a b hab hb
    obtain ⟨k1, k2⟩ := abs_le.mp hab
    obtain ⟨b1, b2⟩ := abs_le.mp hb
    have ha : |a * 4| ≤ 5 := abs_le.mpr ⟨by linarith, by linarith⟩
    have e1 := toFloat_near h (a * 4) 5 ha (by norm_num) (by norm_num)
    have e2 : |a * 4 - 4 * b| ≤ 4 * δ := abs_le.mpr ⟨by linarith, by linarith⟩
    have := abs_add (m.toFloat (a * 4) - a * 4) (a * 4 - 4 * b)
    rw [sub_add_sub_cancel] at this
    linarith
  exact ⟨key _ _ (h.2.1 r) (Real.abs_cos_le_one r), key _ _ (h.2.2.1 r) (Real.abs_sin_le_one r)⟩

/-- Two numbers within `9 δ` of `4 c` and `4 s`, with `c ^ 2 + s ^ 2 = 1`, have
squares that sum to a number within `150 δ` of 16. -/
theorem speed_near (c s X Y δ : ℝ) (hcs : c ^ 2 + s ^ 2 = 1) (hX : |X - 4 * c| ≤ 9 * δ)
    (hY : |Y - 4 * s| ≤ 9 * δ) (hδ : δ ≤ 1 / 100000) : |X ^ 2 + Y ^ 2 - 16| ≤ 150 * δ := by
  have h0 : 0 ≤ δ := by linarith [abs_nonneg (X - 4 * c)]
  obtain ⟨x1, x2⟩ := abs_le.mp hX
  obtain ⟨y1, y2⟩ := abs_le.mp hY
  have hc : |c| ≤ 1 := by
    rw [← abs_one, ← sq_le_sq]
    nlinarith [sq_nonneg s]
  have hs : |s| ≤ 1 := by
    rw [← abs_one, ← sq_le_sq]
    nlinarith [sq_nonneg c]
  obtain ⟨c1, c2⟩ := abs_le.mp hc
  obtain ⟨s1, s2⟩ := abs_le.mp hs
  have hu : (X - 4 * c) ^ 2 ≤ (9 * δ) ^ 2 := sq_le_sq'  (by linarith) (by linarith)
  have hv : (Y - 4 * s) ^ 2 ≤ (9 * δ) ^ 2 := sq_le_sq'  (by linarith) (by linarith)
  have hcu : |c * (X - 4 * c)| ≤ 9 * δ := by
    rw [abs_mul]
    calc |c| * |X - 4 * c| ≤ 1 * (9 * δ) := mul_le_mul hc hX (abs_nonneg _) (by norm_num)
      _ = 9 * δ := by ring
  have hsv : |s * (Y - 4 * s)| ≤ 9 * δ := by
    rw [abs_mul]
    calc |s| * |Y - 4 * s| ≤ 1 * (9 * δ) := mul_le_mul hs hY (abs_nonneg _) (by norm_num)
      _ = 9 * δ := by ring
  obtain ⟨p1, p2⟩ := abs_le.mp hcu
  obtain ⟨q1, q2⟩ := abs_le.mp hsv
  have hid : X ^ 2 + Y ^ 2 - 16
      = 8 * (c * (X - 4 * c)) + 8 * (s * (Y - 4 * s)) + (X - 4 * c) ^ 2 + (Y - 4 * s) ^ 2 := by
    have : (16 : ℝ) = 16 * (c ^ 2 + s ^ 2) := by rw [hcs]; ring
    rw [this]
    ring
  have hsq : (9 * δ) ^ 2 ≤ δ := by nlinarith
  rw [hid]
  exact abs_le.mpr ⟨by nlinarith [sq_nonneg (X - 4 * c), sq_nonneg (Y - 4 * s)], by linarith⟩

/-- Jordan's inequality for the cosine: at distance `ε` from a right angle
the cosine is at least `ε / 2`. -/
theorem cos_lower (t ε : ℝ) (hε : 0 ≤ ε) (h : |t| ≤ Real.pi / 2 - ε) : ε / 2 ≤ Real.cos t := by
  have hpi := Real.pi_pos
  have hpi4 := Real.pi_le_four
  have h1 : 0 ≤ Real.pi / 2 - |t| := by linarith
  have h2 : Real.pi / 2 - |t| ≤ Real.pi / 2 := by linarith [abs_nonneg t]
  have hj := Real.mul_le_sin h1 h2
  rw [Real.sin_pi_div_two_sub, Real.cos_abs] at hj
  have h3 : ε / 2 ≤ 2 / Real.pi * (Real.pi / 2 - |t|) := by
    have h4 : (1 : ℝ) / 2 ≤ 2 / Real.pi := by
      rw [div_le_div_iff₀ (by norm_num) hpi]
      linarith
    calc ε / 2 = 1 / 2 * ε := by ring
      _ ≤ 2 / Real.pi * ε := mul_le_mul_of_nonneg_right h4 hε
      _ ≤ 2 / Real.pi * (Real.pi / 2 - |t|) :=
        mul_le_mul_of_nonneg_left (by linarith) (by positivity)
  linarith

/-- Within `π / 4 - ε` of zero the cosine exceeds the sine in magnitude by at
least `ε / 2`. -/
theorem abs_sin_add_le_abs_cos (t ε : ℝ) (hε : 0 ≤ ε) (h : |t| ≤ Real.pi / 4 - ε) :
    |Real.sin t| + ε / 2 ≤ |Real.cos t| := by
  have h2 : |2 * t| ≤ Real.pi / 2 - 2 * ε := by
    rw [abs_mul, abs_of_pos (by norm_num : (0 : ℝ) < 2)]
    linarith
  have hc := cos_lower (2 * t) (2 * ε) (by linarith) h2
  have h2x := Real.cos_sq_add_sin_sq t
  have hcos2 : Real.cos (2 * t) = Real.cos t ^ 2 - Real.sin t ^ 2 := by
    rw [Real.cos_two_mul]
    linarith
  have ha : |Real.cos t| ^ 2 - |Real.sin t| ^ 2 = Real.cos (2 * t) := by
    rw [sq_abs, sq_abs, hcos2]
  have hc1 := Real.abs_cos_le_one t
  have hs1 := Real.abs_sin_le_one t
  have hcn := abs_nonneg (Real.cos t)
  have hsn := abs_nonneg (Real.sin t)
  have hS : 1 ≤ |Real.cos t| + |Real.sin t| := by
    have e1 : |Real.cos t| ^ 2 ≤ |Real.cos t| := by nlinarith
    have e2 : |Real.sin t| ^ 2 ≤ |Real.sin t| := by nlinarith
    have e3 : |Real.cos t| ^ 2 + |Real.sin t| ^ 2 = 1 := by rw [sq_abs, sq_abs, h2x]
    linarith
  by_contra hcon
  push_neg at hcon
  have h5 : (|Real.cos t| - |Real.sin t|) * (|Real.cos t| + |Real.sin t|)
      < ε / 2 * (|Real.cos t| + |Real.sin t|) :=
    mul_lt_mul_of_pos_right (by linarith) (by linarith)
  have h6 : ε / 2 * (|Real.cos t| + |Real.sin t|) ≤ ε / 2 * 2 :=
    mul_le_mul_of_nonneg_left (by linarith) (by linarith)
  have h7 : (|Real.cos t| - |Real.sin t|) * (|Real.cos t| + |Real.sin t|)
      = |Real.cos t| ^ 2 - |Real.sin t| ^ 2 := by ring
  linarith

/-- The cosine and the sine change by no more than their argument. -/
theorem cos_sin_lipschitz (x y : ℝ) :
    |Real.cos x - Real.cos y| ≤ |x - y| ∧ |Real.sin x - Real.sin y| ≤ |x - y| := by
  have h1 := Real.abs_sin_le_abs (x := (x - y) / 2)
  have h2 := Real.abs_sin_le_one ((x + y) / 2)
  have h3 := Real.abs_cos_le_one ((x + y) / 2)
  have h4 : |(x - y) / 2| = |x - y| / 2 := by
    rw [abs_div, abs_of_pos (by norm_num : (0 : ℝ) < 2)]
  have hn := abs_nonneg (Real.sin ((x - y) / 2))
  constructor
  · rw [Real.cos_sub_cos, abs_mul, abs_mul, abs_neg, abs_of_pos (by norm_num : (0 : ℝ) < 2)]
    nlinarith [abs_nonneg (Real.sin ((x + y) / 2))]
  · rw [Real.sin_sub_sin, abs_mul, abs_mul, abs_of_pos (by norm_num : (0 : ℝ) < 2)]
    nlinarith [abs_nonneg (Real.cos ((x + y) / 2))]

/-- The velocity components that `SetBallVelocity` stores. -/
theorem setBallVelocity_vel {F : Type} [LinearOrderedField F] (m : Libm F) (angle : F)
    (s : Game F) :
    (SetBallVelocity m angle s).ball.velX = m.toFloat (m.cos (radians m angle) * 4)
      ∧ (SetBallVelocity m angle s).ball.velY = m.toFloat (m.sin (radians m angle) * 4) :=
  ⟨rfl, rfl⟩

/-- The stored velocity is within `9 δ` of four times the exact cosine and
sine of the radian argument. -/
theorem setBallVelocity_near {m : Libm ℝ} {δ : ℝ} (h : m.Within δ) (hδ : δ ≤ 1 / 100000)
    (angle : ℝ) (s : Game ℝ) :
    |(SetBallVelocity m angle s).ball.velX - 4 * Real.cos (radians m angle)| ≤ 9 * δ
      ∧ |(SetBallVelocity m angle s).ball.velY - 4 * Real.sin (radians m angle)| ≤ 9 * δ := by
  rw [(setBallVelocity_vel m angle s).1, (setBallVelocity_vel m angle s).2]
  exact stored_near h hδ _

/-- For an angle of at most 450 degrees the stored velocity is within `109 δ`
of `(4 cos(angle π / 180), 4 sin(angle π / 180))`. -/
theorem setBallVelocity_near_exact {m : Libm ℝ} {δ : ℝ} (h : m.Within δ)
    (hδ : δ ≤ 1 / 100000) (angle : ℝ) (s : Game ℝ) (hA : |angle| ≤ 450) :
    |(SetBallVelocity m angle s).ball.velX - 4 * Real.cos (angle * Real.pi / 180)| ≤ 109 * δ
      ∧ |(SetBallVelocity m angle s).ball.velY - 4 * Real.sin (angle * Real.pi / 180)|
          ≤ 109 * δ := by
  obtain ⟨hx, hy⟩ := setBallVelocity_near h hδ angle s
  have hr := radians_near h hδ angle hA
  obtain ⟨lc, ls⟩ := cos_sin_lipschitz (radians m angle) (angle * Real.pi / 180)
  constructor
  · have := abs_add ((SetBallVelocity m angle s).ball.velX - 4 * Real.cos (radians m angle))
      (4 * Real.cos (radians m angle) - 4 * Real.cos (angle * Real.pi / 180))
    rw [sub_add_sub_cancel, ← mul_sub, abs_mul, abs_of_pos (by norm_num : (0 : ℝ) < 4)] at this
    linarith
  · have := abs_add ((SetBallVelocity m angle s).ball.velY - 4 * Real.sin (radians m angle))
      (4 * Real.sin (radians m angle) - 4 * Real.sin (angle * Real.pi / 180))
    rw [sub_add_sub_cancel, ← mul_sub, abs_mul, abs_of_pos (by norm_num : (0 : ℝ) < 4)] at this
    linarith

/-- The squared speed that `SetBallVelocity` stores is within `150 δ` of 16. -/
theorem setBallVelocity_speedSq {m : Libm ℝ} {δ : ℝ} (h : m.Within δ) (hδ : δ ≤ 1 / 100000)
    (angle : ℝ) (s : Game ℝ) : |speedSq (SetBallVelocity m angle s) - 16| ≤ 150 * δ := by
  obtain ⟨hx, hy⟩ := setBallVelocity_near h hδ angle s
  exact speed_near _ _ _ _ δ (Real.cos_sq_add_sin_sq (radians m angle)) hx hy hδ

/-- For an angle within 89.6875 degrees of 0 the stored `velX` is positive. -/
theorem setBallVelocity_velX_pos {m : Libm ℝ} {δ : ℝ} (h : m.Within δ) (hδ : δ ≤ 1 / 100000)
    (angle : ℝ) (s : Game ℝ) (hA : |angle| ≤ 1435 / 16) :
    0 < (SetBallVelocity m angle s).ball.velX := by
  have h0 := within_nonneg h
  have hpi := Real.pi_gt_d2
  have hr := radians_near h hδ angle (hA.trans (by norm_num))
  have hA2 : |angle * Real.pi / 180| ≤ 1435 / 16 * Real.pi / 180 := by
    rw [abs_div, abs_mul, abs_of_pos Real.pi_pos, abs_of_pos (by norm_num : (0 : ℝ) < 180)]
    exact div_le_div_of_nonneg_right (mul_le_mul_of_nonneg_right hA Real.pi_pos.le)
      (by norm_num)
  have hrad : |radians m angle| ≤ Real.pi / 2 - 1 / 200 := by
    have := abs_add (radians m angle - angle * Real.pi / 180) (angle * Real.pi / 180)
    rw [sub_add_cancel] at this
    linarith
  have hc := cos_lower _ _ (by norm_num) hrad
  obtain ⟨hx, -⟩ := abs_le.mp (setBallVelocity_near h hδ angle s).1
  linarith

/-- For an angle within 89.6875 degrees of 180 the stored `velX` is
negative. -/
theorem setBallVelocity_velX_neg {m : Libm ℝ} {δ : ℝ} (h : m.Within δ) (hδ : δ ≤ 1 / 100000)
    (angle : ℝ) (s : Game ℝ) (hA : |angle - 180| ≤ 1435 / 16) :
    (SetBallVelocity m angle s).ball.velX < 0 := by
  have h0 := within_nonneg h
  have hpi := Real.pi_gt_d2
  obtain ⟨a1, a2⟩ := abs_le.mp hA
  have hr := radians_near h hδ angle (abs_le.mpr ⟨by linarith, by linarith⟩)
  have hA2 : |(angle - 180) * Real.pi / 180| ≤ 1435 / 16 * Real.pi / 180 := by
    rw [abs_div, abs_mul, abs_of_pos Real.pi_pos, abs_of_pos (by norm_num : (0 : ℝ) < 180)]
    exact div_le_div_of_nonneg_right (mul_le_mul_of_nonneg_right hA Real.pi_pos.le)
      (by norm_num)
  have hrad : |radians m angle - Real.pi| ≤ Real.pi / 2 - 1 / 200 := by
    have := abs_add (radians m angle - angle * Real.pi / 180) ((angle - 180) * Real.pi / 180)
    have e : radians m angle - angle * Real.pi / 180 + (angle - 180) * Real.pi / 180
        = radians m angle - Real.pi := by ring
    rw [e] at this
    linarith
  have hc := cos_lower _ _ (by norm_num) hrad
  rw [Real.cos_sub_pi] at hc
  obtain ⟨-, hx⟩ := abs_le.mp (setBallVelocity_near h hδ angle s).1
  linarith

/-- Exact arithmetic is within 0 of exact arithmetic. -/
theorem realMath_within : realMath.Within 0 := by
  refine ⟨?_, ?_, ?_, ?_⟩ <;> simp [realMath]

/-- C2, amended: for every library within `δ <= 10 ^ (-5)` of exact arithmetic
and every angle in degrees, `SetBallVelocity(angle)` stores the velocity
`(toFloat (cos rad * 4), toFloat (sin rad * 4))` with
`rad = toFloat (toFloat (angle * PI) / 180)`; its squared magnitude is within
`150 δ` of `ballSpeed ^ 2 = 16`; for an angle of at most 450 degrees each
component is within `109 δ` of `4 cos(angle π / 180)` and
`4 sin(angle π / 180)`; and every other field of the ball, both paddles and
the other globals are unchanged. -/
theorem setBallVelocity_spec (m : Libm ℝ) (δ : ℝ) (hm : m.Within δ) (hδ : δ ≤ 1 / 100000)
    (angle : ℝ) (s : Game ℝ) :
    (SetBallVelocity m angle s).ball.velX
        = m.toFloat (m.cos (m.toFloat (m.toFloat (angle * m.pi) / 180)) * 4)
      ∧ (SetBallVelocity m angle s).ball.velY
        = m.toFloat (m.sin (m.toFloat (m.toFloat (angle * m.pi) / 180)) * 4)
      ∧ |(SetBallVelocity m angle s).ball.velX ^ 2
          + (SetBallVelocity m angle s).ball.velY ^ 2 - ballSpeed ℝ ^ 2| ≤ 150 * δ
      ∧ ballSpeed ℝ ^ 2 = 16
      ∧ (|angle| ≤ 450 →
        |(SetBallVelocity m angle s).ball.velX - 4 * Real.cos (angle * Real.pi / 180)|
            ≤ 109 * δ
          ∧ |(SetBallVelocity m angle s).ball.velY - 4 * Real.sin (angle * Real.pi / 180)|
            ≤ 109 * δ)
      ∧ (SetBallVelocity m angle s).ball.x = s.ball.x
      ∧ (SetBallVelocity m angle s).ball.y = s.ball.y
      ∧ (SetBallVelocity m angle s).ball.servingTime = s.ball.servingTime
      ∧ (SetBallVelocity m angle s).player1 = s.player1
      ∧ (SetBallVelocity m angle s).player2 = s.player2
      ∧ (SetBallVelocity m angle s).ballState = s.ballState
      ∧ (SetBallVelocity m angle s).framesCounter = s.framesCounter
      ∧ (SetBallVelocity m angle s).finishScreen = s.finishScreen := by
  have h16 : ballSpeed ℝ ^ 2 = 16 := by norm_num [ballSpeed]
  refine ⟨rfl, rfl, ?_, h16, setBallVelocity_near_exact hm hδ angle s,
    rfl, rfl, rfl, rfl, rfl, rfl, rfl, rfl⟩
  rw [h16]
  exact setBallVelocity_speedSq hm hδ angle s

/-- C2 as stated fails in binary32 arithmetic.  `SetBallVelocity(45)` stores
`velX = velY = 11863283 / 2 ^ 22` (`2.82842708`), whose squares sum to less
than 16 (`15.99999945`); and `SetBallVelocity(180)` stores
`velY = -6151831 / 2 ^ 44` (`-3.4969e-07`), not `4 sin(π) = 0`. -/
theorem setBallVelocity_counterexample :
    (SetBallVelocity floatMath 45 (startGame ℚ)).ball.velX = 11863283 / 4194304
      ∧ (SetBallVelocity floatMath 45 (startGame ℚ)).ball.velY = 11863283 / 4194304
      ∧ (SetBallVelocity floatMath 45 (startGame ℚ)).ball.velX ^ 2
          + (SetBallVelocity floatMath 45 (startGame ℚ)).ball.velY ^ 2 < 16
      ∧ (SetBallVelocity floatMath 45 (startGame ℚ)).ball.velX ^ 2
          + (SetBallVelocity floatMath 45 (startGame ℚ)).ball.velY ^ 2 ≠ ballSpeed ℚ ^ 2
      ∧ (SetBallVelocity floatMath 180 (startGame ℚ)).ball.velX = -4
      ∧ (SetBallVelocity floatMath 180 (startGame ℚ)).ball.velY = -6151831 / 17592186044416
      ∧ (SetBallVelocity floatMath 180 (startGame ℚ)).ball.velY ≠ 0 := by
  decide!

/-- With exact arithmetic, `SetBallVelocity(30)` stores a velocity whose
squared magnitude is 16. -/
theorem setBallVelocity_spec_witness :
    realMath.Within 0 ∧ (0 : ℝ) ≤ 1 / 100000
      ∧ |(SetBallVelocity realMath 30 (startGame ℝ)).ball.velX ^ 2
          + (SetBallVelocity realMath 30 (startGame ℝ)).ball.velY ^ 2 - ballSpeed ℝ ^ 2|
        ≤ 150 * 0
      ∧ (SetBallVelocity realMath 30 (startGame ℝ)).ball.x = (startGame ℝ).ball.x :=
  have h := setBallVelocity_spec realMath 0 realMath_within (by norm_num) 30 (startGame ℝ)
  ⟨realMath_within, by norm_num, h.2.2.1, h.2.2.2.2.2.1⟩

/-! ## Effect of the frame steps on the fields -/

section Steps

variable {F : Type} [LinearOrderedField F]

theorem updatePlayer1_ball (f : Frame F) (s : Game F) : (updatePlayer1 f s).ball = s.ball := by
  unfold updatePlayer1; split <;> rfl

theorem updatePlayer1_ballState (f : Frame F) (s : Game F) :
    (updatePlayer1 f s).ballState = s.ballState := by
  unfold updatePlayer1; split <;> rfl

theorem updatePlayer1_score (f : Frame F) (s : Game F) :
    (updatePlayer1 f s).player1.score = s.player1.score
      ∧ (updatePlayer1 f s).player2 = s.player2 := by
  unfold updatePlayer1; split <;> exact ⟨rfl, rfl⟩

theorem updatePlayer2_ball (f : Frame F) (s : Game F) : (updatePlayer2 f s).ball = s.ball := by
  unfold updatePlayer2; split_ifs <;> rfl

theorem updatePlayer2_ballState (f : Frame F) (s : Game F) :
    (updatePlayer2 f s).ballState = s.ballState := by
  unfold updatePlayer2; split_ifs <;> rfl

theorem updatePlayer2_score (f : Frame F) (s : Game F) :
    (updatePlayer2 f s).player2.score = s.player2.score
      ∧ (updatePlayer2 f s).player1 = s.player1 := by
  unfold updatePlayer2; split_ifs <;> exact ⟨rfl, rfl⟩

/-- The paddle updates leave the ball, the ball state and both scores as they
were. -/
theorem updatePlayers_frame (f : Frame F) (s : Game F) :
    (updatePlayer2 f (updatePlayer1 f s)).ball = s.ball
      ∧ (updatePlayer2 f (updatePlayer1 f s)).ballState = s.ballState
      ∧ (updatePlayer2 f (updatePlayer1 f s)).player1.score = s.player1.score
      ∧ (updatePlayer2 f (updatePlayer1 f s)).player2.score = s.player2.score := by
  refine ⟨?_, ?_, ?_, ?_⟩
  · rw [updatePlayer2_ball, updatePlayer1_ball]
  · rw [updatePlayer2_ballState, updatePlayer1_ballState]
  · rw [(updatePlayer2_score f _).2, (updatePlayer1_score f s).1]
  · rw [(updatePlayer2_score f _).1, (updatePlayer1_score f s).2]

/-- `UpdateGameplayScreen` on a serving ball. -/
theorem update_serving (m : Libm F) (f : Frame F) (s : Game F)
    (hs : s.ballState = BallState.SERVING) :
    UpdateGameplayScreen m f s =
      if s.ball.servingTime + f.frameTime ≥ 2 then
        { SetBallVelocity m (if f.randSide ≥ 50 then (f.randAngle : F) + 180 else (f.randAngle : F))
            { updatePlayer2 f (updatePlayer1 f s) with
              ball := { s.ball with servingTime := s.ball.servingTime + f.frameTime } } with
          ballState := BallState.MOVING }
      else
        { updatePlayer2 f (updatePlayer1 f s) with
          ball := { s.ball with servingTime := s.ball.servingTime + f.frameTime } } := by
  obtain ⟨hb, hst, -, -⟩ := updatePlayers_frame f s
  unfold UpdateGameplayScreen updateBall
  rw [hst, hs]
  simp only [hb, hst, hs, ballServeDuration]

/-- `UpdateGameplayScreen` on a moving ball. -/
theorem update_moving (m : Libm F) (f : Frame F) (s : Game F)
    (hs : s.ballState = BallState.MOVING) :
    UpdateGameplayScreen m f s =
      UpdateBallMovement m f.screenWidth f.screenHeight (updatePlayer2 f (updatePlayer1 f s)) := by
  obtain ⟨-, hst, -, -⟩ := updatePlayers_frame f s
  unfold UpdateGameplayScreen updateBall
  rw [hst, hs]

/-- `UpdateGameplayScreen` after a score. -/
theorem update_scored (m : Libm F) (f : Frame F) (s : Game F)
    (hs : s.ballState = BallState.SCORED) :
    UpdateGameplayScreen m f s =
      if s.ball.servingTime + f.frameTime ≥ 2 then
        { updatePlayer2 f (updatePlayer1 f s) with
          ballState := BallState.SERVING
          ball := { s.ball with servingTime := 0 } }
      else
        { updatePlayer2 f (updatePlayer1 f s) with
          ball := { s.ball with servingTime := s.ball.servingTime + f.frameTime } } := by
  obtain ⟨hb, hst, -, -⟩ := updatePlayers_frame f s
  unfold UpdateGameplayScreen updateBall
  rw [hst, hs]
  simp only [hb, hst, hs, ballScoreDuration]

end Steps

/-! ## Speed of the moving ball -/

theorem moveBall_speedSq {F : Type} [LinearOrderedField F] (s : Game F) :
    speedSq (moveBall s) = speedSq s := rfl

theorem bounceWalls_speedSq {F : Type} [LinearOrderedField F] (h : Int) (s : Game F) :
    speedSq (bounceWalls h s) = speedSq s := by
  unfold bounceWalls
  split_ifs <;> simp [speedSq]

theorem checkScore_speedSq {F : Type} [LinearOrderedField F] (w h : Int) (s : Game F) :
    speedSq (checkScore w h s) = speedSq s := by
  unfold checkScore
  split_ifs <;> rfl

theorem collidePlayer1_speedSq {m : Libm ℝ} {δ : ℝ} (h : m.Within δ) (hδ : δ ≤ 1 / 100000)
    (s : Game ℝ) (hv : |speedSq s - 16| ≤ 150 * δ) :
    |speedSq (collidePlayer1 m s) - 16| ≤ 150 * δ := by
  unfold collidePlayer1
  split_ifs
  · exact setBallVelocity_speedSq h hδ _ s
  · exact hv
  · exact hv

theorem collidePlayer2_speedSq {m : Libm ℝ} {δ : ℝ} (h : m.Within δ) (hδ : δ ≤ 1 / 100000)
    (s : Game ℝ) (hv : |speedSq s - 16| ≤ 150 * δ) :
    |speedSq (collidePlayer2 m s) - 16| ≤ 150 * δ := by
  unfold collidePlayer2
  split_ifs
  · exact setBallVelocity_speedSq h hδ _ s
  · exact hv
  · exact hv

/-- One frame of ball movement keeps the squared speed within `150 δ` of 16. -/
theorem updateBallMovement_speedSq {m : Libm ℝ} {δ : ℝ} (h : m.Within δ)
    (hδ : δ ≤ 1 / 100000) (w ht : Int) (s : Game ℝ) (hv : |speedSq s - 16| ≤ 150 * δ) :
    |speedSq (UpdateBallMovement m w ht s) - 16| ≤ 150 * δ := by
  unfold UpdateBallMovement
  apply collidePlayer2_speedSq h hδ
  apply collidePlayer1_speedSq h hδ
  rw [checkScore_speedSq, bounceWalls_speedSq, moveBall_speedSq]
  exact hv

/-- An update keeps "a moving ball has squared speed within `150 δ` of 16". -/
theorem update_moving_speed {m : Libm ℝ} {δ : ℝ} (h : m.Within δ) (hδ : δ ≤ 1 / 100000)
    (f : Frame ℝ) (s : Game ℝ)
    (inv : s.ballState = BallState.MOVING → |speedSq s - 16| ≤ 150 * δ)
    (hm : (UpdateGameplayScreen m f s).ballState = BallState.MOVING) :
    |speedSq (UpdateGameplayScreen m f s) - 16| ≤ 150 * δ := by
  have hst : (updatePlayer2 f (updatePlayer1 f s)).ballState = s.ballState :=
    (updatePlayers_frame f s).2.1
  cases hs : s.ballState with
  | SERVING =>
    rw [update_serving m f s hs] at hm ⊢
    by_cases ht : s.ball.servingTime + f.frameTime ≥ 2
    · rw [if_pos ht]
      exact setBallVelocity_speedSq h hδ _ _
    · rw [if_neg ht] at hm
      have hm2 : (updatePlayer2 f (updatePlayer1 f s)).ballState = BallState.MOVING := hm
      rw [hst, hs] at hm2
      cases hm2
  | MOVING =>
    rw [update_moving m f s hs]
    apply updateBallMovement_speedSq h hδ
    have hb := (updatePlayers_frame f s).1
    simp only [speedSq, hb]
    exact inv hs
  | SCORED =>
    rw [update_scored m f s hs] at hm
    by_cases ht : s.ball.servingTime + f.frameTime ≥ 2
    · rw [if_pos ht] at hm
      cases hm
    · rw [if_neg ht] at hm
      have hm2 : (updatePlayer2 f (updatePlayer1 f s)).ballState = BallState.MOVING := hm
      rw [hst, hs] at hm2
      cases hm2

/-- From a state that is not moving, every state reached by updates (with
any frames) has squared speed within `150 δ` of 16 whenever the ball is
moving. -/
theorem reachableFrom_moving_speed {m : Libm ℝ} {δ : ℝ} (h : m.Within δ)
    (hδ : δ ≤ 1 / 100000) (ok : Frame ℝ → Prop) (s0 s : Game ℝ)
    (h0 : s0.ballState ≠ BallState.MOVING) (hr : ReachableFrom m ok s0 s) :
    s.ballState = BallState.MOVING → |speedSq s - 16| ≤ 150 * δ := by
  induction hr with
  | start => intro hm; exact absurd hm h0
  | step f s _ _ ih => exact update_moving_speed h hδ f s ih

/-- C3, amended: for every library within `δ <= 10 ^ (-5)` of exact
arithmetic, in every state reachable from `InitGameplayScreen` by updates (any
screen size, inputs, non-negative frame times and random draws), a moving ball
has a velocity whose squared magnitude is within `150 δ` of
`ballSpeed ^ 2 = 16`. -/
theorem moving_speed_invariant (m : Libm ℝ) (δ : ℝ) (hm : m.Within δ) (hδ : δ ≤ 1 / 100000)
    (s : Game ℝ) (hr : Reachable m s) (hmov : s.ballState = BallState.MOVING) :
    |s.ball.velX ^ 2 + s.ball.velY ^ 2 - 16| ≤ 150 * δ := by
  obtain ⟨w, h, prior, hreach⟩ := hr
  exact reachableFrom_moving_speed hm hδ _ _ s (by simp [InitGameplayScreen]) hreach hmov

/-- C3 as stated fails in binary32 arithmetic: after initialising the start-up
globals on an 800 x 450 screen, one 2-second frame with the draws 45 and 0
serves the ball at 45 degrees.  The state is reachable and moving, with
`velX = velY = 11863283 / 2 ^ 22`, and the squared magnitude is less than 16
(`15.99999945`). -/
theorem moving_speed_counterexample :
    Reachable floatMath
        (UpdateGameplayScreen floatMath { idleFrame 800 450 2 with randAngle := 45 }
          (InitGameplayScreen 800 450 (startGame ℚ)))
      ∧ (UpdateGameplayScreen floatMath { idleFrame 800 450 2 with randAngle := 45 }
          (InitGameplayScreen 800 450 (startGame ℚ))).ballState = BallState.MOVING
      ∧ (UpdateGameplayScreen floatMath { idleFrame 800 450 2 with randAngle := 45 }
          (InitGameplayScreen 800 450 (startGame ℚ))).ball.velX = 11863283 / 4194304
      ∧ (UpdateGameplayScreen floatMath { idleFrame 800 450 2 with randAngle := 45 }
          (InitGameplayScreen 800 450 (startGame ℚ))).ball.velY = 11863283 / 4194304
      ∧ (UpdateGameplayScreen floatMath { idleFrame 800 450 2 with randAngle := 45 }
            (InitGameplayScreen 800 450 (startGame ℚ))).ball.velX ^ 2
          + (UpdateGameplayScreen floatMath { idleFrame 800 450 2 with randAngle := 45 }
            (InitGameplayScreen 800 450 (startGame ℚ))).ball.velY ^ 2 ≠ 16 := by
  refine ⟨⟨800, 450, startGame ℚ, ReachableFrom.step _ _ ReachableFrom.start ?_⟩, ?_⟩
  · norm_num [Frame.Valid, idleFrame]
  · decide!

/-- With exact arithmetic, the state after initialising the start-up globals
on an 800 x 450 screen and one 2-second frame is reachable, moving, and has
squared speed 16. -/
theorem moving_speed_invariant_witness :
    realMath.Within 0 ∧ (0 : ℝ) ≤ 1 / 100000
      ∧ Reachable realMath
        (UpdateGameplayScreen realMath (idleFrame 800 450 2) (InitGameplayScreen 800 450 (startGame ℝ)))
      ∧ (UpdateGameplayScreen realMath (idleFrame 800 450 2)
          (InitGameplayScreen 800 450 (startGame ℝ))).ballState = BallState.MOVING
      ∧ |(UpdateGameplayScreen realMath (idleFrame 800 450 2)
            (InitGameplayScreen 800 450 (startGame ℝ))).ball.velX ^ 2
          + (UpdateGameplayScreen realMath (idleFrame 800 450 2)
            (InitGameplayScreen 800 450 (startGame ℝ))).ball.velY ^ 2 - 16| ≤ 150 * 0 :=
  have hreach : Reachable realMath
      (UpdateGameplayScreen realMath (idleFrame 800 450 2) (InitGameplayScreen 800 450 (startGame ℝ))) :=
    ⟨800, 450, startGame ℝ, ReachableFrom.step _ _ ReachableFrom.start
      (by norm_num [Frame.Valid, idleFrame])⟩
  have hmov : (UpdateGameplayScreen realMath (idleFrame 800 450 2)
      (InitGameplayScreen 800 450 (startGame ℝ))).ballState = BallState.MOVING := by
    rw [update_serving realMath _ _ rfl]
    norm_num [InitGameplayScreen, startGame, idleFrame, SetBallVelocity]
  ⟨realMath_within, by norm_num, hreach, hmov,
    moving_speed_invariant realMath 0 realMath_within (by norm_num) _ hreach hmov⟩

/-! ## Serving and scored phases -/

/-- A number within `ε` of 16 has a square root within `ε / 4` of 4. -/
theorem sqrt_near_four (q ε : ℝ) (hq : 0 ≤ q) (h : |q - 16| ≤ ε) :
    |Real.sqrt q - 4| ≤ ε / 4 := by
  have hs := Real.sqrt_nonneg q
  have hsq := Real.sq_sqrt hq
  have hid : (Real.sqrt q - 4) * (Real.sqrt q + 4) = q - 16 := by
    calc (Real.sqrt q - 4) * (Real.sqrt q + 4) = Real.sqrt q ^ 2 - 16 := by ring
      _ = q - 16 := by rw [hsq]
  have habs : |Real.sqrt q - 4| * (Real.sqrt q + 4) = |q - 16| := by
    rw [← hid, abs_mul, abs_of_pos (by linarith : 0 < Real.sqrt q + 4)]
  have hn := abs_nonneg (Real.sqrt q - 4)
  nlinarith

/-- C4, amended: an update in state SERVING with frame time `dt`, for every
library within `δ <= 10 ^ (-5)` of exact arithmetic.  If
`servingTime + dt >= 2`, then for all random draws the new state is MOVING,
the velocity has a magnitude within `40 δ` of 4 and the timer keeps the value
`servingTime + dt`.  If `servingTime + dt < 2` the state stays SERVING and
only the timer and the paddles (from input) change: ball position, velocity
and both scores are unchanged. -/
theorem update_serving_spec (m : Libm ℝ) (δ : ℝ) (hm : m.Within δ) (hδ : δ ≤ 1 / 100000)
    (f : Frame ℝ) (s : Game ℝ) (hs : s.ballState = BallState.SERVING) :
    (s.ball.servingTime + f.frameTime ≥ 2 →
        (UpdateGameplayScreen m f s).ballState = BallState.MOVING
        ∧ |Real.sqrt ((UpdateGameplayScreen m f s).ball.velX ^ 2
            + (UpdateGameplayScreen m f s).ball.velY ^ 2) - 4| ≤ 40 * δ
        ∧ (UpdateGameplayScreen m f s).ball.servingTime
            = s.ball.servingTime + f.frameTime)
      ∧ (s.ball.servingTime + f.frameTime < 2 →
        UpdateGameplayScreen m f s =
            { updatePlayer2 f (updatePlayer1 f s) with
              ball := { s.ball with servingTime := s.ball.servingTime + f.frameTime } }
        ∧ (UpdateGameplayScreen m f s).ballState = BallState.SERVING
        ∧ (UpdateGameplayScreen m f s).ball.servingTime
            = s.ball.servingTime + f.frameTime
        ∧ (UpdateGameplayScreen m f s).ball.x = s.ball.x
        ∧ (UpdateGameplayScreen m f s).ball.y = s.ball.y
        ∧ (UpdateGameplayScreen m f s).ball.velX = s.ball.velX
        ∧ (UpdateGameplayScreen m f s).ball.velY = s.ball.velY
        ∧ (UpdateGameplayScreen m f s).player1.score = s.player1.score
        ∧ (UpdateGameplayScreen m f s).player2.score = s.player2.score) := by
  obtain ⟨-, hst, hp1, hp2⟩ := updatePlayers_frame f s
  rw [update_serving m f s hs]
  constructor
  · intro ht
    rw [if_pos ht]
    refine ⟨rfl, ?_, rfl⟩
    have h16 := setBallVelocity_speedSq hm hδ
      (if f.randSide ≥ 50 then (f.randAngle : ℝ) + 180 else (f.randAngle : ℝ))
      { updatePlayer2 f (updatePlayer1 f s) with
        ball := { s.ball with servingTime := s.ball.servingTime + f.frameTime } }
    unfold speedSq at h16
    have h := sqrt_near_four _ _ (by positivity) h16
    have e : 150 * δ / 4 ≤ 40 * δ := by linarith [within_nonneg hm]
    exact h.trans e
  · intro ht
    rw [if_neg (not_le.mpr ht)]
    exact ⟨rfl, hst.trans hs, rfl, rfl, rfl, rfl, rfl, hp1, hp2⟩

/-- C4 as stated fails in binary32 arithmetic: a serving ball at the start-up
globals, one 2-second frame and the draws 45 and 50 (angle 225).  The new
state is MOVING with `velX = -2965821 / 2 ^ 20` (`-2.8284273`) and
`velY = -5931641 / 2 ^ 21` (`-2.8284268`); the squared magnitude is less than
16, so the magnitude is not 4. -/
theorem update_serving_counterexample :
    (startGame ℚ).ballState = BallState.SERVING
      ∧ (startGame ℚ).ball.servingTime
          + ({ idleFrame 800 450 2 with randAngle := 45, randSide := 50 } : Frame ℚ).frameTime ≥ 2
      ∧ (UpdateGameplayScreen floatMath { idleFrame 800 450 2 with randAngle := 45, randSide := 50 }
          (startGame ℚ)).ballState = BallState.MOVING
      ∧ (UpdateGameplayScreen floatMath { idleFrame 800 450 2 with randAngle := 45, randSide := 50 }
          (startGame ℚ)).ball.velX = -2965821 / 1048576
      ∧ (UpdateGameplayScreen floatMath { idleFrame 800 450 2 with randAngle := 45, randSide := 50 }
          (startGame ℚ)).ball.velY = -5931641 / 2097152
      ∧ (UpdateGameplayScreen floatMath { idleFrame 800 450 2 with randAngle := 45, randSide := 50 }
            (startGame ℚ)).ball.velX ^ 2
          + (UpdateGameplayScreen floatMath { idleFrame 800 450 2 with randAngle := 45, randSide := 50 }
            (startGame ℚ)).ball.velY ^ 2 < 4 ^ 2 := by
  decide!

/-- With exact arithmetic, a serving ball at the start-up globals is served by
one 2-second frame with speed 4. -/
theorem update_serving_spec_witness :
    realMath.Within 0 ∧ (0 : ℝ) ≤ 1 / 100000
      ∧ (startGame ℝ).ballState = BallState.SERVING
      ∧ (UpdateGameplayScreen realMath (idleFrame 800 450 2) (startGame ℝ)).ballState = BallState.MOVING
      ∧ |Real.sqrt ((UpdateGameplayScreen realMath (idleFrame 800 450 2) (startGame ℝ)).ball.velX ^ 2
          + (UpdateGameplayScreen realMath (idleFrame 800 450 2) (startGame ℝ)).ball.velY ^ 2) - 4|
          ≤ 40 * 0
      ∧ (UpdateGameplayScreen realMath (idleFrame 800 450 2) (startGame ℝ)).ball.servingTime
          = (startGame ℝ).ball.servingTime + (idleFrame 800 450 (2 : ℝ)).frameTime :=
  ⟨realMath_within, by norm_num, rfl,
    (update_serving_spec realMath 0 realMath_within (by norm_num) (idleFrame 800 450 2)
      (startGame ℝ) rfl).1 (by norm_num [startGame, idleFrame])⟩

/-- C5: an update in state SCORED with frame time `dt`.  If
`servingTime + dt >= 2` the new state is SERVING and the timer is reset to 0;
if `servingTime + dt < 2` the state stays SCORED and the timer is increased by
`dt`.  In both cases the ball's position and velocity and both scores are
unchanged. -/
theorem update_scored_spec {F : Type} [LinearOrderedField F] (m : Libm F) (f : Frame F)
    (s : Game F) (hs : s.ballState = BallState.SCORED) :
    (s.ball.servingTime + f.frameTime ≥ 2 →
        (UpdateGameplayScreen m f s).ballState = BallState.SERVING
        ∧ (UpdateGameplayScreen m f s).ball.servingTime = 0)
      ∧ (s.ball.servingTime + f.frameTime < 2 →
        (UpdateGameplayScreen m f s).ballState = BallState.SCORED
        ∧ (UpdateGameplayScreen m f s).ball.servingTime = s.ball.servingTime + f.frameTime)
      ∧ (UpdateGameplayScreen m f s).ball.x = s.ball.x
      ∧ (UpdateGameplayScreen m f s).ball.y = s.ball.y
      ∧ (UpdateGameplayScreen m f s).ball.velX = s.ball.velX
      ∧ (UpdateGameplayScreen m f s).ball.velY = s.ball.velY
      ∧ (UpdateGameplayScreen m f s).player1.score = s.player1.score
      ∧ (UpdateGameplayScreen m f s).player2.score = s.player2.score := by
  obtain ⟨-, hst, hp1, hp2⟩ := updatePlayers_frame f s
  rw [update_scored m f s hs]
  by_cases ht : s.ball.servingTime + f.frameTime ≥ 2
  · rw [if_pos ht]
    exact ⟨fun _ => ⟨rfl, rfl⟩, fun hlt => absurd ht (not_le.mpr hlt), rfl, rfl, rfl, rfl, hp1, hp2⟩
  · rw [if_neg ht]
    exact ⟨fun hge => absurd hge ht, fun _ => ⟨hst.trans hs, rfl⟩, rfl, rfl, rfl, rfl, hp1, hp2⟩

/-- A scored ball with 1.5 s on the timer: a 1-second frame ends the pause. -/
theorem update_scored_spec_witness :
    ({ startGame ℝ with
        ballState := BallState.SCORED
        ball := { (startGame ℝ).ball with servingTime := 1.5 } } : Game ℝ).ballState
        = BallState.SCORED
      ∧ (UpdateGameplayScreen realMath (idleFrame 800 450 1)
          { startGame ℝ with
            ballState := BallState.SCORED
            ball := { (startGame ℝ).ball with servingTime := 1.5 } }).ballState
        = BallState.SERVING
      ∧ (UpdateGameplayScreen realMath (idleFrame 800 450 1)
          { startGame ℝ with
            ballState := BallState.SCORED
            ball := { (startGame ℝ).ball with servingTime := 1.5 } }).ball.servingTime = 0 :=
  ⟨rfl, (update_scored_spec realMath (idleFrame 800 450 1)
    { startGame ℝ with
      ballState := BallState.SCORED
      ball := { (startGame ℝ).ball with servingTime := 1.5 } } rfl).1
    (by norm_num [startGame, idleFrame])⟩

/-! ## Initialisation and the serving timer -/

/-- `InitGameplayScreen` leaves the serving timer, the velocity and both
scores as they were. -/
theorem init_keeps {F : Type} [LinearOrderedField F] (w h : Int) (s : Game F) :
    (InitGameplayScreen w h s).ballState = BallState.SERVING
      ∧ (InitGameplayScreen w h s).ball.servingTime = s.ball.servingTime
      ∧ (InitGameplayScreen w h s).ball.velX = s.ball.velX
      ∧ (InitGameplayScreen w h s).ball.velY = s.ball.velY
      ∧ (InitGameplayScreen w h s).player1.score = s.player1.score
      ∧ (InitGameplayScreen w h s).player2.score = s.player2.score :=
  ⟨rfl, rfl, rfl, rfl, rfl, rfl⟩

/-- C6 fails on the code: `InitGameplayScreen` run on the state left by an
earlier game (a ball served after 2 s, timer still at 2) gives state SERVING
with `servingTime = 2`, not 0, and the next update serves the ball although
its frame time is 0. -/
theorem init_stale_servingTime :
    (InitGameplayScreen 800 450
        (UpdateGameplayScreen realMath (idleFrame 800 450 2)
          (InitGameplayScreen 800 450 (startGame ℝ)))).ballState = BallState.SERVING
      ∧ (InitGameplayScreen 800 450
        (UpdateGameplayScreen realMath (idleFrame 800 450 2)
          (InitGameplayScreen 800 450 (startGame ℝ)))).ball.servingTime = 2
      ∧ (UpdateGameplayScreen realMath (idleFrame 800 450 0)
        (InitGameplayScreen 800 450
          (UpdateGameplayScreen realMath (idleFrame 800 450 2)
            (InitGameplayScreen 800 450 (startGame ℝ))))).ballState = BallState.MOVING := by
  have h1 : (UpdateGameplayScreen realMath (idleFrame 800 450 2)
      (InitGameplayScreen 800 450 (startGame ℝ))).ball.servingTime = 2 := by
    rw [update_serving realMath _ _ rfl]
    norm_num [InitGameplayScreen, startGame, idleFrame, SetBallVelocity]
  have h2 : (InitGameplayScreen 800 450
      (UpdateGameplayScreen realMath (idleFrame 800 450 2)
        (InitGameplayScreen 800 450 (startGame ℝ)))).ball.servingTime = 2 := by
    rw [(init_keeps _ _ _).2.1, h1]
  refine ⟨rfl, h2, ?_⟩
  rw [update_serving realMath _ _ rfl, h2]
  norm_num [idleFrame]

/-! ## Ball movement: the steps before and at the paddle checks -/

section Movement

variable {F : Type} [LinearOrderedField F]

theorem update_moving_eq (m : Libm F) (f : Frame F) (s : Game F)
    (hs : s.ballState = BallState.MOVING) :
    UpdateGameplayScreen m f s = collidePlayer2 m (atPlayer2Check m f s) := by
  rw [update_moving m f s hs]
  rfl

theorem bounceWalls_keeps (h : Int) (s : Game F) :
    (bounceWalls h s).ball.x = s.ball.x
      ∧ (bounceWalls h s).player1 = s.player1
      ∧ (bounceWalls h s).player2 = s.player2
      ∧ (bounceWalls h s).ballState = s.ballState := by
  unfold bounceWalls
  split_ifs <;> exact ⟨rfl, rfl, rfl, rfl⟩

theorem collidePlayer1_keeps (m : Libm F) (s : Game F) :
    (collidePlayer1 m s).ballState = s.ballState
      ∧ (collidePlayer1 m s).player1 = s.player1
      ∧ (collidePlayer1 m s).player2 = s.player2
      ∧ (collidePlayer1 m s).ball.servingTime = s.ball.servingTime
      ∧ (collidePlayer1 m s).ball.y = s.ball.y := by
  unfold collidePlayer1
  split_ifs <;> exact ⟨rfl, rfl, rfl, rfl, rfl⟩

theorem collidePlayer2_keeps (m : Libm F) (s : Game F) :
    (collidePlayer2 m s).ballState = s.ballState
      ∧ (collidePlayer2 m s).player1 = s.player1
      ∧ (collidePlayer2 m s).player2 = s.player2
      ∧ (collidePlayer2 m s).ball.servingTime = s.ball.servingTime
      ∧ (collidePlayer2 m s).ball.y = s.ball.y := by
  unfold collidePlayer2
  split_ifs <;> exact ⟨rfl, rfl, rfl, rfl, rfl⟩

theorem collidePlayer1_of_not_overlaps (m : Libm F) (s : Game F)
    (h : ¬ Overlaps s.ball s.player1) : collidePlayer1 m s = s := by
  unfold collidePlayer1
  unfold Overlaps at h
  split_ifs with h1 h2
  · exact absurd ⟨h1, h2⟩ h
  · rfl
  · rfl

theorem collidePlayer2_of_not_overlaps (m : Libm F) (s : Game F)
    (h : ¬ Overlaps s.ball s.player2) : collidePlayer2 m s = s := by
  unfold collidePlayer2
  unfold Overlaps at h
  split_ifs with h1 h2
  · exact absurd ⟨h1, h2⟩ h
  · rfl
  · rfl

theorem collidePlayer1_of_overlaps (m : Libm F) (s : Game F) (h : Overlaps s.ball s.player1) :
    collidePlayer1 m s =
      { s with ball := { s.ball with
          velX := (SetBallVelocity m (GetDeflectionAngle s s.player1) s).ball.velX
          velY := (SetBallVelocity m (GetDeflectionAngle s s.player1) s).ball.velY
          x := s.player1.x + 17 } } := by
  unfold collidePlayer1
  unfold Overlaps at h
  rw [if_pos h.1, if_pos h.2]
  simp only [SetBallVelocity, ballSpeed, paddleWidth, Int.cast_ofNat]
  norm_num
  ring

/-- Below `INT_MAX` the increment of a 32-bit `int` adds one. -/
theorem incrInt32_of_lt (n : Int) (h0 : -2147483648 ≤ n) (h1 : n < 2147483647) :
    incrInt32 n = n + 1 := by
  unfold incrInt32
  rw [Int.emod_eq_of_lt (by linarith) (by linarith)]
  ring

/-- At `INT_MAX` the increment of a 32-bit `int` wraps to `INT_MIN`. -/
theorem incrInt32_max : incrInt32 2147483647 = -2147483648 := by
  decide

/-- The scoring step for a ball past the right threshold (and not past the
left one). -/
theorem checkScore_right (w h : Int) (s : Game F) (hl : ¬ s.ball.x < (ballSize : F) - 20)
    (hx : s.ball.x > (w : F) + 20) :
    checkScore w h s =
      { s with
        player1 := { s.player1 with score := incrInt32 s.player1.score }
        ball := { s.ball with servingTime := 0, x := (w : F) / 2, y := (h : F) / 2 }
        ballState := BallState.SCORED } := by
  unfold checkScore
  rw [if_neg hl, if_pos hx]
  norm_num
  constructor <;> ring

end Movement

/-! ## Scoring -/

section Scoring

variable {F : Type} [LinearOrderedField F]

/-- The paddle checks after a scoring step that fired: scores, timer, state and
`ball.y` are those of the scoring step, and so is `ball.x` when the ball's box
overlaps neither paddle. -/
theorem collide_after_score (m : Libm F) (c : Game F) :
    (collidePlayer2 m (collidePlayer1 m c)).player1 = c.player1
      ∧ (collidePlayer2 m (collidePlayer1 m c)).player2 = c.player2
      ∧ (collidePlayer2 m (collidePlayer1 m c)).ball.servingTime = c.ball.servingTime
      ∧ (collidePlayer2 m (collidePlayer1 m c)).ballState = c.ballState
      ∧ (collidePlayer2 m (collidePlayer1 m c)).ball.y = c.ball.y
      ∧ (¬ Overlaps c.ball c.player1 → ¬ Overlaps c.ball c.player2 →
          (collidePlayer2 m (collidePlayer1 m c)).ball.x = c.ball.x) := by
  obtain ⟨a1, a2, a3, a4, a5⟩ := collidePlayer1_keeps m c
  obtain ⟨b1, b2, b3, b4, b5⟩ := collidePlayer2_keeps m (collidePlayer1 m c)
  refine ⟨b2.trans a2, b3.trans a3, b4.trans a4, b1.trans a1, b5.trans a5, ?_⟩
  intro h1 h2
  rw [collidePlayer1_of_not_overlaps m c h1, collidePlayer2_of_not_overlaps m c h2]

end Scoring

/-- The cosine of an angle strictly between -90 and 90 degrees is positive. -/
theorem cos_degrees_pos (a : ℝ) (h1 : -90 < a) (h2 : a < 90) :
    0 < Real.cos (a * Real.pi / 180) := by
  have hpi := Real.pi_pos
  apply Real.cos_pos_of_mem_Ioo
  constructor <;> nlinarith

/-- The cosine of an angle strictly between 90 and 270 degrees is negative. -/
theorem cos_degrees_neg (a : ℝ) (h1 : 90 < a) (h2 : a < 270) :
    Real.cos (a * Real.pi / 180) < 0 := by
  have hpi := Real.pi_pos
  apply Real.cos_neg_of_pi_div_two_lt_of_lt <;> nlinarith

/-- No step before the paddle checks moves a paddle horizontally. -/
theorem atPlayer1Check_paddle_x {F : Type} [LinearOrderedField F] (f : Frame F) (s : Game F) :
    (atPlayer1Check f s).player1.x = s.player1.x
      ∧ (atPlayer1Check f s).player2.x = s.player2.x := by
  have h1 : (updatePlayer2 f (updatePlayer1 f s)).player1.x = s.player1.x := by
    rw [(updatePlayer2_score f _).2]
    unfold updatePlayer1
    split <;> rfl
  have h2 : (updatePlayer2 f (updatePlayer1 f s)).player2.x = s.player2.x := by
    have : (updatePlayer2 f (updatePlayer1 f s)).player2.x = (updatePlayer1 f s).player2.x := by
      unfold updatePlayer2
      split_ifs <;> rfl
    rw [this, (updatePlayer1_score f s).2]
  obtain ⟨-, w2, w3, -⟩ :=
    bounceWalls_keeps f.screenHeight (moveBall (updatePlayer2 f (updatePlayer1 f s)))
  have k1 : (atPlayer1Check f s).player1.x
      = (bounceWalls f.screenHeight (moveBall (updatePlayer2 f (updatePlayer1 f s)))).player1.x := by
    unfold atPlayer1Check checkScore
    split_ifs <;> rfl
  have k2 : (atPlayer1Check f s).player2.x
      = (bounceWalls f.screenHeight (moveBall (updatePlayer2 f (updatePlayer1 f s)))).player2.x := by
    unfold atPlayer1Check checkScore
    split_ifs <;> rfl
  rw [k1, k2, w2, w3]
  exact ⟨h1, h2⟩

/-- C9, amended: for every library within `δ <= 10 ^ (-5)` of exact
arithmetic, in an update of a moving ball that approaches Player 1 from the
right (`velX < 0` before the update, `ball.x >= player1.x` at the check) and
whose box overlaps Player 1's box at the Player 1 check, if moreover the
ball's `y` at the check is at least `player1.y - 9` (the deflection angle is
at least -89.6875 degrees) and the ball's box put at `player1.x + 17` does not
overlap Player 2's box, then after the update `velX` is positive and
`ball.x = player1.x + 17`. -/
theorem player1_deflect_spec (m : Libm ℝ) (δ : ℝ) (hm : m.Within δ) (hδ : δ ≤ 1 / 100000)
    (f : Frame ℝ) (s : Game ℝ)
    (hs : s.ballState = BallState.MOVING) (_hv : s.ball.velX < 0)
    (hside : (atPlayer1Check f s).player1.x ≤ (atPlayer1Check f s).ball.x)
    (hov : Overlaps (atPlayer1Check f s).ball (atPlayer1Check f s).player1)
    (hy : (atPlayer1Check f s).player1.y - 9 ≤ (atPlayer1Check f s).ball.y)
    (hp2 : ¬ Overlaps
      { (atPlayer1Check f s).ball with x := (atPlayer1Check f s).player1.x + 17 }
      (atPlayer1Check f s).player2) :
    0 < (UpdateGameplayScreen m f s).ball.velX
      ∧ (UpdateGameplayScreen m f s).ball.x
          = (UpdateGameplayScreen m f s).player1.x + 17
      ∧ (UpdateGameplayScreen m f s).player1.x = s.player1.x := by
  have hd := collidePlayer1_of_overlaps m (atPlayer1Check f s) hov
  have hno : ¬ Overlaps (atPlayer2Check m f s).ball (atPlayer2Check m f s).player2 := by
    unfold atPlayer2Check
    rw [hd]
    exact hp2
  rw [update_moving_eq m f s hs, collidePlayer2_of_not_overlaps _ _ hno]
  unfold atPlayer2Check
  rw [hd]
  refine ⟨?_, rfl, (atPlayer1Check_paddle_x f s).1⟩
  refine setBallVelocity_velX_pos hm hδ
    (GetDeflectionAngle (atPlayer1Check f s) (atPlayer1Check f s).player1)
    (atPlayer1Check f s) ?_
  rw [getDeflectionAngle_eq, if_neg (not_lt.mpr hside)]
  have hlt : (atPlayer1Check f s).ball.y < (atPlayer1Check f s).player1.y + 64 := by
    have := hov.2.2
    simpa [paddleHeight] using this
  exact abs_le.mpr ⟨by linarith, by linarith⟩

/-- The state at the Player 1 check for a ball moved to `(x + vx, y)` on a
court where it neither bounces nor scores. -/
theorem atPlayer1Check_court (w h : Int) (x y vx : ℝ) (hy0 : 0 < y) (hy1 : y < (h : ℝ) - 16)
    (hx0 : -4 ≤ x + vx) (hx1 : x + vx ≤ (w : ℝ) + 20) :
    atPlayer1Check (idleFrame w h 0) (courtGame w h x y vx 0)
      = { (courtGame w h x y vx 0 : Game ℝ) with
          ball := { x := x + vx, y := y, velX := vx, velY := 0, servingTime := 2 } } := by
  have h1 : ¬ y ≤ 0 := not_le.mpr hy0
  have h2 : ¬ (h : ℝ) - 16 ≤ y := not_le.mpr hy1
  have h4 : ¬ (w : ℝ) + 20 < x + vx := not_lt.mpr hx1
  simp [atPlayer1Check, updatePlayer1, updatePlayer2, moveBall, bounceWalls, checkScore,
    courtGame, InitGameplayScreen, startGame, idleFrame, ballSize, h1, h2, h4]
  linarith

/-- C9 as stated fails.  On an 800 x 450 screen a ball arriving at `(30, 178)`
overlaps Player 1 (at `(20, 193)`) 15 pixels above the paddle's top: the
deflection angle is `-102.8125` degrees and `velX` stays negative.  On a
60 x 450 screen a ball arriving at `(30, 200)` is put at `player1.x + 17 = 37`,
overlaps Player 2 (at `x = 24`) there and ends at `x = 7`.  In binary32
arithmetic, for a paddle at `(20, 10)` and a ball at `(30, 14380471 / 2 ^ 24)`
(`y = 0.857142866`, less than `64 / 7` above the paddle's top), the deflection
angle rounds to `-90` degrees and `SetBallVelocity(-90)` stores
`velX = -6151831 / 2 ^ 45` (`-1.75e-07`), which is negative. -/
theorem player1_deflect_counterexample :
    ((courtGame 800 450 34 178 (-4) 0 : Game ℝ).ballState = BallState.MOVING
      ∧ (courtGame 800 450 34 178 (-4) 0 : Game ℝ).ball.velX < 0
      ∧ (atPlayer1Check (idleFrame 800 450 0) (courtGame 800 450 34 178 (-4) 0 : Game ℝ)).player1.x
        ≤ (atPlayer1Check (idleFrame 800 450 0) (courtGame 800 450 34 178 (-4) 0 : Game ℝ)).ball.x
      ∧ Overlaps
        (atPlayer1Check (idleFrame 800 450 0) (courtGame 800 450 34 178 (-4) 0 : Game ℝ)).ball
        (atPlayer1Check (idleFrame 800 450 0) (courtGame 800 450 34 178 (-4) 0 : Game ℝ)).player1
      ∧ ¬ 0 < (UpdateGameplayScreen realMath (idleFrame 800 450 0)
          (courtGame 800 450 34 178 (-4) 0)).ball.velX)
    ∧ ((courtGame 60 450 34 200 (-4) 0 : Game ℝ).ballState = BallState.MOVING
      ∧ (courtGame 60 450 34 200 (-4) 0 : Game ℝ).ball.velX < 0
      ∧ (atPlayer1Check (idleFrame 60 450 0) (courtGame 60 450 34 200 (-4) 0 : Game ℝ)).player1.x
        ≤ (atPlayer1Check (idleFrame 60 450 0) (courtGame 60 450 34 200 (-4) 0 : Game ℝ)).ball.x
      ∧ Overlaps
        (atPlayer1Check (idleFrame 60 450 0) (courtGame 60 450 34 200 (-4) 0 : Game ℝ)).ball
        (atPlayer1Check (idleFrame 60 450 0) (courtGame 60 450 34 200 (-4) 0 : Game ℝ)).player1
      ∧ (UpdateGameplayScreen realMath (idleFrame 60 450 0)
          (courtGame 60 450 34 200 (-4) 0)).ball.x = 7
      ∧ (UpdateGameplayScreen realMath (idleFrame 60 450 0)
          (courtGame 60 450 34 200 (-4) 0)).ball.x
        ≠ (UpdateGameplayScreen realMath (idleFrame 60 450 0)
          (courtGame 60 450 34 200 (-4) 0)).player1.x + 17)
    ∧ ((placed 20 10 30 (14380471 / 16777216) : Game ℚ).player1.x
        ≤ (placed 20 10 30 (14380471 / 16777216) : Game ℚ).ball.x
      ∧ Overlaps (placed 20 10 30 (14380471 / 16777216) : Game ℚ).ball
        (placed 20 10 30 (14380471 / 16777216) : Game ℚ).player1
      ∧ (placed 20 10 30 (14380471 / 16777216) : Game ℚ).player1.y - 64 / 7
        < (placed 20 10 30 (14380471 / 16777216) : Game ℚ).ball.y
      ∧ GetDeflectionAngleRounded round32 (placed 20 10 30 (14380471 / 16777216))
          (placed 20 10 30 (14380471 / 16777216) : Game ℚ).player1 = -90
      ∧ (SetBallVelocity floatMath (-90)
          (placed 20 10 30 (14380471 / 16777216))).ball.velX = -6151831 / 35184372088832
      ∧ (SetBallVelocity floatMath (-90)
          (placed 20 10 30 (14380471 / 16777216))).ball.velX < 0) := by
  have ca := atPlayer1Check_court 800 450 34 178 (-4) (by norm_num) (by norm_num) (by norm_num)
    (by norm_num)
  have cb := atPlayer1Check_court 60 450 34 200 (-4) (by norm_num) (by norm_num) (by norm_num)
    (by norm_num)
  have va : (UpdateGameplayScreen realMath (idleFrame 800 450 0)
      (courtGame 800 450 34 178 (-4) 0)).ball.velX
      = Real.cos (-(1645 / 16 * Real.pi) / 180) * 4 := by
    rw [update_moving_eq _ _ _ rfl]
    unfold atPlayer2Check
    rw [ca]
    norm_num [collidePlayer1, collidePlayer2, courtGame, InitGameplayScreen, startGame, ballSize,
      paddleWidth, paddleHeight, SetBallVelocity, GetDeflectionAngle, Lerp, maxDeflectAngle,
      realMath, ballSpeed]
  have xb : (UpdateGameplayScreen realMath (idleFrame 60 450 0)
      (courtGame 60 450 34 200 (-4) 0)).ball.x = 7 := by
    rw [update_moving_eq _ _ _ rfl]
    unfold atPlayer2Check
    rw [cb]
    norm_num [collidePlayer1, collidePlayer2, courtGame, InitGameplayScreen, startGame, ballSize,
      paddleWidth, paddleHeight, SetBallVelocity]
  have pb : (UpdateGameplayScreen realMath (idleFrame 60 450 0)
      (courtGame 60 450 34 200 (-4) 0)).player1.x = 20 := by
    rw [update_moving_eq _ _ _ rfl, (collidePlayer2_keeps _ _).2.1]
    unfold atPlayer2Check
    rw [(collidePlayer1_keeps _ _).2.1, (atPlayer1Check_paddle_x _ _).1]
    rfl
  refine ⟨⟨rfl, ?_, ?_, ?_, ?_⟩, ⟨rfl, ?_, ?_, ?_, xb, ?_⟩,
    ⟨by decide!, by unfold Overlaps; decide!, by decide!, by decide!, by decide!, by decide!⟩⟩
  · norm_num [courtGame]
  · rw [ca]
    norm_num [courtGame, InitGameplayScreen]
  · rw [ca]
    norm_num [Overlaps, courtGame, InitGameplayScreen, ballSize, paddleWidth, paddleHeight]
  · rw [va, not_lt]
    have hneg := cos_degrees_neg (1645 / 16) (by norm_num) (by norm_num)
    have harg : -(1645 / 16 * Real.pi) / 180 = -(1645 / 16 * Real.pi / 180) := by ring
    rw [harg, Real.cos_neg]
    linarith
  · norm_num [courtGame]
  · rw [cb]
    norm_num [courtGame, InitGameplayScreen]
  · rw [cb]
    norm_num [Overlaps, courtGame, InitGameplayScreen, ballSize, paddleWidth, paddleHeight]
  · rw [xb, pb]
    norm_num

/-- With exact arithmetic, on an 800 x 450 screen a ball arriving at
`(30, 200)` from the right is deflected by Player 1 to the right and put at
`x = 37`. -/
theorem player1_deflect_spec_witness :
    realMath.Within 0 ∧ (0 : ℝ) ≤ 1 / 100000
      ∧ (courtGame 800 450 34 200 (-4) 0 : Game ℝ).ballState = BallState.MOVING
      ∧ (courtGame 800 450 34 200 (-4) 0 : Game ℝ).ball.velX < 0
      ∧ Overlaps
        (atPlayer1Check (idleFrame 800 450 0) (courtGame 800 450 34 200 (-4) 0 : Game ℝ)).ball
        (atPlayer1Check (idleFrame 800 450 0) (courtGame 800 450 34 200 (-4) 0 : Game ℝ)).player1
      ∧ (atPlayer1Check (idleFrame 800 450 0)
            (courtGame 800 450 34 200 (-4) 0 : Game ℝ)).player1.y - 9
          ≤ (atPlayer1Check (idleFrame 800 450 0)
            (courtGame 800 450 34 200 (-4) 0 : Game ℝ)).ball.y
      ∧ 0 < (UpdateGameplayScreen realMath (idleFrame 800 450 0)
          (courtGame 800 450 34 200 (-4) 0)).ball.velX
      ∧ (UpdateGameplayScreen realMath (idleFrame 800 450 0)
          (courtGame 800 450 34 200 (-4) 0)).ball.x
        = (UpdateGameplayScreen realMath (idleFrame 800 450 0)
          (courtGame 800 450 34 200 (-4) 0)).player1.x + 17
      ∧ (UpdateGameplayScreen realMath (idleFrame 800 450 0)
          (courtGame 800 450 34 200 (-4) 0)).player1.x = 20 :=
  have c := atPlayer1Check_court 800 450 34 200 (-4) (by norm_num) (by norm_num) (by norm_num)
    (by norm_num)
  have hov : Overlaps
      (atPlayer1Check (idleFrame 800 450 0) (courtGame 800 450 34 200 (-4) 0 : Game ℝ)).ball
      (atPlayer1Check (idleFrame 800 450 0) (courtGame 800 450 34 200 (-4) 0 : Game ℝ)).player1 := by
    rw [c]
    norm_num [Overlaps, courtGame, InitGameplayScreen, ballSize, paddleWidth, paddleHeight]
  have hy : (atPlayer1Check (idleFrame 800 450 0)
        (courtGame 800 450 34 200 (-4) 0 : Game ℝ)).player1.y - 9
      ≤ (atPlayer1Check (idleFrame 800 450 0)
        (courtGame 800 450 34 200 (-4) 0 : Game ℝ)).ball.y := by
    rw [c]
    norm_num [courtGame, InitGameplayScreen, paddleHeight]
  have h := player1_deflect_spec realMath 0 realMath_within (by norm_num)
    (idleFrame 800 450 0) (courtGame 800 450 34 200 (-4) 0) rfl
    (by norm_num [courtGame])
    (by rw [c]; norm_num [courtGame, InitGameplayScreen])
    hov hy
    (by rw [c]; norm_num [Overlaps, courtGame, InitGameplayScreen, ballSize, paddleWidth,
      paddleHeight])
  ⟨realMath_within, by norm_num, rfl, by norm_num [courtGame], hov, hy, h.1, h.2.1, h.2.2⟩

/-- In exact arithmetic, for ball and paddle positions with
`ball.x >= paddle.x`, `GetDeflectionAngle` is
`-70 + 140 * (ball.y - paddle.y) / 64`, without clamping: `-70` at the
paddle's top, `+70` at its bottom edge, strictly increasing in `ball.y`, and
outside `[-70, 70]` whenever `ball.y` is outside the paddle's span. -/
theorem getDeflectionAngle_exact {F : Type} [LinearOrderedField F] (s : Game F) (p : Paddle F)
    (hx : p.x ≤ s.ball.x) :
    GetDeflectionAngle s p = -70 + 140 * (s.ball.y - p.y) / 64
      ∧ (s.ball.y = p.y → GetDeflectionAngle s p = -70)
      ∧ (s.ball.y = p.y + 64 → GetDeflectionAngle s p = 70)
      ∧ (∀ t : Game F, p.x ≤ t.ball.x → s.ball.y < t.ball.y →
          GetDeflectionAngle s p < GetDeflectionAngle t p)
      ∧ (s.ball.y < p.y → GetDeflectionAngle s p < -70)
      ∧ (p.y + 64 < s.ball.y → 70 < GetDeflectionAngle s p) := by
  have hs : GetDeflectionAngle s p = -70 + 140 * (s.ball.y - p.y) / 64 := by
    rw [getDeflectionAngle_eq, if_neg (not_lt.mpr hx)]
    ring
  refine ⟨hs, ?_, ?_, ?_, ?_, ?_⟩
  · intro h
    rw [hs, h]
    ring
  · intro h
    rw [hs, h]
    ring
  · intro t ht hlt
    rw [hs, getDeflectionAngle_eq, if_neg (not_lt.mpr ht)]
    linarith
  · intro h
    rw [hs]
    linarith
  · intro h
    rw [hs]
    linarith

section Rounded

variable {F : Type} [LinearOrderedField F]

/-- With no rounding `GetDeflectionAngleRounded` is `GetDeflectionAngle`. -/
theorem getDeflectionAngleRounded_id (s : Game F) (p : Paddle F) :
    GetDeflectionAngleRounded (fun x => x) s p = GetDeflectionAngle s p := rfl

/-- `GetDeflectionAngleRounded` for a ball not left of the paddle, when the
rounding leaves 140 as it is. -/
theorem getDeflectionAngleRounded_eq (fl : F → F) (h140 : fl 140 = 140) (s : Game F)
    (p : Paddle F) (hx : p.x ≤ s.ball.x) :
    GetDeflectionAngleRounded fl s p
      = fl (-70 + fl (fl (fl (s.ball.y - p.y) / 64) * 140)) := by
  have e : (70 : F) - -70 = 140 := by norm_num
  simp only [GetDeflectionAngleRounded, maxDeflectAngle, paddleHeight, if_neg (not_lt.mpr hx),
    Int.cast_ofNat, e, h140]

/-- A rounding that leaves the integers up to `2 ^ 24` as they are leaves
them so when they are written with numerals. -/
theorem fl_int (fl : F → F) (hint : ∀ n : Int, |n| ≤ 16777216 → fl (n : F) = n) (n : Int)
    (hn : |n| ≤ 16777216) (x : F) (hx : x = (n : F)) : fl x = x := by
  rw [hx]
  exact hint n hn

/-- On the grid `ball.y = paddle.y + 64 k` the rounded angle is the linear
value `-70 + 140 k`. -/
theorem getDeflectionAngleRounded_grid (fl : F → F)
    (hint : ∀ n : Int, |n| ≤ 16777216 → fl (n : F) = n) (s : Game F) (p : Paddle F)
    (hx : p.x ≤ s.ball.x) (k : Int) (hk : |k| ≤ 1000) (hy : s.ball.y = p.y + 64 * k) :
    GetDeflectionAngleRounded fl s p = -70 + 140 * k := by
  obtain ⟨k1, k2⟩ := abs_le.mp hk
  have h140 : fl 140 = 140 := fl_int fl hint 140 (by norm_num) _ (by norm_num)
  rw [getDeflectionAngleRounded_eq fl h140 s p hx, hy]
  have e1 : p.y + 64 * (k : F) - p.y = ((64 * k : Int) : F) := by push_cast; ring
  rw [e1, hint (64 * k) (abs_le.mpr ⟨by linarith, by linarith⟩)]
  have e2 : ((64 * k : Int) : F) / 64 = ((k : Int) : F) := by push_cast; ring
  rw [e2, hint k (abs_le.mpr ⟨by linarith, by linarith⟩)]
  have e3 : ((k : Int) : F) * 140 = ((140 * k : Int) : F) := by push_cast; ring
  rw [e3, hint (140 * k) (abs_le.mpr ⟨by linarith, by linarith⟩)]
  have e4 : (-70 : F) + ((140 * k : Int) : F) = ((-70 + 140 * k : Int) : F) := by push_cast; ring
  rw [e4, hint (-70 + 140 * k) (abs_le.mpr ⟨by linarith, by linarith⟩)]
  push_cast
  ring

/-- The rounded angle does not decrease when the ball is lower. -/
theorem getDeflectionAngleRounded_mono (fl : F → F) (hmono : Monotone fl)
    (h140 : fl 140 = 140) (s t : Game F) (p : Paddle F) (hx : p.x ≤ s.ball.x)
    (ht : p.x ≤ t.ball.x) (hy : s.ball.y ≤ t.ball.y) :
    GetDeflectionAngleRounded fl s p ≤ GetDeflectionAngleRounded fl t p := by
  rw [getDeflectionAngleRounded_eq fl h140 s p hx, getDeflectionAngleRounded_eq fl h140 t p ht]
  apply hmono
  have h1 : fl (s.ball.y - p.y) ≤ fl (t.ball.y - p.y) := hmono (by linarith)
  have h2 : fl (fl (s.ball.y - p.y) / 64) ≤ fl (fl (t.ball.y - p.y) / 64) :=
    hmono (div_le_div_of_nonneg_right h1 (by norm_num))
  have h3 : fl (fl (fl (s.ball.y - p.y) / 64) * 140)
      ≤ fl (fl (fl (t.ball.y - p.y) / 64) * 140) :=
    hmono (mul_le_mul_of_nonneg_right h2 (by norm_num))
  linarith

/-- Rounding a number of magnitude at most `B` changes it by at most `δ B`. -/
theorem fl_near (fl : F → F) (δ : F)
    (herr : ∀ x : F, |x| ≤ 1000 → |fl x - x| ≤ δ * max 1 |x|) (x B : F) (hx : |x| ≤ B)
    (h1 : 1 ≤ B) (hB : B ≤ 1000) : |fl x - x| ≤ δ * B := by
  have h0 : 0 ≤ δ := by
    have := herr 0 (by norm_num)
    simp only [abs_zero, sub_zero] at this
    have h2 : max (1 : F) 0 = 1 := max_eq_left (by norm_num)
    rw [h2, mul_one] at this
    exact le_trans (abs_nonneg _) this
  exact (herr x (hx.trans hB)).trans (mul_le_mul_of_nonneg_left (max_le h1 hx) h0)

/-- Within 64 pixels of the paddle's top the rounded angle is within `700 δ`
of the linear value. -/
theorem getDeflectionAngleRounded_near (fl : F → F) (h140 : fl 140 = 140) (δ : F)
    (hδ : δ ≤ 1 / 1000) (herr : ∀ x : F, |x| ≤ 1000 → |fl x - x| ≤ δ * max 1 |x|)
    (s : Game F) (p : Paddle F) (hx : p.x ≤ s.ball.x) (hd : |s.ball.y - p.y| ≤ 64) :
    |GetDeflectionAngleRounded fl s p - (-70 + 140 * (s.ball.y - p.y) / 64)| ≤ 700 * δ := by
  have h0 : 0 ≤ δ := by
    have := fl_near fl δ herr 0 1 (by norm_num) (by norm_num) (by norm_num)
    rw [mul_one] at this
    exact le_trans (abs_nonneg _) this
  rw [getDeflectionAngleRounded_eq fl h140 s p hx]
  set d := s.ball.y - p.y with hd_def
  obtain ⟨d1, d2⟩ := abs_le.mp hd
  -- the difference
  have e1 := fl_near fl δ herr d 64 hd (by norm_num) (by norm_num)
  obtain ⟨a1, a2⟩ := abs_le.mp e1
  -- the quotient
  have hq : |fl d / 64| ≤ 1001 / 1000 := abs_le.mpr ⟨by linarith, by linarith⟩
  have e2 := fl_near fl δ herr (fl d / 64) (1001 / 1000) hq (by norm_num) (by norm_num)
  obtain ⟨b1, b2⟩ := abs_le.mp e2
  -- the product
  have hp : |fl (fl d / 64) * 140| ≤ 141 := abs_le.mpr ⟨by linarith, by linarith⟩
  have e3 := fl_near fl δ herr (fl (fl d / 64) * 140) 141 hp (by norm_num) (by norm_num)
  obtain ⟨c1, c2⟩ := abs_le.mp e3
  -- the sum
  have hs : |-70 + fl (fl (fl d / 64) * 140)| ≤ 212 := abs_le.mpr ⟨by linarith, by linarith⟩
  have e4 := fl_near fl δ herr (-70 + fl (fl (fl d / 64) * 140)) 212 hs (by norm_num)
    (by norm_num)
  obtain ⟨f1, f2⟩ := abs_le.mp e4
  exact abs_le.mpr ⟨by linarith, by linarith⟩

end Rounded

/-- C12, amended: for ball and paddle positions with `ball.x >= paddle.x`, and
every rounding to `float` that is monotone, leaves the integers up to `2 ^ 24`
as they are and changes a number of magnitude at most 1000 by at most `δ`
times the larger of 1 and its magnitude (`δ <= 10 ^ (-3)`; binary32 rounding
has `δ = 2 ^ (-24)`), the angle that `GetDeflectionAngle` computes is within
`700 δ` of `-70 + 140 * (ball.y - paddle.y) / 64` when the ball is within 64
pixels of the paddle's top; it is the linear value `-70 + 140 k` exactly at
`ball.y = paddle.y + 64 k`: `-70` at the paddle's top, `+70` at its bottom
edge, and without clamping `-210` and `210` one paddle height above and
below; it does not decrease when `ball.y` increases; and it is at most `-70`
above the paddle's top and at least `70` below its bottom edge. -/
theorem getDeflectionAngle_linear {F : Type} [LinearOrderedField F] (fl : F → F) (δ : F)
    (hmono : Monotone fl) (hint : ∀ n : Int, |n| ≤ 16777216 → fl (n : F) = n)
    (hδ : δ ≤ 1 / 1000) (herr : ∀ x : F, |x| ≤ 1000 → |fl x - x| ≤ δ * max 1 |x|)
    (s : Game F) (p : Paddle F) (hx : p.x ≤ s.ball.x) :
    (|s.ball.y - p.y| ≤ 64 →
        |GetDeflectionAngleRounded fl s p - (-70 + 140 * (s.ball.y - p.y) / 64)| ≤ 700 * δ)
      ∧ (∀ k : Int, |k| ≤ 1000 → s.ball.y = p.y + 64 * k →
          GetDeflectionAngleRounded fl s p = -70 + 140 * k)
      ∧ (s.ball.y = p.y → GetDeflectionAngleRounded fl s p = -70)
      ∧ (s.ball.y = p.y + 64 → GetDeflectionAngleRounded fl s p = 70)
      ∧ (s.ball.y = p.y - 64 → GetDeflectionAngleRounded fl s p = -210)
      ∧ (s.ball.y = p.y + 128 → GetDeflectionAngleRounded fl s p = 210)
      ∧ (∀ t : Game F, p.x ≤ t.ball.x → s.ball.y ≤ t.ball.y →
          GetDeflectionAngleRounded fl s p ≤ GetDeflectionAngleRounded fl t p)
      ∧ (s.ball.y < p.y → GetDeflectionAngleRounded fl s p ≤ -70)
      ∧ (p.y + 64 < s.ball.y → 70 ≤ GetDeflectionAngleRounded fl s p) := by
  have h140 : fl 140 = 140 := fl_int fl hint 140 (by norm_num) _ (by norm_num)
  have hgrid := getDeflectionAngleRounded_grid fl hint
  refine ⟨getDeflectionAngleRounded_near fl h140 δ hδ herr s p hx, hgrid s p hx, ?_, ?_, ?_, ?_,
    fun t ht hy => getDeflectionAngleRounded_mono fl hmono h140 s t p hx ht hy, ?_, ?_⟩
  · intro h
    rw [hgrid s p hx 0 (by norm_num) (by rw [h]; norm_num)]
    norm_num
  · intro h
    rw [hgrid s p hx 1 (by norm_num) (by rw [h]; norm_num)]
    norm_num
  · intro h
    rw [hgrid s p hx (-1) (by norm_num) (by rw [h]; norm_num; ring)]
    norm_num
  · intro h
    rw [hgrid s p hx 2 (by norm_num) (by rw [h]; norm_num)]
    norm_num
  · intro h
    have hm := getDeflectionAngleRounded_mono fl hmono h140 s
      { s with ball := { s.ball with y := p.y } } p hx hx (le_of_lt h)
    rw [hgrid { s with ball := { s.ball with y := p.y } } p hx 0 (by norm_num)
      (by norm_num)] at hm
    norm_num at hm
    exact hm
  · intro h
    have hm := getDeflectionAngleRounded_mono fl hmono h140
      { s with ball := { s.ball with y := p.y + 64 } } s p hx hx (le_of_lt h)
    rw [hgrid { s with ball := { s.ball with y := p.y + 64 } } p hx 1 (by norm_num)
      (by norm_num)] at hm
    norm_num at hm
    exact hm

/-- C12 as stated fails in binary32 arithmetic.  For a paddle at `(20, 10)`
and a ball at `x = 30`, the angle is `-90` both at
`ball.y = 14380471 / 2 ^ 24` (`0.857142866`) and at the next `float`,
`1797559 / 2 ^ 21`: it is not strictly increasing, and it is not the linear
value, which is `-89.99999998` at the first position.  For a paddle at
`(20, 1)` and a ball at `ball.y = 16777215 / 2 ^ 24` (`0.99999994`), above the
paddle's top, the angle is exactly `-70`, not outside `[-70, 70]`. -/
theorem getDeflectionAngle_linear_counterexample :
    ((placed 20 10 30 (14380471 / 16777216) : Game ℚ).player1.x
        ≤ (placed 20 10 30 (14380471 / 16777216) : Game ℚ).ball.x
      ∧ (placed 20 10 30 (14380471 / 16777216) : Game ℚ).player1
        = (placed 20 10 30 (1797559 / 2097152) : Game ℚ).player1
      ∧ (placed 20 10 30 (14380471 / 16777216) : Game ℚ).ball.x
        = (placed 20 10 30 (1797559 / 2097152) : Game ℚ).ball.x
      ∧ (placed 20 10 30 (14380471 / 16777216) : Game ℚ).ball.y
        < (placed 20 10 30 (1797559 / 2097152) : Game ℚ).ball.y
      ∧ GetDeflectionAngleRounded round32 (placed 20 10 30 (14380471 / 16777216))
          (placed 20 10 30 (14380471 / 16777216) : Game ℚ).player1 = -90
      ∧ GetDeflectionAngleRounded round32 (placed 20 10 30 (1797559 / 2097152))
          (placed 20 10 30 (1797559 / 2097152) : Game ℚ).player1 = -90
      ∧ (-70 + 140 * ((placed 20 10 30 (14380471 / 16777216) : Game ℚ).ball.y
            - (placed 20 10 30 (14380471 / 16777216) : Game ℚ).player1.y) / 64 : ℚ)
        = -24159191035 / 268435456
      ∧ GetDeflectionAngleRounded round32 (placed 20 10 30 (14380471 / 16777216))
          (placed 20 10 30 (14380471 / 16777216) : Game ℚ).player1
        ≠ -70 + 140 * ((placed 20 10 30 (14380471 / 16777216) : Game ℚ).ball.y
            - (placed 20 10 30 (14380471 / 16777216) : Game ℚ).player1.y) / 64)
    ∧ ((placed 20 1 30 (16777215 / 16777216) : Game ℚ).player1.x
        ≤ (placed 20 1 30 (16777215 / 16777216) : Game ℚ).ball.x
      ∧ (placed 20 1 30 (16777215 / 16777216) : Game ℚ).ball.y
        < (placed 20 1 30 (16777215 / 16777216) : Game ℚ).player1.y
      ∧ GetDeflectionAngleRounded round32 (placed 20 1 30 (16777215 / 16777216))
          (placed 20 1 30 (16777215 / 16777216) : Game ℚ).player1 = -70
      ∧ ¬ GetDeflectionAngleRounded round32 (placed 20 1 30 (16777215 / 16777216))
          (placed 20 1 30 (16777215 / 16777216) : Game ℚ).player1 < -70) := by
  refine ⟨⟨by decide!, rfl, rfl, by decide!, by decide!, by decide!, by decide!, by decide!⟩,
    ⟨by decide!, by decide!, by decide!, by decide!⟩⟩

/-- With no rounding, a ball level with the top of a paddle and right of it
gets the angle `-70`, and the angle is the linear value. -/
theorem getDeflectionAngle_linear_witness :
    Monotone (fun x : ℚ => x)
      ∧ (∀ n : Int, |n| ≤ 16777216 → (fun x : ℚ => x) (n : ℚ) = n)
      ∧ (0 : ℚ) ≤ 1 / 1000
      ∧ (∀ x : ℚ, |x| ≤ 1000 → |(fun x : ℚ => x) x - x| ≤ 0 * max 1 |x|)
      ∧ (placed 20 10 30 10 : Game ℚ).player1.x ≤ (placed 20 10 30 10 : Game ℚ).ball.x
      ∧ GetDeflectionAngleRounded (fun x : ℚ => x) (placed 20 10 30 10)
          (placed 20 10 30 10 : Game ℚ).player1 = -70
      ∧ |GetDeflectionAngleRounded (fun x : ℚ => x) (placed 20 10 30 10)
          (placed 20 10 30 10 : Game ℚ).player1
          - (-70 + 140 * ((placed 20 10 30 10 : Game ℚ).ball.y
              - (placed 20 10 30 10 : Game ℚ).player1.y) / 64)| ≤ 700 * 0 :=
  have hmono : Monotone (fun x : ℚ => x) := fun _ _ h => h
  have hint : ∀ n : Int, |n| ≤ 16777216 → (fun x : ℚ => x) (n : ℚ) = n := fun _ _ => rfl
  have herr : ∀ x : ℚ, |x| ≤ 1000 → |(fun x : ℚ => x) x - x| ≤ 0 * max 1 |x| := by
    intro x _
    simp
  have hx : (placed 20 10 30 10 : Game ℚ).player1.x ≤ (placed 20 10 30 10 : Game ℚ).ball.x := by
    norm_num [placed, startGame]
  have h := getDeflectionAngle_linear (fun x : ℚ => x) 0 hmono hint (by norm_num) herr
    (placed 20 10 30 10) (placed 20 10 30 10 : Game ℚ).player1 hx
  ⟨hmono, hint, by norm_num, herr, hx, h.2.2.1 rfl,
    h.1 (by norm_num [placed, startGame])⟩

/-! ## The ball state machine -/

section Machine

variable {F : Type} [LinearOrderedField F]

/-- The scoring step either sets the state to SCORED or changes neither the
state nor a score. -/
theorem checkScore_cases (w h : Int) (s : Game F) :
    (checkScore w h s).ballState = BallState.SCORED
      ∨ ((checkScore w h s).ballState = s.ballState
        ∧ (checkScore w h s).player1.score = s.player1.score
        ∧ (checkScore w h s).player2.score = s.player2.score) := by
  unfold checkScore
  split_ifs
  · exact Or.inl rfl
  · exact Or.inl rfl
  · exact Or.inr ⟨rfl, rfl, rfl⟩

/-- An update of a moving ball either ends in SCORED or changes neither the
state nor a score. -/
theorem update_moving_cases (m : Libm F) (f : Frame F) (s : Game F)
    (hs : s.ballState = BallState.MOVING) :
    (UpdateGameplayScreen m f s).ballState = BallState.SCORED
      ∨ ((UpdateGameplayScreen m f s).ballState = BallState.MOVING
        ∧ (UpdateGameplayScreen m f s).player1.score = s.player1.score
        ∧ (UpdateGameplayScreen m f s).player2.score = s.player2.score) := by
  obtain ⟨-, hst, hp1, hp2⟩ := updatePlayers_frame f s
  obtain ⟨-, w2, w3, w4⟩ :=
    bounceWalls_keeps f.screenHeight (moveBall (updatePlayer2 f (updatePlayer1 f s)))
  obtain ⟨c1, c2, -, c4, -, -⟩ := collide_after_score m (atPlayer1Check f s)
  rw [update_moving_eq m f s hs]
  unfold atPlayer2Check
  rw [c1, c2, c4]
  unfold atPlayer1Check
  rcases checkScore_cases f.screenWidth f.screenHeight
    (bounceWalls f.screenHeight (moveBall (updatePlayer2 f (updatePlayer1 f s)))) with h | h
  · exact Or.inl h
  · right
    obtain ⟨h1, h2, h3⟩ := h
    rw [h1, h2, h3, w2, w3, w4]
    exact ⟨hst.trans hs, hp1, hp2⟩

/-- C14: for every state and every update, the pair (state before, state
after) is `(s, s)`, (SERVING, MOVING), (MOVING, SCORED) or (SCORED, SERVING);
the update never goes from SERVING to SCORED, from MOVING to SERVING or from
SCORED to MOVING, and a score changes only on a MOVING -> SCORED step. -/
theorem ballState_cycle (m : Libm F) (f : Frame F) (s : Game F) :
    ((UpdateGameplayScreen m f s).ballState = s.ballState
        ∨ (s.ballState = BallState.SERVING
          ∧ (UpdateGameplayScreen m f s).ballState = BallState.MOVING)
        ∨ (s.ballState = BallState.MOVING
          ∧ (UpdateGameplayScreen m f s).ballState = BallState.SCORED)
        ∨ (s.ballState = BallState.SCORED
          ∧ (UpdateGameplayScreen m f s).ballState = BallState.SERVING))
      ∧ ¬ (s.ballState = BallState.SERVING
          ∧ (UpdateGameplayScreen m f s).ballState = BallState.SCORED)
      ∧ ¬ (s.ballState = BallState.MOVING
          ∧ (UpdateGameplayScreen m f s).ballState = BallState.SERVING)
      ∧ ¬ (s.ballState = BallState.SCORED
          ∧ (UpdateGameplayScreen m f s).ballState = BallState.MOVING)
      ∧ (((UpdateGameplayScreen m f s).player1.score ≠ s.player1.score
          ∨ (UpdateGameplayScreen m f s).player2.score ≠ s.player2.score) →
        s.ballState = BallState.MOVING
          ∧ (UpdateGameplayScreen m f s).ballState = BallState.SCORED) := by
  obtain ⟨-, hst, hp1, hp2⟩ := updatePlayers_frame f s
  cases hs : s.ballState with
  | SERVING =>
    have hn : (UpdateGameplayScreen m f s).ballState = BallState.MOVING
        ∨ (UpdateGameplayScreen m f s).ballState = BallState.SERVING := by
      rw [update_serving m f s hs]
      by_cases ht : s.ball.servingTime + f.frameTime ≥ 2
      · rw [if_pos ht]
        exact Or.inl rfl
      · rw [if_neg ht]
        exact Or.inr (hst.trans hs)
    have hsc : (UpdateGameplayScreen m f s).player1.score = s.player1.score
        ∧ (UpdateGameplayScreen m f s).player2.score = s.player2.score := by
      rw [update_serving m f s hs]
      by_cases ht : s.ball.servingTime + f.frameTime ≥ 2
      · rw [if_pos ht]
        exact ⟨hp1, hp2⟩
      · rw [if_neg ht]
        exact ⟨hp1, hp2⟩
    refine ⟨?_, ?_, ?_, ?_, ?_⟩
    · rcases hn with h | h
      · exact Or.inr (Or.inl ⟨rfl, h⟩)
      · exact Or.inl h
    · rintro ⟨-, h⟩
      rcases hn with h2 | h2 <;> rw [h2] at h <;> cases h
    · rintro ⟨h, -⟩
      cases h
    · rintro ⟨h, -⟩
      cases h
    · rintro (h | h)
      · exact absurd hsc.1 h
      · exact absurd hsc.2 h
  | MOVING =>
    have hn := update_moving_cases m f s hs
    refine ⟨?_, ?_, ?_, ?_, ?_⟩
    · rcases hn with h | h
      · exact Or.inr (Or.inr (Or.inl ⟨rfl, h⟩))
      · exact Or.inl h.1
    · rintro ⟨h, -⟩
      cases h
    · rintro ⟨-, h⟩
      rcases hn with h2 | h2
      · rw [h2] at h
        cases h
      · rw [h2.1] at h
        cases h
    · rintro ⟨h, -⟩
      cases h
    · intro hch
      rcases hn with h | h
      · exact ⟨rfl, h⟩
      · rcases hch with h2 | h2
        · exact absurd h.2.1 h2
        · exact absurd h.2.2 h2
  | SCORED =>
    have hn : (UpdateGameplayScreen m f s).ballState = BallState.SERVING
        ∨ (UpdateGameplayScreen m f s).ballState = BallState.SCORED := by
      rw [update_scored m f s hs]
      by_cases ht : s.ball.servingTime + f.frameTime ≥ 2
      · rw [if_pos ht]
        exact Or.inl rfl
      · rw [if_neg ht]
        exact Or.inr (hst.trans hs)
    have hsc : (UpdateGameplayScreen m f s).player1.score = s.player1.score
        ∧ (UpdateGameplayScreen m f s).player2.score = s.player2.score := by
      rw [update_scored m f s hs]
      by_cases ht : s.ball.servingTime + f.frameTime ≥ 2
      · rw [if_pos ht]
        exact ⟨hp1, hp2⟩
      · rw [if_neg ht]
        exact ⟨hp1, hp2⟩
    refine ⟨?_, ?_, ?_, ?_, ?_⟩
    · rcases hn with h | h
      · exact Or.inr (Or.inr (Or.inr ⟨rfl, h⟩))
      · exact Or.inl h
    · rintro ⟨h, -⟩
      cases h
    · rintro ⟨h, -⟩
      cases h
    · rintro ⟨-, h⟩
      rcases hn with h2 | h2 <;> rw [h2] at h <;> cases h
    · rintro (h | h)
      · exact absurd hsc.1 h
      · exact absurd hsc.2 h

end Machine

/-! ## Paddles stay on screen -/

section PaddleBounds

variable {F : Type} [LinearOrderedField F]

/-- The scoring step leaves the paddles where they are. -/
theorem checkScore_paddles (w h : Int) (s : Game F) :
    (checkScore w h s).player1.x = s.player1.x
      ∧ (checkScore w h s).player1.y = s.player1.y
      ∧ (checkScore w h s).player2.x = s.player2.x
      ∧ (checkScore w h s).player2.y = s.player2.y
      ∧ (checkScore w h s).player2.moveSpeed = s.player2.moveSpeed := by
  unfold checkScore
  split_ifs <;> exact ⟨rfl, rfl, rfl, rfl, rfl⟩

/-- The ball update leaves the paddles where they are. -/
theorem updateBall_paddles (m : Libm F) (f : Frame F) (s : Game F) :
    (updateBall m f s).player1.x = s.player1.x
      ∧ (updateBall m f s).player1.y = s.player1.y
      ∧ (updateBall m f s).player2.x = s.player2.x
      ∧ (updateBall m f s).player2.y = s.player2.y
      ∧ (updateBall m f s).player2.moveSpeed = s.player2.moveSpeed := by
  unfold updateBall
  cases s.ballState with
  | SERVING =>
    simp only
    split_ifs <;> exact ⟨rfl, rfl, rfl, rfl, rfl⟩
  | MOVING =>
    simp only
    unfold UpdateBallMovement
    obtain ⟨-, a2, a3, -, -⟩ := collidePlayer2_keeps m
      (collidePlayer1 m (checkScore f.screenWidth f.screenHeight
        (bounceWalls f.screenHeight (moveBall s))))
    obtain ⟨-, b2, b3, -, -⟩ := collidePlayer1_keeps m
      (checkScore f.screenWidth f.screenHeight (bounceWalls f.screenHeight (moveBall s)))
    obtain ⟨c1, c2, c3, c4, c5⟩ := checkScore_paddles f.screenWidth f.screenHeight
      (bounceWalls f.screenHeight (moveBall s))
    obtain ⟨-, d2, d3, -⟩ := bounceWalls_keeps f.screenHeight (moveBall s)
    rw [a2, a3, b2, b3, c1, c2, c3, c4, c5, d2, d3]
    exact ⟨rfl, rfl, rfl, rfl, rfl⟩
  | SCORED =>
    simp only
    split_ifs <;> exact ⟨rfl, rfl, rfl, rfl, rfl⟩

/-- `Clamp` with `lo <= hi` returns a value in `[lo, hi]`. -/
theorem clamp_mem (v lo hi : F) (h : lo ≤ hi) : lo ≤ Clamp v lo hi ∧ Clamp v lo hi ≤ hi := by
  unfold Clamp
  simp only
  split_ifs with h1 h2 h2
  · exact ⟨h, le_refl _⟩
  · exact ⟨le_refl _, h⟩
  · exact ⟨h, le_refl _⟩
  · exact ⟨not_lt.mp h1, not_lt.mp h2⟩

/-- An update never moves a paddle horizontally and keeps Player 2's speed. -/
theorem update_paddle_x (m : Libm F) (f : Frame F) (s : Game F) :
    (UpdateGameplayScreen m f s).player1.x = s.player1.x
      ∧ (UpdateGameplayScreen m f s).player2.x = s.player2.x
      ∧ (UpdateGameplayScreen m f s).player2.moveSpeed = s.player2.moveSpeed := by
  obtain ⟨u1, -, u3, -, u5⟩ := updateBall_paddles m f (updatePlayer2 f (updatePlayer1 f s))
  unfold UpdateGameplayScreen
  rw [u1, u3, u5]
  have h1 : (updatePlayer2 f (updatePlayer1 f s)).player1.x = s.player1.x := by
    rw [(updatePlayer2_score f _).2]
    unfold updatePlayer1
    split <;> rfl
  have h2 : (updatePlayer2 f (updatePlayer1 f s)).player2.x = s.player2.x
      ∧ (updatePlayer2 f (updatePlayer1 f s)).player2.moveSpeed = s.player2.moveSpeed := by
    have : (updatePlayer2 f (updatePlayer1 f s)).player2.x = (updatePlayer1 f s).player2.x
        ∧ (updatePlayer2 f (updatePlayer1 f s)).player2.moveSpeed
          = (updatePlayer1 f s).player2.moveSpeed := by
      unfold updatePlayer2
      split_ifs <;> exact ⟨rfl, rfl⟩
    rw [this.1, this.2, (updatePlayer1_score f s).2]
    exact ⟨rfl, rfl⟩
  exact ⟨h1, h2.1, h2.2⟩

/-- One update on a screen of height `H >= 64` with a non-negative frame time
keeps both paddles within `[0, H - 64]`, Player 2 moving at a non-negative
speed. -/
theorem update_paddles_in_range (m : Libm F) (H : Int) (hH : 64 ≤ H) (f : Frame F) (s : Game F)
    (hf : f.screenHeight = H ∧ 0 ≤ f.frameTime)
    (h1 : 0 ≤ s.player1.y ∧ s.player1.y ≤ (H : F) - 64)
    (h2 : 0 ≤ s.player2.y ∧ s.player2.y ≤ (H : F) - 64)
    (hv : 0 ≤ s.player2.moveSpeed) :
    (0 ≤ (UpdateGameplayScreen m f s).player1.y
        ∧ (UpdateGameplayScreen m f s).player1.y ≤ (H : F) - 64)
      ∧ (0 ≤ (UpdateGameplayScreen m f s).player2.y
        ∧ (UpdateGameplayScreen m f s).player2.y ≤ (H : F) - 64) := by
  obtain ⟨-, u2, -, u4, -⟩ := updateBall_paddles m f (updatePlayer2 f (updatePlayer1 f s))
  obtain ⟨hfh, hfd⟩ := hf
  subst hfh
  have hH2 : (0 : F) ≤ (f.screenHeight : F) - 64 := by
    have : ((64 : Int) : F) ≤ (f.screenHeight : F) := by exact_mod_cast hH
    simp only [Int.cast_ofNat] at this
    linarith
  have hstep := mul_nonneg hv hfd
  unfold UpdateGameplayScreen
  rw [u2, u4]
  constructor
  · rw [(updatePlayer2_score f _).2]
    unfold updatePlayer1
    split
    · have := clamp_mem ((f.mouseY : F) - ((paddleHeight / 2 : Int) : F)) 0
        ((f.screenHeight : F) - (paddleHeight : F)) (by simpa [paddleHeight] using hH2)
      simpa [paddleHeight] using this
    · exact h1
  · have hp2 : (updatePlayer1 f s).player2 = s.player2 := (updatePlayer1_score f s).2
    unfold updatePlayer2
    rw [hp2]
    simp only [paddleHeight, Int.cast_ofNat]
    split_ifs with k1 k2 k3 k4 <;> try dsimp only
    · exact ⟨le_refl _, hH2⟩
    · exact ⟨not_lt.mp k2, by linarith⟩
    · exact ⟨hH2, le_refl _⟩
    · exact ⟨by linarith, not_lt.mp k4⟩
    · rw [hp2]
      exact h2

/-- C18: for a fixed screen height `H >= 64` and non-negative frame times, in
every state reachable from `InitGameplayScreen` by updates (any cursor
position, any key states) both `player1.y` and `player2.y` lie in
`[0, H - 64]`; `InitGameplayScreen` places both at `H/2 - 32`, with
`player1.x = 20` and `player2.x = screenWidth - 36`, and an update never
changes either paddle's `x`. -/
theorem paddles_on_screen (m : Libm F) (H w : Int) (hH : 64 ≤ H) (prior s : Game F)
    (hr : ReachableFrom m (fun f => f.screenHeight = H ∧ 0 ≤ f.frameTime)
      (InitGameplayScreen w H prior) s) :
    ((0 ≤ s.player1.y ∧ s.player1.y ≤ (H : F) - 64)
        ∧ (0 ≤ s.player2.y ∧ s.player2.y ≤ (H : F) - 64))
      ∧ ((InitGameplayScreen w H prior).player1.y = (H : F) / 2 - 32
        ∧ (InitGameplayScreen w H prior).player2.y = (H : F) / 2 - 32
        ∧ (InitGameplayScreen w H prior).player1.x = 20
        ∧ (InitGameplayScreen w H prior).player2.x = (w : F) - 36)
      ∧ (∀ (f : Frame F) (t : Game F),
          (UpdateGameplayScreen m f t).player1.x = t.player1.x
            ∧ (UpdateGameplayScreen m f t).player2.x = t.player2.x) := by
  have hinit : (InitGameplayScreen w H prior).player1.y = (H : F) / 2 - 32
      ∧ (InitGameplayScreen w H prior).player2.y = (H : F) / 2 - 32
      ∧ (InitGameplayScreen w H prior).player1.x = 20
      ∧ (InitGameplayScreen w H prior).player2.x = (w : F) - 36 := by
    refine ⟨?_, ?_, rfl, ?_⟩ <;>
      simp only [InitGameplayScreen, paddleHeight, paddleWidth, Int.cast_ofNat] <;> ring
  have hH2 : (64 : F) ≤ (H : F) := by
    have : ((64 : Int) : F) ≤ (H : F) := by exact_mod_cast hH
    simpa using this
  refine ⟨?_, hinit, fun f t => ⟨(update_paddle_x m f t).1, (update_paddle_x m f t).2.1⟩⟩
  have key : ((0 ≤ s.player1.y ∧ s.player1.y ≤ (H : F) - 64)
      ∧ (0 ≤ s.player2.y ∧ s.player2.y ≤ (H : F) - 64)) ∧ s.player2.moveSpeed = 250 := by
    induction hr with
    | start =>
      refine ⟨⟨?_, ?_⟩, rfl⟩
      · rw [hinit.1]
        constructor <;> linarith
      · rw [hinit.2.1]
        constructor <;> linarith
    | step f t _ hf ih =>
      obtain ⟨⟨i1, i2⟩, i3⟩ := ih
      refine ⟨update_paddles_in_range m H hH f t hf i1 i2 (by rw [i3]; norm_num), ?_⟩
      rw [(update_paddle_x m f t).2.2, i3]
  exact key.1

end PaddleBounds

/-- On an 800 x 450 screen, after one idle frame from the initial state, both
paddles sit at `y = 193`, within `[0, 386]`. -/
theorem paddles_on_screen_witness :
    (64 : Int) ≤ 450
      ∧ ReachableFrom realMath (fun f => f.screenHeight = 450 ∧ 0 ≤ f.frameTime)
          (InitGameplayScreen 800 450 (startGame ℝ))
          (UpdateGameplayScreen realMath (idleFrame 800 450 0)
            (InitGameplayScreen 800 450 (startGame ℝ)))
      ∧ (0 ≤ (UpdateGameplayScreen realMath (idleFrame 800 450 0)
            (InitGameplayScreen 800 450 (startGame ℝ))).player1.y
        ∧ (UpdateGameplayScreen realMath (idleFrame 800 450 0)
            (InitGameplayScreen 800 450 (startGame ℝ))).player1.y ≤ ((450 : Int) : ℝ) - 64)
      ∧ (0 ≤ (UpdateGameplayScreen realMath (idleFrame 800 450 0)
            (InitGameplayScreen 800 450 (startGame ℝ))).player2.y
        ∧ (UpdateGameplayScreen realMath (idleFrame 800 450 0)
            (InitGameplayScreen 800 450 (startGame ℝ))).player2.y ≤ ((450 : Int) : ℝ) - 64) :=
  have hreach : ReachableFrom realMath (fun f => f.screenHeight = 450 ∧ 0 ≤ f.frameTime)
      (InitGameplayScreen 800 450 (startGame ℝ))
      (UpdateGameplayScreen realMath (idleFrame 800 450 0)
        (InitGameplayScreen 800 450 (startGame ℝ))) :=
    ReachableFrom.step _ _ ReachableFrom.start ⟨rfl, le_refl _⟩
  have h := paddles_on_screen realMath 450 800 (by decide) (startGame ℝ) _ hreach
  ⟨by decide, hreach, h.1.1, h.1.2⟩

/-! ## The ball stays vertically on screen -/

section BallBounds

variable {F : Type} [LinearOrderedField F]

/-- After the wall step the ball is either where the position step put it,
strictly between the walls, or at `y = 1`, or at `y = h - 17`. -/
theorem bounceWalls_y_cases (h : Int) (s : Game F) :
    ((bounceWalls h s).ball.y = s.ball.y
        ∧ 0 < (bounceWalls h s).ball.y ∧ (bounceWalls h s).ball.y < (h : F) - (ballSize : F))
      ∨ (bounceWalls h s).ball.y = 1
      ∨ (bounceWalls h s).ball.y = (h : F) - 17 := by
  unfold bounceWalls
  split_ifs with h1 h2
  · exact Or.inr (Or.inl rfl)
  · right
    right
    show (h : F) - (ballSize : F) - 1 = (h : F) - 17
    simp only [ballSize, Int.cast_ofNat]
    ring
  · left
    refine ⟨rfl, not_le.mp h1, ?_⟩
    have := not_le.mp h2
    simpa [ballSize] using this

/-- The scoring step leaves `ball.y` or puts it at `h / 2`. -/
theorem checkScore_y_cases (w h : Int) (s : Game F) :
    (checkScore w h s).ball.y = s.ball.y ∨ (checkScore w h s).ball.y = (h : F) / 2 := by
  unfold checkScore
  split_ifs
  · right
    show (h : F) * 0.5 = (h : F) / 2
    norm_num
    ring
  · right
    show (h : F) * 0.5 = (h : F) / 2
    norm_num
    ring
  · exact Or.inl rfl

/-- The ball's `y` after an update of a moving ball. -/
theorem update_moving_y_cases (m : Libm F) (f : Frame F) (s : Game F)
    (hs : s.ballState = BallState.MOVING) :
    ((UpdateGameplayScreen m f s).ball.y = s.ball.y + s.ball.velY
        ∧ 0 < (UpdateGameplayScreen m f s).ball.y
        ∧ (UpdateGameplayScreen m f s).ball.y < (f.screenHeight : F) - (ballSize : F))
      ∨ (UpdateGameplayScreen m f s).ball.y = 1
      ∨ (UpdateGameplayScreen m f s).ball.y = (f.screenHeight : F) - 17
      ∨ (UpdateGameplayScreen m f s).ball.y = (f.screenHeight : F) / 2 := by
  obtain ⟨hb, -, -, -⟩ := updatePlayers_frame f s
  obtain ⟨-, -, -, -, c5, -⟩ := collide_after_score m (atPlayer1Check f s)
  rw [update_moving_eq m f s hs]
  unfold atPlayer2Check
  rw [c5]
  unfold atPlayer1Check
  have hmove : (moveBall (updatePlayer2 f (updatePlayer1 f s))).ball.y
      = s.ball.y + s.ball.velY := by
    show (updatePlayer2 f (updatePlayer1 f s)).ball.y
      + (updatePlayer2 f (updatePlayer1 f s)).ball.velY = _
    rw [hb]
  rcases checkScore_y_cases f.screenWidth f.screenHeight
    (bounceWalls f.screenHeight (moveBall (updatePlayer2 f (updatePlayer1 f s)))) with h | h
  · rw [h]
    rcases bounceWalls_y_cases f.screenHeight
      (moveBall (updatePlayer2 f (updatePlayer1 f s))) with k | k | k
    · left
      rw [← hmove]
      exact k
    · exact Or.inr (Or.inl k)
    · exact Or.inr (Or.inr (Or.inl k))
  · exact Or.inr (Or.inr (Or.inr h))

/-- An update of a ball that is not moving leaves `ball.y` unchanged. -/
theorem update_still_y (m : Libm F) (f : Frame F) (s : Game F)
    (hs : s.ballState ≠ BallState.MOVING) :
    (UpdateGameplayScreen m f s).ball.y = s.ball.y := by
  cases h : s.ballState with
  | SERVING =>
    rw [update_serving m f s h]
    by_cases ht : s.ball.servingTime + f.frameTime ≥ 2
    · rw [if_pos ht]
      rfl
    · rw [if_neg ht]
  | MOVING => exact absurd h hs
  | SCORED =>
    rw [update_scored m f s h]
    by_cases ht : s.ball.servingTime + f.frameTime ≥ 2
    · rw [if_pos ht]
    · rw [if_neg ht]

/-- C19: for a fixed screen height `H > 32`, in every state reachable from
`InitGameplayScreen` by updates the ball's `y` satisfies
`0 < ball.y < H - ballSize`; after every update of a moving ball the ball is
either where the position step put it, strictly inside that range, or at
`y = 1` (top bounce), at `y = H - 17` (bottom bounce) or at `y = H / 2` (score
reset). -/
theorem ball_on_screen (m : Libm F) (H w : Int) (hH : 32 < H) (prior s : Game F)
    (hr : ReachableFrom m (fun f => f.screenHeight = H) (InitGameplayScreen w H prior) s) :
    (0 < s.ball.y ∧ s.ball.y < (H : F) - (ballSize : F))
      ∧ (∀ (f : Frame F) (t : Game F), f.screenHeight = H → t.ballState = BallState.MOVING →
          ((UpdateGameplayScreen m f t).ball.y = t.ball.y + t.ball.velY
              ∧ 0 < (UpdateGameplayScreen m f t).ball.y
              ∧ (UpdateGameplayScreen m f t).ball.y < (H : F) - (ballSize : F))
            ∨ (UpdateGameplayScreen m f t).ball.y = 1
            ∨ (UpdateGameplayScreen m f t).ball.y = (H : F) - 17
            ∨ (UpdateGameplayScreen m f t).ball.y = (H : F) / 2) := by
  have hH2 : (32 : F) < (H : F) := by
    have : ((32 : Int) : F) < (H : F) := by exact_mod_cast hH
    simpa using this
  have hcases : ∀ (f : Frame F) (t : Game F), f.screenHeight = H →
      t.ballState = BallState.MOVING →
      ((UpdateGameplayScreen m f t).ball.y = t.ball.y + t.ball.velY
          ∧ 0 < (UpdateGameplayScreen m f t).ball.y
          ∧ (UpdateGameplayScreen m f t).ball.y < (H : F) - (ballSize : F))
        ∨ (UpdateGameplayScreen m f t).ball.y = 1
        ∨ (UpdateGameplayScreen m f t).ball.y = (H : F) - 17
        ∨ (UpdateGameplayScreen m f t).ball.y = (H : F) / 2 := by
    intro f t hf ht
    have := update_moving_y_cases m f t ht
    rw [hf] at this
    exact this
  refine ⟨?_, hcases⟩
  induction hr with
  | start =>
    show 0 < (H : F) / 2 ∧ (H : F) / 2 < (H : F) - (ballSize : F)
    simp only [ballSize, Int.cast_ofNat]
    constructor <;> linarith
  | step f t _ hf ih =>
    by_cases ht : t.ballState = BallState.MOVING
    · rcases hcases f t hf ht with k | k | k | k
      · exact k.2
      · rw [k]
        simp only [ballSize, Int.cast_ofNat]
        constructor <;> linarith
      · rw [k]
        simp only [ballSize, Int.cast_ofNat]
        constructor <;> linarith
      · rw [k]
        simp only [ballSize, Int.cast_ofNat]
        constructor <;> linarith
    · rw [update_still_y m f t ht]
      exact ih

end BallBounds

/-- On an 800 x 450 screen, after one idle frame from the initial state, the
ball is at `y = 225`, within `(0, 434)`. -/
theorem ball_on_screen_witness :
    (32 : Int) < 450
      ∧ ReachableFrom realMath (fun f => f.screenHeight = 450)
          (InitGameplayScreen 800 450 (startGame ℝ))
          (UpdateGameplayScreen realMath (idleFrame 800 450 0)
            (InitGameplayScreen 800 450 (startGame ℝ)))
      ∧ 0 < (UpdateGameplayScreen realMath (idleFrame 800 450 0)
            (InitGameplayScreen 800 450 (startGame ℝ))).ball.y
      ∧ (UpdateGameplayScreen realMath (idleFrame 800 450 0)
            (InitGameplayScreen 800 450 (startGame ℝ))).ball.y
          < ((450 : Int) : ℝ) - (ballSize : ℝ) :=
  have hreach : ReachableFrom realMath (fun f => f.screenHeight = 450)
      (InitGameplayScreen 800 450 (startGame ℝ))
      (UpdateGameplayScreen realMath (idleFrame 800 450 0)
        (InitGameplayScreen 800 450 (startGame ℝ))) :=
    ReachableFrom.step _ _ ReachableFrom.start rfl
  have h := ball_on_screen realMath 450 800 (by decide) (startGame ℝ) _ hreach
  ⟨by decide, hreach, h.1.1, h.1.2⟩

/-! ## Wall bounces -/

section Walls

variable {F : Type} [LinearOrderedField F]

theorem bounceWalls_top (h : Int) (s : Game F) (hy : s.ball.y ≤ 0) :
    bounceWalls h s = { s with ball := { s.ball with velY := -s.ball.velY, y := 1 } } := by
  unfold bounceWalls
  rw [if_pos hy]

theorem bounceWalls_bottom (h : Int) (s : Game F) (h1 : ¬ s.ball.y ≤ 0)
    (h2 : s.ball.y ≥ ((h - ballSize : Int) : F)) :
    bounceWalls h s
      = { s with ball := { s.ball with
            velY := -s.ball.velY, y := (h : F) - (ballSize : F) - 1 } } := by
  unfold bounceWalls
  rw [if_neg h1, if_pos h2]

/-- The scoring step for a ball between the two thresholds. -/
theorem checkScore_none (w h : Int) (s : Game F) (hl : ¬ s.ball.x < (ballSize : F) - 20)
    (hr : ¬ s.ball.x > (w : F) + 20) : checkScore w h s = s := by
  unfold checkScore
  rw [if_neg hl, if_neg hr]

/-- The scoring step never changes the velocity. -/
theorem checkScore_vel (w h : Int) (s : Game F) :
    (checkScore w h s).ball.velX = s.ball.velX ∧ (checkScore w h s).ball.velY = s.ball.velY := by
  unfold checkScore
  split_ifs <;> exact ⟨rfl, rfl⟩

/-- The moved ball, in terms of the state before the update. -/
theorem moveBall_players (f : Frame F) (s : Game F) :
    (moveBall (updatePlayer2 f (updatePlayer1 f s))).ball.x = s.ball.x + s.ball.velX
      ∧ (moveBall (updatePlayer2 f (updatePlayer1 f s))).ball.y = s.ball.y + s.ball.velY
      ∧ (moveBall (updatePlayer2 f (updatePlayer1 f s))).ball.velX = s.ball.velX
      ∧ (moveBall (updatePlayer2 f (updatePlayer1 f s))).ball.velY = s.ball.velY
      ∧ (moveBall (updatePlayer2 f (updatePlayer1 f s))).ballState = s.ballState := by
  obtain ⟨hb, hst, -, -⟩ := updatePlayers_frame f s
  refine ⟨?_, ?_, ?_, ?_, hst⟩
  · show (updatePlayer2 f (updatePlayer1 f s)).ball.x
      + (updatePlayer2 f (updatePlayer1 f s)).ball.velX = _
    rw [hb]
  · show (updatePlayer2 f (updatePlayer1 f s)).ball.y
      + (updatePlayer2 f (updatePlayer1 f s)).ball.velY = _
    rw [hb]
  · show (updatePlayer2 f (updatePlayer1 f s)).ball.velX = _
    rw [hb]
  · show (updatePlayer2 f (updatePlayer1 f s)).ball.velY = _
    rw [hb]

/-- An update of a moving ball whose box overlaps neither paddle at the
paddle checks ends in the state of the Player 1 check. -/
theorem update_moving_no_hit (m : Libm F) (f : Frame F) (s : Game F)
    (hs : s.ballState = BallState.MOVING)
    (h1 : ¬ Overlaps (atPlayer1Check f s).ball (atPlayer1Check f s).player1)
    (h2 : ¬ Overlaps (atPlayer1Check f s).ball (atPlayer1Check f s).player2) :
    UpdateGameplayScreen m f s = atPlayer1Check f s := by
  rw [update_moving_eq m f s hs]
  unfold atPlayer2Check
  rw [collidePlayer1_of_not_overlaps m _ h1, collidePlayer2_of_not_overlaps m _ h2]

/-- C11, amended: in an update of a moving ball whose `y` after the position
step is `<= 0`: if no point is scored in that frame, `ball.y = 1` after the
update; if the ball's box overlaps neither paddle at the paddle checks, `velY`
after the update is the negation of its previous value, hence positive when
`velY` was negative before the update. -/
theorem top_bounce_spec (m : Libm F) (f : Frame F) (s : Game F)
    (hs : s.ballState = BallState.MOVING) (hy : s.ball.y + s.ball.velY ≤ 0) :
    ((¬ s.ball.x + s.ball.velX < (ballSize : F) - 20
          ∧ ¬ s.ball.x + s.ball.velX > (f.screenWidth : F) + 20) →
        (UpdateGameplayScreen m f s).ball.y = 1)
      ∧ (¬ Overlaps (atPlayer1Check f s).ball (atPlayer1Check f s).player1 →
          ¬ Overlaps (atPlayer1Check f s).ball (atPlayer1Check f s).player2 →
          (UpdateGameplayScreen m f s).ball.velY = -s.ball.velY
            ∧ (s.ball.velY < 0 → 0 < (UpdateGameplayScreen m f s).ball.velY)) := by
  obtain ⟨mx, my, -, mvy, -⟩ := moveBall_players f s
  have hb := bounceWalls_top f.screenHeight (moveBall (updatePlayer2 f (updatePlayer1 f s)))
    (by rw [my]; exact hy)
  constructor
  · rintro ⟨hl, hr⟩
    obtain ⟨-, -, -, -, c5, -⟩ := collide_after_score m (atPlayer1Check f s)
    rw [update_moving_eq m f s hs]
    unfold atPlayer2Check
    rw [c5]
    unfold atPlayer1Check
    rw [checkScore_none, hb]
    · rw [(bounceWalls_keeps _ _).1, mx]
      exact hl
    · rw [(bounceWalls_keeps _ _).1, mx]
      exact hr
  · intro h1 h2
    have hv : (UpdateGameplayScreen m f s).ball.velY = -s.ball.velY := by
      rw [update_moving_no_hit m f s hs h1 h2]
      unfold atPlayer1Check
      rw [(checkScore_vel _ _ _).2, hb]
      show -(moveBall (updatePlayer2 f (updatePlayer1 f s))).ball.velY = _
      rw [mvy]
    refine ⟨hv, fun hneg => ?_⟩
    rw [hv]
    linarith

/-- C17, amended: an update of a moving ball that bounces off the top wall
(`y <= 0` after the position step, `velY < 0` before it), with no paddle
collision and no score in that frame, leaves the ball moving at `y = 1` with
`velY > 0`, and the next update does not take the top-wall branch;
symmetrically for the bottom wall, the ball is left at
`screenHeight - ballSize - 1` with `velY < 0`, and the next update does not
take the bottom-wall branch provided its screen is not lower than the screen
of the bouncing frame. -/
theorem bounce_inset_spec (m : Libm F) (f : Frame F) (s : Game F)
    (hs : s.ballState = BallState.MOVING)
    (hns : ¬ s.ball.x + s.ball.velX < (ballSize : F) - 20
      ∧ ¬ s.ball.x + s.ball.velX > (f.screenWidth : F) + 20)
    (hnp : ¬ Overlaps (atPlayer1Check f s).ball (atPlayer1Check f s).player1
      ∧ ¬ Overlaps (atPlayer1Check f s).ball (atPlayer1Check f s).player2) :
    (topBounceTaken f s → s.ball.velY < 0 →
        (UpdateGameplayScreen m f s).ballState = BallState.MOVING
          ∧ (UpdateGameplayScreen m f s).ball.y = 1
          ∧ 0 < (UpdateGameplayScreen m f s).ball.velY
          ∧ ∀ g : Frame F, ¬ topBounceTaken g (UpdateGameplayScreen m f s))
      ∧ (bottomBounceTaken f s → 0 < s.ball.velY →
        (UpdateGameplayScreen m f s).ballState = BallState.MOVING
          ∧ (UpdateGameplayScreen m f s).ball.y = (f.screenHeight : F) - (ballSize : F) - 1
          ∧ (UpdateGameplayScreen m f s).ball.velY < 0
          ∧ ∀ g : Frame F, f.screenHeight ≤ g.screenHeight →
              ¬ bottomBounceTaken g (UpdateGameplayScreen m f s)) := by
  obtain ⟨mx, my, -, mvy, mst⟩ := moveBall_players f s
  have hu := update_moving_no_hit m f s hs hnp.1 hnp.2
  have hc : atPlayer1Check f s
      = bounceWalls f.screenHeight (moveBall (updatePlayer2 f (updatePlayer1 f s))) := by
    unfold atPlayer1Check
    apply checkScore_none
    · rw [(bounceWalls_keeps _ _).1, mx]
      exact hns.1
    · rw [(bounceWalls_keeps _ _).1, mx]
      exact hns.2
  have hst : (UpdateGameplayScreen m f s).ballState = BallState.MOVING := by
    rw [hu, hc, (bounceWalls_keeps _ _).2.2.2, mst, hs]
  constructor
  · intro htop hneg
    have hb := bounceWalls_top f.screenHeight
      (moveBall (updatePlayer2 f (updatePlayer1 f s))) htop
    have hy1 : (UpdateGameplayScreen m f s).ball.y = 1 := by
      rw [hu, hc, hb]
    have hv : (UpdateGameplayScreen m f s).ball.velY = -s.ball.velY := by
      rw [hu, hc, hb]
      show -(moveBall (updatePlayer2 f (updatePlayer1 f s))).ball.velY = _
      rw [mvy]
    refine ⟨hst, hy1, by rw [hv]; linarith, ?_⟩
    intro g hg
    unfold topBounceTaken at hg
    rw [(moveBall_players g _).2.1, hy1, hv] at hg
    linarith
  · intro hbot hpos
    have hb := bounceWalls_bottom f.screenHeight
      (moveBall (updatePlayer2 f (updatePlayer1 f s))) hbot.1 hbot.2
    have hy1 : (UpdateGameplayScreen m f s).ball.y
        = (f.screenHeight : F) - (ballSize : F) - 1 := by
      rw [hu, hc, hb]
    have hv : (UpdateGameplayScreen m f s).ball.velY = -s.ball.velY := by
      rw [hu, hc, hb]
      show -(moveBall (updatePlayer2 f (updatePlayer1 f s))).ball.velY = _
      rw [mvy]
    refine ⟨hst, hy1, by rw [hv]; linarith, ?_⟩
    intro g hle hg
    have hge := hg.2
    rw [(moveBall_players g _).2.1, hy1, hv] at hge
    have hcast : (f.screenHeight : F) ≤ (g.screenHeight : F) := by exact_mod_cast hle
    simp only [ballSize, Int.cast_sub, Int.cast_ofNat] at hge
    linarith

end Walls

/-- A frame without input leaves the paddles alone. -/
theorem updatePlayers_idle {F : Type} [LinearOrderedField F] (w h : Int) (dt : F) (s : Game F) :
    updatePlayer2 (idleFrame w h dt) (updatePlayer1 (idleFrame w h dt) s) = s := by
  simp [updatePlayer1, updatePlayer2, idleFrame]

/-- The state at the Player 1 check for a ball that bounces off the top wall
of the 800 x 450 court without scoring. -/
theorem atPlayer1Check_top (x y vx vy : ℝ) (hy : y + vy ≤ 0) (hx0 : -4 ≤ x + vx)
    (hx1 : x + vx ≤ 820) :
    atPlayer1Check (idleFrame 800 450 0) (courtGame 800 450 x y vx vy)
      = { (courtGame 800 450 x y vx vy : Game ℝ) with
          ball := { x := x + vx, y := 1, velX := vx, velY := -vy, servingTime := 2 } } := by
  unfold atPlayer1Check
  rw [updatePlayers_idle, checkScore_none, bounceWalls_top]
  · rfl
  · exact hy
  · rw [(bounceWalls_keeps _ _).1]
    show ¬ x + vx < (ballSize : ℝ) - 20
    norm_num [ballSize]
    linarith
  · rw [(bounceWalls_keeps _ _).1]
    show ¬ x + vx > (((idleFrame 800 450 (0 : ℝ)).screenWidth : Int) : ℝ) + 20
    norm_num [idleFrame]
    linarith

/-- The state at the Player 1 check for a ball that bounces off the bottom
wall of the 800 x 450 court without scoring. -/
theorem atPlayer1Check_bottom (x y vx vy : ℝ) (hy0 : 0 < y + vy) (hy : 434 ≤ y + vy)
    (hx0 : -4 ≤ x + vx) (hx1 : x + vx ≤ 820) :
    atPlayer1Check (idleFrame 800 450 0) (courtGame 800 450 x y vx vy)
      = { (courtGame 800 450 x y vx vy : Game ℝ) with
          ball := { x := x + vx, y := 433, velX := vx, velY := -vy, servingTime := 2 } } := by
  unfold atPlayer1Check
  rw [updatePlayers_idle, checkScore_none, bounceWalls_bottom]
  · norm_num [moveBall, courtGame, idleFrame, ballSize]
  · exact not_le.mpr hy0
  · show y + vy ≥ (((idleFrame 800 450 (0 : ℝ)).screenHeight - ballSize : Int) : ℝ)
    norm_num [idleFrame, ballSize]
    exact hy
  · rw [(bounceWalls_keeps _ _).1]
    show ¬ x + vx < (ballSize : ℝ) - 20
    norm_num [ballSize]
    linarith
  · rw [(bounceWalls_keeps _ _).1]
    show ¬ x + vx > (((idleFrame 800 450 (0 : ℝ)).screenWidth : Int) : ℝ) + 20
    norm_num [idleFrame]
    linarith

/-- C11 as stated fails, on an 800 x 450 screen.  A ball at `(-2, -1)` with
velocity `(-16/5, -12/5)` bounces and scores in the same frame and ends at
`y = 225`.  With Player 1 at the top (cursor at `y = 0`), a ball at
`(166/5, -1)` with the same velocity bounces and hits the paddle, which sets
`velY = 4 sin(-67.8125 degrees) < 0`.  A ball at `(400, -3)` with velocity
`(16/5, 12/5)` bounces to `velY = -12/5`, which is not positive. -/
theorem top_bounce_counterexample :
    ((courtGame 800 450 (-2) (-1) (-16 / 5) (-12 / 5) : Game ℝ).ballState = BallState.MOVING
      ∧ (courtGame 800 450 (-2) (-1) (-16 / 5) (-12 / 5) : Game ℝ).ball.y
          + (courtGame 800 450 (-2) (-1) (-16 / 5) (-12 / 5) : Game ℝ).ball.velY ≤ 0
      ∧ (UpdateGameplayScreen realMath (idleFrame 800 450 0)
          (courtGame 800 450 (-2) (-1) (-16 / 5) (-12 / 5))).ball.y = 225
      ∧ (UpdateGameplayScreen realMath (idleFrame 800 450 0)
          (courtGame 800 450 (-2) (-1) (-16 / 5) (-12 / 5))).ball.y ≠ 1)
    ∧ ((courtGame 800 450 (166 / 5) (-1) (-16 / 5) (-12 / 5) : Game ℝ).ballState
          = BallState.MOVING
      ∧ (courtGame 800 450 (166 / 5) (-1) (-16 / 5) (-12 / 5) : Game ℝ).ball.y
          + (courtGame 800 450 (166 / 5) (-1) (-16 / 5) (-12 / 5) : Game ℝ).ball.velY ≤ 0
      ∧ (UpdateGameplayScreen realMath (cursorFrame 800 450 0 0)
          (courtGame 800 450 (166 / 5) (-1) (-16 / 5) (-12 / 5))).ball.velY < 0
      ∧ (UpdateGameplayScreen realMath (cursorFrame 800 450 0 0)
          (courtGame 800 450 (166 / 5) (-1) (-16 / 5) (-12 / 5))).ball.velY
        ≠ -(courtGame 800 450 (166 / 5) (-1) (-16 / 5) (-12 / 5) : Game ℝ).ball.velY)
    ∧ ((courtGame 800 450 400 (-3) (16 / 5) (12 / 5) : Game ℝ).ballState = BallState.MOVING
      ∧ (courtGame 800 450 400 (-3) (16 / 5) (12 / 5) : Game ℝ).ball.y
          + (courtGame 800 450 400 (-3) (16 / 5) (12 / 5) : Game ℝ).ball.velY ≤ 0
      ∧ ¬ 0 < (UpdateGameplayScreen realMath (idleFrame 800 450 0)
          (courtGame 800 450 400 (-3) (16 / 5) (12 / 5))).ball.velY) := by
  have ya : (UpdateGameplayScreen realMath (idleFrame 800 450 0)
      (courtGame 800 450 (-2) (-1) (-16 / 5) (-12 / 5))).ball.y = 225 := by
    rw [update_moving_eq _ _ _ rfl]
    norm_num [atPlayer2Check, atPlayer1Check, updatePlayer1, updatePlayer2, moveBall, bounceWalls,
      checkScore, collidePlayer1, collidePlayer2, courtGame, InitGameplayScreen, startGame,
      idleFrame, ballSize, paddleWidth, paddleHeight]
  have vb : (UpdateGameplayScreen realMath (cursorFrame 800 450 0 0)
      (courtGame 800 450 (166 / 5) (-1) (-16 / 5) (-12 / 5))).ball.velY
      = Real.sin (-(1085 / 16 * Real.pi) / 180) * 4 := by
    rw [update_moving_eq _ _ _ rfl]
    norm_num [atPlayer2Check, atPlayer1Check, updatePlayer1, updatePlayer2, moveBall, bounceWalls,
      checkScore, collidePlayer1, collidePlayer2, courtGame, InitGameplayScreen, startGame,
      cursorFrame, ballSize, paddleWidth, paddleHeight, Clamp, SetBallVelocity,
      GetDeflectionAngle, Lerp, maxDeflectAngle, realMath, ballSpeed]
  have vbneg : Real.sin (-(1085 / 16 * Real.pi) / 180) * 4 < 0 := by
    have hpi := Real.pi_pos
    have := Real.sin_neg_of_neg_of_neg_pi_lt
      (show -(1085 / 16 * Real.pi) / 180 < 0 by linarith)
      (show -Real.pi < -(1085 / 16 * Real.pi) / 180 by linarith)
    linarith
  have vc : (UpdateGameplayScreen realMath (idleFrame 800 450 0)
      (courtGame 800 450 400 (-3) (16 / 5) (12 / 5))).ball.velY = -12 / 5 := by
    rw [update_moving_eq _ _ _ rfl]
    norm_num [atPlayer2Check, atPlayer1Check, updatePlayer1, updatePlayer2, moveBall, bounceWalls,
      checkScore, collidePlayer1, collidePlayer2, courtGame, InitGameplayScreen, startGame,
      idleFrame, ballSize, paddleWidth, paddleHeight]
  refine ⟨⟨rfl, ?_, ya, ?_⟩, ⟨rfl, ?_, ?_, ?_⟩, ⟨rfl, ?_, ?_⟩⟩
  · norm_num [courtGame]
  · rw [ya]
    norm_num
  · norm_num [courtGame]
  · rw [vb]
    exact vbneg
  · rw [vb]
    have : -(courtGame 800 450 (166 / 5) (-1) (-16 / 5) (-12 / 5) : Game ℝ).ball.velY
        = 12 / 5 := by
      norm_num [courtGame]
    rw [this]
    linarith
  · norm_num [courtGame]
  · rw [vc]
    norm_num

/-- On an 800 x 450 screen a ball at `(400, -1)` with velocity `(16/5, -12/5)`
bounces off the top wall: it ends at `y = 1` with `velY = 12/5`. -/
theorem top_bounce_spec_witness :
    (courtGame 800 450 400 (-1) (16 / 5) (-12 / 5) : Game ℝ).ballState = BallState.MOVING
      ∧ (courtGame 800 450 400 (-1) (16 / 5) (-12 / 5) : Game ℝ).ball.y
          + (courtGame 800 450 400 (-1) (16 / 5) (-12 / 5) : Game ℝ).ball.velY ≤ 0
      ∧ (UpdateGameplayScreen realMath (idleFrame 800 450 0)
          (courtGame 800 450 400 (-1) (16 / 5) (-12 / 5))).ball.y = 1
      ∧ (UpdateGameplayScreen realMath (idleFrame 800 450 0)
          (courtGame 800 450 400 (-1) (16 / 5) (-12 / 5))).ball.velY
        = -(courtGame 800 450 400 (-1) (16 / 5) (-12 / 5) : Game ℝ).ball.velY
      ∧ 0 < (UpdateGameplayScreen realMath (idleFrame 800 450 0)
          (courtGame 800 450 400 (-1) (16 / 5) (-12 / 5))).ball.velY :=
  have c := atPlayer1Check_top 400 (-1) (16 / 5) (-12 / 5) (by norm_num) (by norm_num)
    (by norm_num)
  have h := top_bounce_spec realMath (idleFrame 800 450 0)
    (courtGame 800 450 400 (-1) (16 / 5) (-12 / 5)) rfl (by norm_num [courtGame])
  have hv := h.2
    (by rw [c]; norm_num [Overlaps, courtGame, InitGameplayScreen, ballSize, paddleWidth,
      paddleHeight])
    (by rw [c]; norm_num [Overlaps, courtGame, InitGameplayScreen, ballSize, paddleWidth,
      paddleHeight])
  ⟨rfl, by norm_num [courtGame], h.1 (by norm_num [courtGame, idleFrame, ballSize]), hv.1,
    hv.2 (by norm_num [courtGame])⟩

/-- On an 800 x 450 screen a ball at `(400, -1)` with velocity `(16/5, -12/5)`
bounces off the top wall and does not bounce there in the next frame; a ball
at `(400, 432)` with velocity `(12/5, 16/5)` bounces off the bottom wall to
`y = 433` and does not bounce there in the next frame. -/
theorem bounce_inset_spec_witness :
    (topBounceTaken (idleFrame 800 450 0)
        (courtGame 800 450 400 (-1) (16 / 5) (-12 / 5) : Game ℝ)
      ∧ (UpdateGameplayScreen realMath (idleFrame 800 450 0)
          (courtGame 800 450 400 (-1) (16 / 5) (-12 / 5))).ball.y = 1
      ∧ ¬ topBounceTaken (idleFrame 800 450 0)
          (UpdateGameplayScreen realMath (idleFrame 800 450 0)
            (courtGame 800 450 400 (-1) (16 / 5) (-12 / 5))))
    ∧ (bottomBounceTaken (idleFrame 800 450 0)
        (courtGame 800 450 400 432 (12 / 5) (16 / 5) : Game ℝ)
      ∧ (UpdateGameplayScreen realMath (idleFrame 800 450 0)
          (courtGame 800 450 400 432 (12 / 5) (16 / 5))).ball.y
        = ((idleFrame 800 450 (0 : ℝ)).screenHeight : ℝ) - (ballSize : ℝ) - 1
      ∧ ¬ bottomBounceTaken (idleFrame 800 450 0)
          (UpdateGameplayScreen realMath (idleFrame 800 450 0)
            (courtGame 800 450 400 432 (12 / 5) (16 / 5)))) :=
  have ct := atPlayer1Check_top 400 (-1) (16 / 5) (-12 / 5) (by norm_num) (by norm_num)
    (by norm_num)
  have cb := atPlayer1Check_bottom 400 432 (12 / 5) (16 / 5) (by norm_num) (by norm_num)
    (by norm_num) (by norm_num)
  have htop : topBounceTaken (idleFrame 800 450 0)
      (courtGame 800 450 400 (-1) (16 / 5) (-12 / 5) : Game ℝ) := by
    unfold topBounceTaken
    rw [(moveBall_players _ _).2.1]
    norm_num [courtGame]
  have hbot : bottomBounceTaken (idleFrame 800 450 0)
      (courtGame 800 450 400 432 (12 / 5) (16 / 5) : Game ℝ) := by
    unfold bottomBounceTaken
    rw [(moveBall_players _ _).2.1]
    norm_num [courtGame, idleFrame, ballSize]
  have ht := (bounce_inset_spec realMath (idleFrame 800 450 0)
    (courtGame 800 450 400 (-1) (16 / 5) (-12 / 5)) rfl
    (by norm_num [courtGame, idleFrame, ballSize])
    (by rw [ct]; norm_num [Overlaps, courtGame, InitGameplayScreen, ballSize, paddleWidth,
      paddleHeight])).1 htop (by norm_num [courtGame])
  have hb := (bounce_inset_spec realMath (idleFrame 800 450 0)
    (courtGame 800 450 400 432 (12 / 5) (16 / 5)) rfl
    (by norm_num [courtGame, idleFrame, ballSize])
    (by rw [cb]; norm_num [Overlaps, courtGame, InitGameplayScreen, ballSize, paddleWidth,
      paddleHeight])).2 hbot (by norm_num [courtGame])
  ⟨⟨htop, ht.2.1, ht.2.2.2 _⟩, ⟨hbot, hb.2.1, hb.2.2.2 _ (le_refl _)⟩⟩

/-- C17 as stated fails for the bottom wall when the screen gets lower.  On
the 800 x 450 screen a ball at `(400, 432)` with velocity `(12/5, 16/5)`
bounces off the bottom wall (no score, no paddle collision) and is put at
`y = 433` with `velY = -16/5`; a next frame on an 800 x 440 screen takes the
bottom-wall branch again. -/
theorem bounce_inset_counterexample :
    (courtGame 800 450 400 432 (12 / 5) (16 / 5) : Game ℝ).ballState = BallState.MOVING
      ∧ bottomBounceTaken (idleFrame 800 450 0)
          (courtGame 800 450 400 432 (12 / 5) (16 / 5) : Game ℝ)
      ∧ 0 < (courtGame 800 450 400 432 (12 / 5) (16 / 5) : Game ℝ).ball.velY
      ∧ UpdateGameplayScreen realMath (idleFrame 800 450 0)
          (courtGame 800 450 400 432 (12 / 5) (16 / 5))
        = { (courtGame 800 450 400 432 (12 / 5) (16 / 5) : Game ℝ) with
            ball := { x := 400 + 12 / 5, y := 433, velX := 12 / 5, velY := -(16 / 5),
                      servingTime := 2 } }
      ∧ bottomBounceTaken (idleFrame 800 440 0)
          (UpdateGameplayScreen realMath (idleFrame 800 450 0)
            (courtGame 800 450 400 432 (12 / 5) (16 / 5))) := by
  have cb := atPlayer1Check_bottom 400 432 (12 / 5) (16 / 5) (by norm_num) (by norm_num)
    (by norm_num) (by norm_num)
  have hu := update_moving_no_hit realMath (idleFrame 800 450 0)
    (courtGame 800 450 400 432 (12 / 5) (16 / 5)) rfl
    (by rw [cb]; norm_num [Overlaps, courtGame, InitGameplayScreen, ballSize, paddleWidth,
      paddleHeight])
    (by rw [cb]; norm_num [Overlaps, courtGame, InitGameplayScreen, ballSize, paddleWidth,
      paddleHeight])
  refine ⟨rfl, ?_, ?_, hu.trans cb, ?_⟩
  · unfold bottomBounceTaken
    rw [(moveBall_players _ _).2.1]
    norm_num [courtGame, idleFrame, ballSize]
  · norm_num [courtGame]
  · unfold bottomBounceTaken
    rw [(moveBall_players _ _).2.1, hu, cb]
    norm_num [idleFrame, ballSize]

/-! ## Double overlap -/

/-- The velocity set by the serve. -/
theorem serve_velocity {F : Type} [LinearOrderedField F] (m : Libm F) (f : Frame F)
    (s : Game F) (hs : s.ballState = BallState.SERVING)
    (ht : s.ball.servingTime + f.frameTime ≥ 2) :
    (UpdateGameplayScreen m f s).ballState = BallState.MOVING
      ∧ (UpdateGameplayScreen m f s).ball.velX
        = (SetBallVelocity m
            (if f.randSide ≥ 50 then (f.randAngle : F) + 180 else (f.randAngle : F)) s).ball.velX
      ∧ (UpdateGameplayScreen m f s).ball.velY
        = (SetBallVelocity m
            (if f.randSide ≥ 50 then (f.randAngle : F) + 180 else (f.randAngle : F)) s).ball.velY := by
  rw [update_serving m f s hs, if_pos ht]
  exact ⟨rfl, rfl, rfl⟩

/-- The serve sets the velocity from the first draw when the second draw is
below 50, and from the first draw plus 180 otherwise. -/
theorem serve_components {F : Type} [LinearOrderedField F] (m : Libm F) (f : Frame F)
    (s : Game F) (hs : s.ballState = BallState.SERVING)
    (ht : s.ball.servingTime + f.frameTime ≥ 2) :
    (f.randSide < 50 →
        (UpdateGameplayScreen m f s).ball.velX
            = (SetBallVelocity m (f.randAngle : F) s).ball.velX
          ∧ (UpdateGameplayScreen m f s).ball.velY
            = (SetBallVelocity m (f.randAngle : F) s).ball.velY)
      ∧ (50 ≤ f.randSide →
        (UpdateGameplayScreen m f s).ball.velX
            = (SetBallVelocity m ((f.randAngle : F) + 180) s).ball.velX
          ∧ (UpdateGameplayScreen m f s).ball.velY
            = (SetBallVelocity m ((f.randAngle : F) + 180) s).ball.velY) := by
  obtain ⟨-, vx, vy⟩ := serve_velocity m f s hs ht
  constructor
  · intro hd
    rw [vx, vy, if_neg (not_le.mpr hd)]
    exact ⟨rfl, rfl⟩
  · intro hd
    rw [vx, vy, if_pos hd]
    exact ⟨rfl, rfl⟩

/-- For an angle within 44 degrees of 0 or of 180 the stored `velY` is smaller
in magnitude than the stored `velX`. -/
theorem setBallVelocity_abs_lt {m : Libm ℝ} {δ : ℝ} (h : m.Within δ) (hδ : δ ≤ 1 / 100000)
    (angle : ℝ) (s : Game ℝ) (hA : |angle| ≤ 44 ∨ |angle - 180| ≤ 44) :
    |(SetBallVelocity m angle s).ball.velY| < |(SetBallVelocity m angle s).ball.velX| := by
  have h0 := within_nonneg h
  have hpi := Real.pi_gt_d2
  obtain ⟨nx, ny⟩ := setBallVelocity_near h hδ angle s
  have key : |Real.sin (radians m angle)| + 1 / 200 ≤ |Real.cos (radians m angle)| := by
    rcases hA with hA | hA
    · have hr := radians_near h hδ angle (hA.trans (by norm_num))
      have hA2 : |angle * Real.pi / 180| ≤ 44 * Real.pi / 180 := by
        rw [abs_div, abs_mul, abs_of_pos Real.pi_pos, abs_of_pos (by norm_num : (0 : ℝ) < 180)]
        exact div_le_div_of_nonneg_right (mul_le_mul_of_nonneg_right hA Real.pi_pos.le)
          (by norm_num)
      have hrad : |radians m angle| ≤ Real.pi / 4 - 1 / 100 := by
        have := abs_add (radians m angle - angle * Real.pi / 180) (angle * Real.pi / 180)
        rw [sub_add_cancel] at this
        linarith
      have := abs_sin_add_le_abs_cos _ _ (by norm_num) hrad
      linarith
    · obtain ⟨a1, a2⟩ := abs_le.mp hA
      have hr := radians_near h hδ angle (abs_le.mpr ⟨by linarith, by linarith⟩)
      have hA2 : |(angle - 180) * Real.pi / 180| ≤ 44 * Real.pi / 180 := by
        rw [abs_div, abs_mul, abs_of_pos Real.pi_pos, abs_of_pos (by norm_num : (0 : ℝ) < 180)]
        exact div_le_div_of_nonneg_right (mul_le_mul_of_nonneg_right hA Real.pi_pos.le)
          (by norm_num)
      have hrad : |radians m angle - Real.pi| ≤ Real.pi / 4 - 1 / 100 := by
        have := abs_add (radians m angle - angle * Real.pi / 180)
          ((angle - 180) * Real.pi / 180)
        have e : radians m angle - angle * Real.pi / 180 + (angle - 180) * Real.pi / 180
            = radians m angle - Real.pi := by ring
        rw [e] at this
        linarith
      have := abs_sin_add_le_abs_cos _ _ (by norm_num) hrad
      rw [Real.sin_sub_pi, Real.cos_sub_pi, abs_neg, abs_neg] at this
      linarith
  have ey : |(SetBallVelocity m angle s).ball.velY| ≤ 9 * δ + 4 * |Real.sin (radians m angle)| := by
    have := abs_add ((SetBallVelocity m angle s).ball.velY - 4 * Real.sin (radians m angle))
      (4 * Real.sin (radians m angle))
    rw [sub_add_cancel, abs_mul, abs_of_pos (by norm_num : (0 : ℝ) < 4)] at this
    linarith
  have ex : 4 * |Real.cos (radians m angle)|
      ≤ 9 * δ + |(SetBallVelocity m angle s).ball.velX| := by
    have := abs_add (4 * Real.cos (radians m angle) - (SetBallVelocity m angle s).ball.velX)
      ((SetBallVelocity m angle s).ball.velX)
    rw [sub_add_cancel, abs_mul, abs_of_pos (by norm_num : (0 : ℝ) < 4), abs_sub_comm] at this
    linarith
  linarith

/-- The serve for every library within `δ <= 10 ^ (-5)` of exact arithmetic:
with first draw `a` in `[-45, 45]`, `velX > 0` iff the second draw is below
50 and `velX < 0` iff it is at least 50, and `|velY| < |velX|` whenever
`-45 < a < 45`. -/
theorem serve_within (m : Libm ℝ) (δ : ℝ) (hm : m.Within δ) (hδ : δ ≤ 1 / 100000)
    (f : Frame ℝ) (s : Game ℝ) (hs : s.ballState = BallState.SERVING)
    (ht : s.ball.servingTime + f.frameTime ≥ 2)
    (ha : -45 ≤ f.randAngle ∧ f.randAngle ≤ 45) :
    (0 < (UpdateGameplayScreen m f s).ball.velX ↔ f.randSide < 50)
      ∧ ((UpdateGameplayScreen m f s).ball.velX < 0 ↔ 50 ≤ f.randSide)
      ∧ (-45 < f.randAngle ∧ f.randAngle < 45 →
          |(UpdateGameplayScreen m f s).ball.velY| < |(UpdateGameplayScreen m f s).ball.velX|) := by
  have ha1 : (-45 : ℝ) ≤ (f.randAngle : ℝ) := by exact_mod_cast ha.1
  have ha2 : (f.randAngle : ℝ) ≤ 45 := by exact_mod_cast ha.2
  have t1 := setBallVelocity_velX_pos hm hδ (f.randAngle : ℝ) s
    (abs_le.mpr ⟨by linarith, by linarith⟩)
  have t2 := setBallVelocity_velX_neg hm hδ ((f.randAngle : ℝ) + 180) s
    (abs_le.mpr ⟨by linarith, by linarith⟩)
  obtain ⟨c1, c2⟩ := serve_components m f s hs ht
  refine ⟨?_, ?_, ?_⟩
  · by_cases hd : f.randSide < 50
    · rw [(c1 hd).1]
      exact ⟨fun _ => hd, fun _ => t1⟩
    · rw [(c2 (not_lt.mp hd)).1]
      exact ⟨fun h => absurd t2 (not_lt.mpr (le_of_lt h)), fun h => absurd h hd⟩
  · by_cases hd : f.randSide < 50
    · rw [(c1 hd).1]
      exact ⟨fun h => absurd t1 (not_lt.mpr (le_of_lt h)), fun h => absurd hd (not_lt.mpr h)⟩
    · rw [(c2 (not_lt.mp hd)).1]
      exact ⟨fun _ => not_lt.mp hd, fun _ => t2⟩
  · rintro ⟨k1, k2⟩
    have k3 : (-44 : ℝ) ≤ (f.randAngle : ℝ) := by
      have : -44 ≤ f.randAngle := by omega
      exact_mod_cast this
    have k4 : (f.randAngle : ℝ) ≤ 44 := by
      have : f.randAngle ≤ 44 := by omega
      exact_mod_cast this
    by_cases hd : f.randSide < 50
    · rw [(c1 hd).1, (c1 hd).2]
      exact setBallVelocity_abs_lt hm hδ _ s (Or.inl (abs_le.mpr ⟨by linarith, by linarith⟩))
    · rw [(c2 (not_lt.mp hd)).1, (c2 (not_lt.mp hd)).2]
      exact setBallVelocity_abs_lt hm hδ _ s (Or.inr (abs_le.mpr ⟨by linarith, by linarith⟩))

/-- The velocities that `SetBallVelocity` stores in binary32 arithmetic for
the 91 serve angles toward Player 2 and the 91 serve angles toward Player 1. -/
theorem floatMath_serve_table (a : Int) (h1 : -45 ≤ a) (h2 : a ≤ 45) :
    0 < (SetBallVelocity floatMath (a : ℚ) (startGame ℚ)).ball.velX
      ∧ (SetBallVelocity floatMath ((a : ℚ) + 180) (startGame ℚ)).ball.velX < 0
      ∧ |(SetBallVelocity floatMath (a : ℚ) (startGame ℚ)).ball.velY|
          ≤ |(SetBallVelocity floatMath (a : ℚ) (startGame ℚ)).ball.velX|
      ∧ |(SetBallVelocity floatMath ((a : ℚ) + 180) (startGame ℚ)).ball.velY|
          ≤ |(SetBallVelocity floatMath ((a : ℚ) + 180) (startGame ℚ)).ball.velX|
      ∧ (-45 < a → a < 45 →
        |(SetBallVelocity floatMath (a : ℚ) (startGame ℚ)).ball.velY|
            < |(SetBallVelocity floatMath (a : ℚ) (startGame ℚ)).ball.velX|
          ∧ |(SetBallVelocity floatMath ((a : ℚ) + 180) (startGame ℚ)).ball.velY|
            < |(SetBallVelocity floatMath ((a : ℚ) + 180) (startGame ℚ)).ball.velX|) := by
  interval_cases a <;> decide!

/-- C15, amended: on the serve in binary32 arithmetic, with first draw `a` in
`[-45, 45]` and second draw `d` in `[0, 99]`, the velocity is the one
`SetBallVelocity` stores for the angle `a` when `d < 50` and for `a + 180`
when `d >= 50`; `velX > 0` iff `d < 50` and `velX < 0` iff `d >= 50`, so
exactly 50 of the 100 values of `d` serve toward each side; and
`|velY| <= |velX|`, with `|velY| < |velX|` whenever `-45 < a < 45`. -/
theorem serve_spec (f : Frame ℚ) (s : Game ℚ) (hs : s.ballState = BallState.SERVING)
    (ht : s.ball.servingTime + f.frameTime ≥ 2)
    (ha : -45 ≤ f.randAngle ∧ f.randAngle ≤ 45) (_hd : 0 ≤ f.randSide ∧ f.randSide ≤ 99) :
    (UpdateGameplayScreen floatMath f s).ballState = BallState.MOVING
      ∧ (f.randSide < 50 →
        (UpdateGameplayScreen floatMath f s).ball.velX
            = (SetBallVelocity floatMath (f.randAngle : ℚ) s).ball.velX
          ∧ (UpdateGameplayScreen floatMath f s).ball.velY
            = (SetBallVelocity floatMath (f.randAngle : ℚ) s).ball.velY)
      ∧ (50 ≤ f.randSide →
        (UpdateGameplayScreen floatMath f s).ball.velX
            = (SetBallVelocity floatMath ((f.randAngle : ℚ) + 180) s).ball.velX
          ∧ (UpdateGameplayScreen floatMath f s).ball.velY
            = (SetBallVelocity floatMath ((f.randAngle : ℚ) + 180) s).ball.velY)
      ∧ (0 < (UpdateGameplayScreen floatMath f s).ball.velX ↔ f.randSide < 50)
      ∧ ((UpdateGameplayScreen floatMath f s).ball.velX < 0 ↔ 50 ≤ f.randSide)
      ∧ (Finset.filter (fun d : Int =>
            0 < (UpdateGameplayScreen floatMath { f with randSide := d } s).ball.velX)
          (Finset.Icc 0 99)).card = 50
      ∧ (Finset.filter (fun d : Int =>
            (UpdateGameplayScreen floatMath { f with randSide := d } s).ball.velX < 0)
          (Finset.Icc 0 99)).card = 50
      ∧ |(UpdateGameplayScreen floatMath f s).ball.velY|
          ≤ |(UpdateGameplayScreen floatMath f s).ball.velX|
      ∧ (-45 < f.randAngle ∧ f.randAngle < 45 →
          |(UpdateGameplayScreen floatMath f s).ball.velY|
            < |(UpdateGameplayScreen floatMath f s).ball.velX|) := by
  obtain ⟨t1, t2, t3, t4, t5⟩ := floatMath_serve_table f.randAngle ha.1 ha.2
  -- the sign of velX for any second draw
  have hsign : ∀ g : Frame ℚ, g.randAngle = f.randAngle →
      s.ball.servingTime + g.frameTime ≥ 2 →
      (0 < (UpdateGameplayScreen floatMath g s).ball.velX ↔ g.randSide < 50)
        ∧ ((UpdateGameplayScreen floatMath g s).ball.velX < 0 ↔ 50 ≤ g.randSide) := by
    intro g hg hgt
    obtain ⟨c1, c2⟩ := serve_components floatMath g s hs hgt
    rw [hg] at c1 c2
    by_cases hd : g.randSide < 50
    · rw [(c1 hd).1]
      exact ⟨⟨fun _ => hd, fun _ => t1⟩,
        ⟨fun h => absurd t1 (not_lt.mpr (le_of_lt h)), fun h => absurd hd (not_lt.mpr h)⟩⟩
    · have hd2 := not_lt.mp hd
      rw [(c2 hd2).1]
      exact ⟨⟨fun h => absurd t2 (not_lt.mpr (le_of_lt h)), fun h => absurd h hd⟩,
        ⟨fun _ => hd2, fun _ => t2⟩⟩
  obtain ⟨c1, c2⟩ := serve_components floatMath f s hs ht
  refine ⟨(serve_velocity floatMath f s hs ht).1, c1, c2, (hsign f rfl ht).1, (hsign f rfl ht).2,
    ?_, ?_, ?_, ?_⟩
  · rw [Finset.filter_congr (q := fun d : Int => d < 50)
      (fun d _ => (hsign { f with randSide := d } rfl ht).1)]
    rfl
  · rw [Finset.filter_congr (q := fun d : Int => 50 ≤ d)
      (fun d _ => (hsign { f with randSide := d } rfl ht).2)]
    rfl
  · by_cases hd : f.randSide < 50
    · rw [(c1 hd).1, (c1 hd).2]
      exact t3
    · rw [(c2 (not_lt.mp hd)).1, (c2 (not_lt.mp hd)).2]
      exact t4
  · rintro ⟨k1, k2⟩
    by_cases hd : f.randSide < 50
    · rw [(c1 hd).1, (c1 hd).2]
      exact (t5 k1 k2).1
    · rw [(c2 (not_lt.mp hd)).1, (c2 (not_lt.mp hd)).2]
      exact (t5 k1 k2).2

/-- C15 as stated fails: with first draw `a = 45` and second draw `d = 0` the
serve stores `velX = velY = 11863283 / 2 ^ 22` (`2.82842708`), so
`|velY| < |velX|` does not hold. -/
theorem serve_counterexample :
    (startGame ℚ).ballState = BallState.SERVING
      ∧ (startGame ℚ).ball.servingTime
          + ({ idleFrame 800 450 (2 : ℚ) with randAngle := 45 } : Frame ℚ).frameTime ≥ 2
      ∧ (-45 ≤ ({ idleFrame 800 450 (2 : ℚ) with randAngle := 45 } : Frame ℚ).randAngle
        ∧ ({ idleFrame 800 450 (2 : ℚ) with randAngle := 45 } : Frame ℚ).randAngle ≤ 45)
      ∧ (0 ≤ ({ idleFrame 800 450 (2 : ℚ) with randAngle := 45 } : Frame ℚ).randSide
        ∧ ({ idleFrame 800 450 (2 : ℚ) with randAngle := 45 } : Frame ℚ).randSide ≤ 99)
      ∧ (UpdateGameplayScreen floatMath { idleFrame 800 450 (2 : ℚ) with randAngle := 45 }
          (startGame ℚ)).ball.velX = 11863283 / 4194304
      ∧ (UpdateGameplayScreen floatMath { idleFrame 800 450 (2 : ℚ) with randAngle := 45 }
          (startGame ℚ)).ball.velY = 11863283 / 4194304
      ∧ ¬ |(UpdateGameplayScreen floatMath { idleFrame 800 450 (2 : ℚ) with randAngle := 45 }
          (startGame ℚ)).ball.velY|
        < |(UpdateGameplayScreen floatMath { idleFrame 800 450 (2 : ℚ) with randAngle := 45 }
          (startGame ℚ)).ball.velX| := by
  decide!

/-- The start-up globals served by a 2-second frame with draws `a = 0` and
`d = 0`: the ball moves toward Player 2. -/
theorem serve_spec_witness :
    (startGame ℚ).ballState = BallState.SERVING
      ∧ (startGame ℚ).ball.servingTime + (idleFrame 800 450 (2 : ℚ)).frameTime ≥ 2
      ∧ (-45 ≤ (idleFrame 800 450 (2 : ℚ)).randAngle ∧ (idleFrame 800 450 (2 : ℚ)).randAngle ≤ 45)
      ∧ (0 ≤ (idleFrame 800 450 (2 : ℚ)).randSide ∧ (idleFrame 800 450 (2 : ℚ)).randSide ≤ 99)
      ∧ (UpdateGameplayScreen floatMath (idleFrame 800 450 2) (startGame ℚ)).ballState
        = BallState.MOVING
      ∧ 0 < (UpdateGameplayScreen floatMath (idleFrame 800 450 2) (startGame ℚ)).ball.velX
      ∧ |(UpdateGameplayScreen floatMath (idleFrame 800 450 2) (startGame ℚ)).ball.velY|
        < |(UpdateGameplayScreen floatMath (idleFrame 800 450 2) (startGame ℚ)).ball.velX| :=
  have ht : (startGame ℚ).ball.servingTime + (idleFrame 800 450 (2 : ℚ)).frameTime ≥ 2 := by
    norm_num [startGame, idleFrame]
  have h := serve_spec (idleFrame 800 450 2) (startGame ℚ) rfl ht ⟨by decide, by decide⟩
    ⟨by decide, by decide⟩
  ⟨rfl, ht, ⟨by decide, by decide⟩, ⟨by decide, by decide⟩, h.1,
    h.2.2.2.1.mpr (by decide), h.2.2.2.2.2.2.2.2 ⟨by decide, by decide⟩⟩

/-! ## Drawing and the score text -/

section Drawing

variable {F : Type}

/-- When the score's text and its terminator fit the buffer,
`DrawPaddleAndScore` writes the text and nothing else. -/
theorem drawPaddleAndScore_of_fits (p : Paddle F)
    (h : (scoreText p.score).length + 1 ≤ scoreStrSize) :
    DrawPaddleAndScore p = some { p with scoreStr := scoreText p.score } := by
  unfold DrawPaddleAndScore
  rw [if_pos h]

/-- When the text does not fit, `DrawPaddleAndScore` writes past the buffer. -/
theorem drawPaddleAndScore_overflow (p : Paddle F)
    (h : ¬ (scoreText p.score).length + 1 ≤ scoreStrSize) : DrawPaddleAndScore p = none := by
  unfold DrawPaddleAndScore
  rw [if_neg h]

/-- When both score texts fit, `DrawGameplayScreen` changes only the two
`scoreStr` fields, which then hold the texts of the scores. -/
theorem drawGameplayScreen_eq (s : Game F)
    (h1 : (scoreText s.player1.score).length + 1 ≤ scoreStrSize)
    (h2 : (scoreText s.player2.score).length + 1 ≤ scoreStrSize) :
    DrawGameplayScreen s
      = some { s with
          player1 := { s.player1 with scoreStr := scoreText s.player1.score }
          player2 := { s.player2 with scoreStr := scoreText s.player2.score } } := by
  unfold DrawGameplayScreen
  rw [drawPaddleAndScore_of_fits _ h1, drawPaddleAndScore_of_fits _ h2]

/-- When both score texts fit, drawing a second time gives the state of the
first drawing. -/
theorem drawGameplayScreen_twice (s t : Game F)
    (h1 : (scoreText s.player1.score).length + 1 ≤ scoreStrSize)
    (h2 : (scoreText s.player2.score).length + 1 ≤ scoreStrSize)
    (hd : DrawGameplayScreen s = some t) : DrawGameplayScreen t = some t := by
  rw [drawGameplayScreen_eq s h1 h2] at hd
  cases hd
  exact drawGameplayScreen_eq _ h1 h2

/-- `DrawGameplayScreen` is undefined as soon as Player 1's score text does
not fit the buffer. -/
theorem drawGameplayScreen_overflow (s : Game F)
    (h : ¬ (scoreText s.player1.score).length + 1 ≤ scoreStrSize) :
    DrawGameplayScreen s = none := by
  unfold DrawGameplayScreen
  rw [drawPaddleAndScore_overflow _ h]

end Drawing

/-! ## Scores are not bounded -/

/-- The wall step for a ball strictly between the walls. -/
theorem bounceWalls_none {F : Type} [LinearOrderedField F] (h : Int) (s : Game F)
    (h1 : ¬ s.ball.y ≤ 0) (h2 : ¬ s.ball.y ≥ ((h - ballSize : Int) : F)) :
    bounceWalls h s = s := by
  unfold bounceWalls
  rw [if_neg h1, if_neg h2]

theorem rally_init : InitGameplayScreen 800 450 (startGame ℝ) = rallyServing 0 193 0 0 := by
  norm_num [InitGameplayScreen, startGame, rallyServing, paddleHeight, paddleWidth]

/-- The serving frame of the rally serves the ball at angle 0 and moves
Player 2 to the bottom. -/
theorem rally_serve (k : Int) (p2y vx vy : ℝ) (hp : -114 < p2y) :
    UpdateGameplayScreen realMath rallyServeFrame (rallyServing k p2y vx vy)
      = rallyMoving k 400 := by
  have hk : (386 : ℝ) < p2y + 500 := by linarith
  rw [update_serving realMath _ _ rfl]
  norm_num [rallyServeFrame, idleFrame, rallyServing, rallyMoving, updatePlayer1, updatePlayer2,
    SetBallVelocity, realMath, ballSpeed, paddleHeight]
  intro h
  linarith

/-- One frame of flight. -/
theorem rally_fly (k : Int) (x : ℝ) (h0 : 400 ≤ x) (h1 : x + 4 ≤ 820) :
    UpdateGameplayScreen realMath (idleFrame 800 450 0) (rallyMoving k x)
      = rallyMoving k (x + 4) := by
  have hm : moveBall (rallyMoving k x : Game ℝ) = rallyMoving k (x + 4) := by
    simp [moveBall, rallyMoving]
  rw [update_moving_eq _ _ _ rfl]
  unfold atPlayer2Check atPlayer1Check
  rw [updatePlayers_idle, hm, bounceWalls_none, checkScore_none,
    collidePlayer1_of_not_overlaps, collidePlayer2_of_not_overlaps]
  · norm_num [Overlaps, rallyMoving, ballSize, paddleWidth, paddleHeight]
  · norm_num [Overlaps, rallyMoving, ballSize, paddleWidth, paddleHeight]
    intro _
    linarith
  · norm_num [rallyMoving, ballSize]
    linarith
  · norm_num [rallyMoving, idleFrame]
    linarith
  · norm_num [rallyMoving]
  · norm_num [rallyMoving, idleFrame, ballSize]

/-- Flight for `n` frames. -/
theorem rally_fly_n (k : Int) (n : Nat) (x : ℝ) (h0 : 400 ≤ x) (h1 : x + 4 * n ≤ 820) :
    (UpdateGameplayScreen realMath (idleFrame 800 450 0))^[n] (rallyMoving k x)
      = rallyMoving k (x + 4 * n) := by
  induction n generalizing x with
  | zero => simp
  | succ n ih =>
    have hn : (0 : ℝ) ≤ (n : ℝ) := Nat.cast_nonneg n
    push_cast at h1
    rw [Function.iterate_succ_apply, rally_fly k x h0 (by linarith),
      ih (x + 4) (by linarith) (by linarith)]
    push_cast
    congr 1
    ring

/-- The frame in which the ball leaves the screen: Player 1 scores. -/
theorem rally_score (k : Int) (x : ℝ) (h1 : 820 < x + 4) :
    UpdateGameplayScreen realMath (idleFrame 800 450 0) (rallyMoving k x)
      = rallyScored (incrInt32 k) := by
  have hm : moveBall (rallyMoving k x : Game ℝ) = rallyMoving k (x + 4) := by
    simp [moveBall, rallyMoving]
  have hc : checkScore 800 450 (rallyMoving k (x + 4) : Game ℝ)
      = rallyScored (incrInt32 k) := by
    rw [checkScore_right]
    · norm_num [rallyMoving, rallyScored]
    · norm_num [rallyMoving, ballSize]
      linarith
    · norm_num [rallyMoving]
      linarith
  rw [update_moving_eq _ _ _ rfl]
  unfold atPlayer2Check atPlayer1Check
  rw [updatePlayers_idle, hm, bounceWalls_none]
  · show collidePlayer2 realMath (collidePlayer1 realMath
      (checkScore 800 450 (rallyMoving k (x + 4)))) = _
    rw [hc, collidePlayer1_of_not_overlaps, collidePlayer2_of_not_overlaps]
    · norm_num [Overlaps, rallyScored, ballSize, paddleWidth, paddleHeight]
    · norm_num [Overlaps, rallyScored, ballSize, paddleWidth, paddleHeight]
  · norm_num [rallyMoving]
  · norm_num [rallyMoving, idleFrame, ballSize]

/-- The 2-second pause after the point. -/
theorem rally_pause (k : Int) :
    UpdateGameplayScreen realMath (idleFrame 800 450 2) (rallyScored k)
      = rallyServing k 386 4 0 := by
  rw [update_scored realMath _ _ rfl, updatePlayers_idle]
  norm_num [rallyScored, rallyServing, idleFrame]

/-- One point of the rally increments Player 1's score. -/
theorem playPoint_rally (k : Int) (p2y vx vy : ℝ) (hp : -114 < p2y) :
    playPoint realMath (rallyServing k p2y vx vy) = rallyServing (incrInt32 k) 386 4 0 := by
  unfold playPoint
  rw [rally_serve k p2y vx vy hp, Function.iterate_succ_apply',
    rally_fly_n k 105 400 (le_refl _) (by norm_num), rally_score k _ (by norm_num),
    rally_pause]

/-- After `n + 1` points of the rally Player 1 has `n + 1` points, as long as
that count is a value of the 32-bit `int score`. -/
theorem playPoint_iterate (n : Nat) (hn : n < 2147483647) :
    (playPoint realMath)^[n + 1] (InitGameplayScreen 800 450 (startGame ℝ))
      = rallyServing ((n : Int) + 1) 386 4 0 := by
  induction n with
  | zero =>
    rw [Function.iterate_succ_apply', Function.iterate_zero_apply, rally_init,
      playPoint_rally 0 193 0 0 (by norm_num), incrInt32_of_lt 0 (by norm_num) (by norm_num)]
    norm_num
  | succ n ih =>
    rw [Function.iterate_succ_apply', ih (by omega), playPoint_rally _ 386 4 0 (by norm_num),
      incrInt32_of_lt _ (by omega) (by omega)]
    push_cast
    rfl

/-- States reached with frames of one kind are reached with frames of any
wider kind. -/
theorem reachableFrom_mono {F : Type} [LinearOrderedField F] (m : Libm F)
    (ok ok2 : Frame F → Prop) (hok : ∀ f, ok f → ok2 f) (s0 s : Game F)
    (h : ReachableFrom m ok s0 s) : ReachableFrom m ok2 s0 s := by
  induction h with
  | start => exact ReachableFrom.start
  | step f t _ hf ih => exact ReachableFrom.step f t ih (hok f hf)

/-- Repeating an admissible frame stays within the reachable states. -/
theorem reachableFrom_iterate {F : Type} [LinearOrderedField F] (m : Libm F)
    (ok : Frame F → Prop) (s0 : Game F) (f : Frame F) (hf : ok f) (n : Nat) (s : Game F)
    (h : ReachableFrom m ok s0 s) :
    ReachableFrom m ok s0 ((UpdateGameplayScreen m f)^[n] s) := by
  induction n with
  | zero => exact h
  | succ n ih =>
    rw [Function.iterate_succ_apply']
    exact ReachableFrom.step f _ ih hf

/-- The frames of the rally are frames of a game on the 800 x 450 screen. -/
theorem rally_frames_onCourt :
    (rallyServeFrame : Frame ℝ).OnCourt ∧ (idleFrame 800 450 (0 : ℝ)).OnCourt
      ∧ (idleFrame 800 450 (2 : ℝ)).OnCourt := by
  refine ⟨?_, ?_, ?_⟩ <;>
    norm_num [Frame.OnCourt, Frame.Valid, rallyServeFrame, idleFrame]

/-- Every number of points of the rally is reachable on the 800 x 450
screen. -/
theorem rally_reachable (n : Nat) :
    ReachableFrom realMath Frame.OnCourt (InitGameplayScreen 800 450 (startGame ℝ))
      ((playPoint realMath)^[n] (InitGameplayScreen 800 450 (startGame ℝ))) := by
  obtain ⟨f1, f2, f3⟩ := rally_frames_onCourt
  induction n with
  | zero => exact ReachableFrom.start
  | succ n ih =>
    rw [Function.iterate_succ_apply']
    unfold playPoint
    exact ReachableFrom.step _ _
      (reachableFrom_iterate realMath _ _ _ f2 106 _ (ReachableFrom.step _ _ ih f1)) f3

/-- The scores 0 to 99 have a text that fits the buffer with its
terminator. -/
theorem scoreText_fits (n : Int) (h0 : 0 ≤ n) (h1 : n ≤ 99) :
    (scoreText n).length + 1 ≤ scoreStrSize := by
  obtain ⟨k, rfl⟩ := Int.eq_ofNat_of_zero_le h0
  have hk : k ≤ 99 := by exact_mod_cast h1
  interval_cases k <;> decide

/-- C13 fails on the code.  With both scores at most 99 `DrawGameplayScreen`
only writes the two score texts (here `"99"` and `"0"`), but in the reachable
state where Player 1 has 100 points the text `"100"` and its terminator need
4 bytes: `sprintf` writes past the 3-byte `scoreStr` and the state after
`DrawGameplayScreen` is undefined. -/
theorem draw_overflow :
    DrawGameplayScreen (rallyServing 99 386 4 0 : Game ℝ)
        = some { (rallyServing 99 386 4 0 : Game ℝ) with
            player1 := { (rallyServing 99 386 4 0 : Game ℝ).player1 with scoreStr := "99" }
            player2 := { (rallyServing 99 386 4 0 : Game ℝ).player2 with scoreStr := "0" } }
      ∧ Reachable realMath (rallyServing 100 386 4 0)
      ∧ DrawGameplayScreen (rallyServing 100 386 4 0 : Game ℝ) = none := by
  refine ⟨?_, ?_, ?_⟩
  · rw [drawGameplayScreen_eq _ (by decide) (by decide)]
    rfl
  · have h := rally_reachable 100
    rw [playPoint_iterate 99 (by norm_num)] at h
    exact ⟨800, 450, startGame ℝ,
      reachableFrom_mono realMath _ _ (fun f hf => hf.1) _ _ h⟩
  · exact drawGameplayScreen_overflow _ (by decide)

/-- C20 fails on the code: scores are not bounded by 99.  On the 800 x 450
screen, from the start-up globals, every score `n + 1` of Player 1 up to
`INT_MAX`, the largest value of the 32-bit `int score`, is reachable, and the
point after `INT_MAX` wraps the score to `-2147483648`; at 100 points the
score text `"100"` has 3 characters, so with its terminator it does not fit
the 3-byte `scoreStr` and `DrawPaddleAndScore` writes past the buffer. -/
theorem score_unbounded :
    (∀ n : Nat, n < 2147483647 → ReachableFrom realMath Frame.OnCourt
        (InitGameplayScreen 800 450 (startGame ℝ)) (rallyServing ((n : Int) + 1) 386 4 0))
      ∧ playPoint realMath (rallyServing 2147483647 386 4 0) = rallyServing (-2147483648) 386 4 0
      ∧ Reachable realMath (rallyServing 100 386 4 0)
      ∧ (rallyServing 100 386 4 0 : Game ℝ).player1.score = 100
      ∧ ¬ (rallyServing 100 386 4 0 : Game ℝ).player1.score ≤ 99
      ∧ scoreText (rallyServing 100 386 4 0 : Game ℝ).player1.score = "100"
      ∧ ¬ (scoreText (rallyServing 100 386 4 0 : Game ℝ).player1.score).length + 1
          ≤ scoreStrSize
      ∧ DrawPaddleAndScore (rallyServing 100 386 4 0 : Game ℝ).player1 = none := by
  have hall : ∀ n : Nat, n < 2147483647 → ReachableFrom realMath Frame.OnCourt
      (InitGameplayScreen 800 450 (startGame ℝ)) (rallyServing ((n : Int) + 1) 386 4 0) := by
    intro n hn
    have h := rally_reachable (n + 1)
    rw [playPoint_iterate n hn] at h
    exact h
  refine ⟨hall, ?_, ?_, rfl, by decide, by decide, by decide, ?_⟩
  · rw [playPoint_rally 2147483647 386 4 0 (by norm_num), incrInt32_max]
  · exact ⟨800, 450, startGame ℝ,
      reachableFrom_mono realMath _ _ (fun f hf => hf.1) _ _ (hall 99 (by norm_num))⟩
  · exact drawPaddleAndScore_overflow _ (by decide)

end Pong
